import Mathlib

/-!
# OpenRW: frame loop, day/night clock and character controller

A shallow embedding of

* `RWGame::run` / `RWGame::tick` (`src/rwgame/RWGame.cpp`): the fixed-timestep
  stepping loop, the interpolation factor and the in-game clock;
* `CharacterController` and the `Activities` (`src/rwengine/src/ai/CharacterController.cpp`).

Conventions of the embedding:

* `float` values are embedded twice. The definitions of the first part read them as exact
  rationals (`ℚ`): no rounding, no infinities, no NaN, a decimal literal such as `0.1f`
  standing for the decimal fraction it is written as. They carry the results that do not turn
  on the value of a rounded quantity: which activity a slot holds, which calls are made and in
  which order, which value is stored. The definitions of the namespace `Binary32` read them as
  IEEE 754 binary32 (`F32`), every operation rounded to nearest, ties to even, with
  subnormals, overflow to infinity and NaN, a literal standing for the binary32 value nearest
  to it. They carry the results on thresholds and accumulated time: the number of steps of
  the stepping loop, the magnitude tests of `GoTo`, `EnterVehicle` and of the controller, and
  the idle timer.
* a `while` loop is embedded with the fuel-indexed combinator `whileLoop`; the result is
  `none` when the fuel is spent while the loop condition still holds.
* a dereference of a null or dangling pointer is undefined behaviour and is embedded as `none`.
-/

namespace OpenRW

/-! ## Loops -/

/-- Embedding of `while (cond) { body }`: at most `fuel` iterations of `body`; `none` when the
condition still holds after the last permitted iteration, or when the body itself fails. -/
def whileLoop {σ : Type} (cond : σ → Bool) (body : σ → Option σ) : ℕ → σ → Option σ
  | 0, s => if cond s then none else some s
  | fuel + 1, s => if cond s then (body s).bind (whileLoop cond body fuel) else some s

/-! ## `RWGame::run`: the stepping loop (RWGame.cpp:224-245) -/

/-- The members of `RWGame` that the stepping loop of `run` reads or writes, with two
instrumentation counters: `ticks` counts the executions of `tick(GAME_TIMESTEP)` (line 230) and
`discarded` sums the time dropped by `accum = 0.f` (line 237). -/
structure RWGame where
  accum : ℚ
  timescale : ℚ
  ticks : ℕ
  discarded : ℚ
  deriving DecidableEq, Repr

namespace RWGame

/-- The state set up by the constructor (RWGame.cpp:30): `accum(0.f), timescale(1.f)`. -/
def init : RWGame := { accum := 0, timescale := 1, ticks := 0, discarded := 0 }

/-- Body of the stepping loop, lines 228-238; `T` is `GAME_TIMESTEP`. Exact reading, both calls
taken to return; `Binary32.RWGame.stepBody` is the reading with rounding and with the
exception that `tick` may throw. -/
def stepBody (T : ℚ) (g : RWGame) : RWGame :=
  -- StateManager::get().tick(GAME_TIMESTEP); tick(GAME_TIMESTEP);
  let g := { g with ticks := g.ticks + 1 }
  -- accum -= GAME_TIMESTEP;
  let g := { g with accum := g.accum - T }
  -- if ( accum > GAME_TIMESTEP * 5.f ) accum = 0.f;
  if g.accum > T * 5 then
    { g with accum := 0, discarded := g.discarded + g.accum }
  else
    g

/-- The stepping loop `while ( accum >= GAME_TIMESTEP ) { ... }`, lines 227-239. -/
def stepLoop (T : ℚ) (fuel : ℕ) (g : RWGame) : Option RWGame :=
  whileLoop (fun g => decide (g.accum ≥ T)) (fun g => some (stepBody T g)) fuel g

/-- One iteration of the frame loop as far as the accumulator is concerned, lines 224-239:
`accum += timer * timescale` followed by the stepping loop. Exact reading;
`Binary32.RWGame.frame` is the reading with rounding. -/
def frame (T : ℚ) (fuel : ℕ) (g : RWGame) (timer : ℚ) : Option RWGame :=
  stepLoop T fuel { g with accum := g.accum + timer * g.timescale }

/-- C library `fmod(x, y)`: `x - n * y` where `n` is `x / y` truncated towards zero
(for `y ≠ 0`). -/
def fmod (x y : ℚ) : ℚ :=
  x - (if 0 ≤ x / y then ⌊x / y⌋ else ⌈x / y⌉) * y

/-- The interpolation factor, lines 241-245. -/
def alpha (T : ℚ) (accum : ℚ) (shouldWorldUpdate : Bool) : ℚ :=
  let alpha := fmod accum T / T
  if !shouldWorldUpdate then 1 else alpha

end RWGame

/-! ## `RWGame::tick`: the in-game clock (RWGame.cpp:266-281) -/

/-- The clock counters `engine->state.hour` and `engine->state.minute`. -/
structure GameClock where
  hour : ℕ
  minute : ℕ
  deriving DecidableEq, Repr

namespace GameClock

/-- Lines 276-278: `while( hour >= 24 ) { hour = 0; }`. -/
def hourWrap (fuel : ℕ) (s : GameClock) : Option GameClock :=
  whileLoop (fun s => decide (s.hour ≥ 24)) (fun s => some { s with hour := 0 }) fuel s

/-- Lines 273-279: `while( minute >= 60 ) { minute = 0; hour ++; while( hour >= 24 ) ... }`. -/
def minuteWrap (fuel : ℕ) (s : GameClock) : Option GameClock :=
  whileLoop (fun s => decide (s.minute ≥ 60))
    (fun s => hourWrap fuel { s with minute := 0, hour := s.hour + 1 }) fuel s

/-- Lines 272-279: `minute ++` followed by the carry loops; this is what one iteration of
`while( clockAccumulator >= 1.f )` does to the clock. -/
def minuteIncrement (fuel : ℕ) (s : GameClock) : Option GameClock :=
  minuteWrap fuel { s with minute := s.minute + 1 }

/-- The minute increment applied `n` times in a row. -/
def minuteIncrements (fuel : ℕ) : ℕ → GameClock → Option GameClock
  | 0, s => some s
  | n + 1, s => (minuteIncrement fuel s).bind (minuteIncrements fuel n)

end GameClock

/-! ## Vectors and rotations -/

/-- The type `glm::vec3` with exact components. -/
structure Vec3 where
  x : ℚ
  y : ℚ
  z : ℚ
  deriving DecidableEq, Repr

namespace Vec3

/-- The value `glm::vec3()`. -/
def zero : Vec3 := ⟨0, 0, 0⟩

/-- Component-wise difference `a - b`. -/
def sub (a b : Vec3) : Vec3 := ⟨a.x - b.x, a.y - b.y, a.z - b.z⟩

/-- Square of `glm::length(v)`. -/
def length2 (v : Vec3) : ℚ := v.x * v.x + v.y * v.y + v.z * v.z

/-- Square of `glm::length(glm::vec2(v))`, the horizontal length. -/
def length2XY (v : Vec3) : ℚ := v.x * v.x + v.y * v.y

/-- Square of `glm::distance(a, b)`. -/
def distance2 (a b : Vec3) : ℚ := (a.sub b).length2

/-- The comparison `glm::length(v) < c` for a constant `c ≥ 0`, decided on the squares (exact
reading; the rounded length is `Binary32.Vec3.length`). -/
def lengthLt (v : Vec3) (c : ℚ) : Bool := decide (v.length2 < c * c)

/-- The comparison `glm::length(v) > c` for a constant `c ≥ 0`, decided on the squares (exact
reading; the rounded length is `Binary32.Vec3.length`). -/
def lengthGt (v : Vec3) (c : ℚ) : Bool := decide (v.length2 > c * c)

/-- The comparison `glm::length(v) <= c` for a constant `c ≥ 0`, decided on the squares (exact
reading; the rounded length is `Binary32.Vec3.length`). -/
def lengthLe (v : Vec3) (c : ℚ) : Bool := decide (v.length2 ≤ c * c)

end Vec3

/-- The type `glm::quat`. The constructor `facing dy dx` stands for the quaternion
`glm::quat(glm::vec3{0, 0, atan2(dy, dx) - glm::half_pi<float>()})`, whose components are not
rational; it is kept symbolic. -/
inductive Quat where
  | wxyz (w x y z : ℚ)
  | facing (dy dx : ℚ)
  deriving DecidableEq, Repr

/-- The constant `std::numeric_limits<float>::max()`, that is `(2^24 - 1) * 2^104`. -/
def FLT_MAX : ℚ := (2 ^ 24 - 1) * 2 ^ 104

/-! ## Characters and vehicles

`CharacterObject`, `Animator` and `VehicleObject` are implemented outside the two source files;
the controller only reaches them through the calls listed in section 6 of the specification. -/

/-- An `Animation*`; `none` is the null pointer. -/
abbrev AnimPtr := Option ℕ

/-- Modelled from the spec: the `Animator` (section 6: `getAnimation()`, `isCompleted()`,
`getAnimationTime()`), as the values those three observers return, with the loop flag last
passed to it. -/
structure Animator where
  animation : AnimPtr
  loop : Bool
  time : ℚ
  completed : Bool
  deriving DecidableEq, Repr

namespace Animator

/-- Modelled from the spec: `setAnimation(clip, loop)` makes `clip` the current animation,
started afresh. -/
def setAnimation (a : Animator) (animation : AnimPtr) (loop : Bool) : Animator :=
  { a with animation := animation, loop := loop, time := 0, completed := false }

/-- Modelled from the spec: `setAnimationTime(fraction)` moves the play position. -/
def setAnimationTime (a : Animator) (time : ℚ) : Animator := { a with time := time }

end Animator

/-- The clips of `character->animations` that the controller and the activities name. -/
structure CharacterAnimations where
  idle : AnimPtr
  walk : AnimPtr
  walk_start : AnimPtr
  run : AnimPtr
  jump_start : AnimPtr
  jump_glide : AnimPtr
  jump_land : AnimPtr
  car_sit : AnimPtr
  car_open_lhs : AnimPtr
  car_open_rhs : AnimPtr
  car_getin_lhs : AnimPtr
  car_getin_rhs : AnimPtr
  car_getout_lhs : AnimPtr
  car_getout_rhs : AnimPtr
  deriving DecidableEq, Repr

/-- Modelled from the spec: the `Character` of section 3 (position, rotation, current
animation, optional vehicle/seat occupancy). `currentVehicle` is a pointer into the scene's
vehicles, `none` when on foot; `targetPosition` is what `clearTargetPosition()` clears;
`canJump` is what `physCharacter->canJump()` reports (section 6); `jumps` is instrumentation,
the number of calls of `jump()`. -/
structure CharacterObject where
  position : Vec3
  rotation : Quat
  animator : Animator
  animations : CharacterAnimations
  currentVehicle : Option ℕ
  currentSeat : ℤ
  targetPosition : Option Vec3
  canJump : Bool := false
  jumps : ℕ := 0
  deriving DecidableEq, Repr

namespace CharacterObject

/-- Modelled from the spec: `playAnimation(clip, loop)` makes `clip` the current animation,
started afresh; a clip that is already playing is not interrupted (section 4.2). -/
def playAnimation (c : CharacterObject) (animation : AnimPtr) (loop : Bool) : CharacterObject :=
  if c.animator.animation = animation then c
  else { c with animator := { animation := animation, loop := loop, time := 0,
                              completed := false } }

/-- Modelled from the spec: `enterVehicle(vehicle, seat)` records the vehicle/seat occupancy
of section 3; with a null vehicle it detaches the character. -/
def enterVehicle (c : CharacterObject) (vehicle : Option ℕ) (seat : ℤ) : CharacterObject :=
  match vehicle with
  | some v => { c with currentVehicle := some v, currentSeat := seat }
  | none => { c with currentVehicle := none, currentSeat := 0 }

/-- Modelled from the spec: `setPosition(p)` moves the character to `p`. -/
def setPosition (c : CharacterObject) (p : Vec3) : CharacterObject := { c with position := p }

/-- Modelled from the spec: `clearTargetPosition()` forgets the character's target position. -/
def clearTargetPosition (c : CharacterObject) : CharacterObject :=
  { c with targetPosition := none }

/-- Modelled from the spec: `jump()` applies the jump impulse to the physics body (section 6);
the call is counted. -/
def jump (c : CharacterObject) : CharacterObject := { c with jumps := c.jumps + 1 }

end CharacterObject

/-- Modelled from the spec: the vehicle `type` of section 6; only `BOAT` is tested. -/
inductive VehicleType where
  | CAR
  | BOAT
  deriving DecidableEq, Repr

/-- Modelled from the spec: a door part with its hinge constraint (section 6: `openAngle`,
`closedAngle`, `getHingeAngle()`, "set target angle"). `dummyX` is
`dummy->getDefaultTranslation().x`; `constraint` is `none` when the part has no constraint and
otherwise holds `getHingeAngle()`; `target` is the last `setPartTarget(part, enable, angle)`. -/
structure VehiclePart where
  dummyX : ℚ
  constraint : Option ℚ
  openAngle : ℚ
  closedAngle : ℚ
  target : Option (Bool × ℚ)
  deriving DecidableEq, Repr

/-- One entry of `info->seats` together with what `getSeatEntryPosition` and
`getSeatEntryDoor` return for it. -/
structure Seat where
  entry : Vec3
  door : Option VehiclePart
  deriving DecidableEq, Repr

/-- Modelled from the spec: the `Vehicle` of section 6. -/
structure VehicleObject where
  type : VehicleType
  seats : List Seat
  rotation : Quat
  steeringAngle : ℚ
  throttle : ℚ
  handbraking : Bool
  deriving DecidableEq, Repr

namespace VehicleObject

/-- The seat record for a seat number; `none` when the number is not an index of
`info->seats` (an out-of-range access). -/
def getSeat (v : VehicleObject) (seat : ℤ) : Option Seat :=
  if 0 ≤ seat then v.seats[seat.toNat]? else none

/-- Modelled from the spec: `getSeatEntryPosition(seat) -> point`. -/
def getSeatEntryPosition (v : VehicleObject) (seat : ℤ) : Option Vec3 :=
  (v.getSeat seat).map (fun s => s.entry)

/-- Modelled from the spec: `getSeatEntryDoor(seat) -> optional door`; the inner `none` is
the null pointer. -/
def getSeatEntryDoor (v : VehicleObject) (seat : ℤ) : Option (Option VehiclePart) :=
  (v.getSeat seat).map (fun s => s.door)

/-- Modelled from the spec: `setPartTarget(part, enabled, angle)`, for the part that is the
entry door of `seat`. -/
def setPartTarget (v : VehicleObject) (seat : ℤ) (enable : Bool) (angle : ℚ) : VehicleObject :=
  match v.getSeat seat with
  | some s =>
    let door : Option VehiclePart :=
      match s.door with
      | some p => some { p with target := some (enable, angle) }
      | none => none
    { v with seats := v.seats.set seat.toNat { s with door := door } }
  | none => v

/-- Modelled from the spec: `setSteeringAngle`. -/
def setSteeringAngle (v : VehicleObject) (a : ℚ) : VehicleObject := { v with steeringAngle := a }

/-- Modelled from the spec: `setThrottle`. -/
def setThrottle (v : VehicleObject) (t : ℚ) : VehicleObject := { v with throttle := t }

/-- Modelled from the spec: `setHandbraking`. -/
def setHandbraking (v : VehicleObject) (b : Bool) : VehicleObject := { v with handbraking := b }

end VehicleObject

/-- Modelled from the spec: the weapon `fireType` of section 6; `INSTANT_HIT` and `PROJECTILE`
are the two that are tested. -/
inductive FireType where
  | MELEE
  | INSTANT_HIT
  | PROJECTILE
  deriving DecidableEq, Repr

/-- Modelled from the spec: what `getWeaponData()` returns (section 6). `animation1` and
`animation2` are the clips that `engine->data->animations[...]` holds under the two animation
names (`none`: no such clip); the loop start, loop end and fire points are percentages. -/
structure WeaponData where
  fireType : FireType
  animation1 : AnimPtr
  animation2 : AnimPtr
  animLoopStart : ℚ
  animLoopEnd : ℚ
  animFirePoint : ℚ
  animCrouchFirePoint : ℚ
  deriving DecidableEq, Repr

/-- Modelled from the spec: the weapon item of section 6. `firing` is what `isFiring()`
reports; `fired` is instrumentation, the number of calls of `fire()`. -/
structure WeaponItem where
  data : WeaponData
  firing : Bool
  fired : ℕ
  deriving DecidableEq, Repr

/-- Modelled from the spec: `fire()`; the call is counted. -/
def WeaponItem.fire (w : WeaponItem) : WeaponItem := { w with fired := w.fired + 1 }

/-- Everything an activity's `update(character, controller)` reaches: the character, the
vehicles and weapon items it may point to, and the controller's `rawMovement` (through
`setRawMovement`). -/
structure Scene where
  character : CharacterObject
  vehicles : List VehicleObject
  rawMovement : Vec3
  items : List WeaponItem := []
  deriving DecidableEq, Repr

namespace Scene

/-- Write back a vehicle after a call through the pointer `v`. -/
def setVehicle (s : Scene) (v : ℕ) (vehicle : VehicleObject) : Scene :=
  { s with vehicles := s.vehicles.set v vehicle }

/-- Embedding of `CharacterController::setRawMovement` (lines 190-193). -/
def setRawMovement (s : Scene) (movement : Vec3) : Scene := { s with rawMovement := movement }

end Scene

/-! ## `CharacterController` (CharacterController.cpp:10-171)

The controller is generic in the activity class: `α` is the type of activity objects and
`upd : α → Scene → Option (Bool × α × Scene)` is the virtual `Activity::update`, returning the
completion flag, the activity's own new state and the new scene (`none`: undefined behaviour
inside the activity). The slots own their activities, so a slot holds the object itself. -/

/-- The members of `CharacterController`. `updated` is instrumentation: one entry per call of
an activity's `update`, with the activity as it was when called and the value it returned,
oldest first. -/
structure CharacterController (α : Type) where
  scene : Scene
  _currentActivity : Option α
  _nextActivity : Option α
  running : Bool
  vehicleIdle : ℚ
  updated : List (α × Bool)

namespace CharacterController

variable {α : Type}

/-- Embedding of `CharacterController::updateActivity` (lines 10-17). -/
def updateActivity (upd : α → Scene → Option (Bool × α × Scene)) (c : CharacterController α) :
    Option (Bool × CharacterController α) :=
  match c._currentActivity with
  | some a =>
    -- return _currentActivity->update(character, this);
    match upd a c.scene with
    | some (r, a1, scene) =>
      some (r, { c with scene := scene, _currentActivity := some a1,
                        updated := c.updated ++ [(a, r)] })
    | none => none
  | none => some (false, c)

/-- Embedding of `CharacterController::setActivity` (lines 19-27); the previous activity is
deleted, that is dropped. -/
def setActivity (c : CharacterController α) (activity : Option α) : CharacterController α :=
  let c := { c with _currentActivity := activity }
  match c._currentActivity with
  | none => { c with scene := { c.scene with character := c.scene.character.clearTargetPosition } }
  | some _ => c

/-- Embedding of `CharacterController::skipActivity` (lines 36-39). -/
def skipActivity (c : CharacterController α) : CharacterController α :=
  c.setActivity none

/-- Embedding of `CharacterController::setNextActivity` (lines 41-51). -/
def setNextActivity (c : CharacterController α) (activity : Option α) : CharacterController α :=
  match c._currentActivity with
  | none =>
    let c := c.setActivity activity
    { c with _nextActivity := none }
  | some _ =>
    -- if(_nextActivity) delete _nextActivity;
    { c with _nextActivity := activity }

/-- Lines 55-156 of `CharacterController::update`: driving input and animation selection.
Exact reading, used for the activity slots and the reset of the intent;
`Binary32.CharacterController.updateLocomotion` is the reading with rounding, used for the
animation thresholds and the idle timer. -/
def updateLocomotion (c : CharacterController α) (dt : ℚ) : Option (CharacterController α) :=
  let d := c.scene.rawMovement
  let character := c.scene.character
  match character.currentVehicle with
  | some v =>
    match c.scene.vehicles[v]? with
    | none => none
    | some vehicle =>
      let vehicle :=
        if character.currentSeat = 0 then
          let vehicle := vehicle.setSteeringAngle d.y
          let vehicle := if |d.x| > 1 / 100 then vehicle.setHandbraking false else vehicle
          vehicle.setThrottle d.x
        else vehicle
      match c._currentActivity with
      | some _ => some { c with scene := c.scene.setVehicle v vehicle }
      | none =>
        let character := character.playAnimation character.animations.car_sit true
        let vehicleIdle := if d.lengthLe (1 / 10) then c.vehicleIdle + dt else 0
        if vehicleIdle ≥ 1 then
          match vehicle.getSeatEntryDoor character.currentSeat with
          | none => none
          | some entryDoor =>
            let vehicle :=
              match entryDoor with
              | some door =>
                if door.constraint.isSome then
                  vehicle.setPartTarget character.currentSeat true door.closedAngle
                else vehicle
              | none => vehicle
            some { c with
              scene := ({ c.scene with character := character } : Scene).setVehicle v vehicle,
              vehicleIdle := vehicleIdle }
        else
          some { c with
            scene := ({ c.scene with character := character } : Scene).setVehicle v vehicle,
            vehicleIdle := vehicleIdle }
  | none =>
    let character :=
      if d.lengthGt (1 / 100) then
        if c.running then
          if character.animator.animation ≠ character.animations.run then
            character.playAnimation character.animations.run true
          else character
        else
          if character.animator.animation = character.animations.walk_start then
            if character.animator.completed then
              character.playAnimation character.animations.walk true
            else character
          else if character.animator.animation ≠ character.animations.walk then
            character.playAnimation character.animations.walk_start false
          else character
      else character
    let character :=
      match c._currentActivity with
      | none =>
        if d.lengthLt (1 / 1000) then character.playAnimation character.animations.idle true
        else character
      | some _ => character
    some { c with scene := { c.scene with character := character } }

/-- Embedding of `CharacterController::update` (lines 53-171). -/
def update (upd : α → Scene → Option (Bool × α × Scene)) (c : CharacterController α) (dt : ℚ) :
    Option (CharacterController α) :=
  match updateLocomotion c dt with
  | none => none
  | some c =>
    -- Reset raw movement between activity updates.
    let c := { c with scene := c.scene.setRawMovement Vec3.zero }
    match updateActivity upd c with
    | none => none
    | some (true, c) =>
      let c := match c._currentActivity with
        | some _ => { c with _currentActivity := none }
        | none => c
      match c._nextActivity with
      | some next =>
        let c := c.setActivity (some next)
        some { c with _nextActivity := none }
      | none => some c
    | some (false, c) => some c

/-- Successive calls of `update`, one per elapsed time in the list. -/
def updates (upd : α → Scene → Option (Bool × α × Scene)) :
    CharacterController α → List ℚ → Option (CharacterController α)
  | c, [] => some c
  | c, dt :: rest => (update upd c dt).bind (fun c1 => updates upd c1 rest)

end CharacterController

/-! ## `Activities::GoTo` (CharacterController.cpp:201-219) -/

/-- The activity `Activities::GoTo`. -/
structure GoTo where
  target : Vec3
  deriving DecidableEq, Repr

/-- Embedding of `Activities::GoTo::update`, exact reading (`Binary32.GoTo.update` is the
reading with rounding). -/
def GoTo.update (self : GoTo) (s : Scene) : Option (Bool × GoTo × Scene) :=
  let cpos := s.character.position
  let targetDirection := self.target.sub cpos
  -- Ignore vertical axis for the sake of simplicity.
  if targetDirection.length2XY < (1 / 10 : ℚ) * (1 / 10) then
    some (true, self,
      { s with character := s.character.setPosition ⟨self.target.x, self.target.y, cpos.z⟩ })
  else
    let r := Quat.facing targetDirection.y targetDirection.x
    let s := { s with character := { s.character with rotation := r } }
    let s := s.setRawMovement ⟨1, 0, 0⟩
    some (false, self, s)

/-! ## `Activities::EnterVehicle` (CharacterController.cpp:250-341) -/

/-- The activity `Activities::EnterVehicle`: target vehicle (a pointer into the scene's
vehicles), seat number and the entering phase flag. -/
structure EnterVehicle where
  vehicle : ℕ
  seat : ℤ
  entering : Bool
  deriving DecidableEq, Repr

namespace EnterVehicle

/-- The loop `for(unsigned int s = 1; s < vehicle->info->seats.size(); ++s)` of lines 262-271,
from loop counter `s` with `rest` the seats numbered `s` and up. The state is the pair
`(seat, nearest)`; `nearest` is kept as its square and `dist < nearest` is decided on the
squares (exact reading; `Binary32.EnterVehicle.nearestLoop` is the reading with rounding). -/
def nearestLoop (pos : Vec3) : ℕ → List Seat → ℤ × ℚ → ℤ × ℚ
  | _, [], acc => acc
  | s, info :: rest, (seat, nearest2) =>
    let dist2 := Vec3.distance2 info.entry pos
    nearestLoop pos (s + 1) rest (if dist2 < nearest2 then ((s : ℤ), dist2) else (seat, nearest2))

/-- Lines 260-271: the seat chosen for `ANY_SEAT`, starting from
`nearest = std::numeric_limits<float>::max()`. -/
def nearestSeat (vehicle : VehicleObject) (pos : Vec3) (seat : ℤ) : ℤ :=
  (nearestLoop pos 1 (vehicle.seats.drop 1) (seat, FLT_MAX * FLT_MAX)).1

/-- Lines 258-272: `if( seat == ANY_SEAT ) { ... }`, the seat resolution. -/
def resolveSeat (anySeat : ℤ) (self : EnterVehicle) (vehicle : VehicleObject) (pos : Vec3) :
    EnterVehicle :=
  if self.seat = anySeat then
    -- Determine which seat to take.
    { self with seat := nearestSeat vehicle pos self.seat }
  else self

/-- Embedding of `Activities::EnterVehicle::update`; `anySeat` is the constant `ANY_SEAT`,
whose value is declared outside the source files. Exact reading, used for the path of a
missing door; `Binary32.EnterVehicle.update` is the reading with rounding, used for the
distances. -/
def update (anySeat : ℤ) (self : EnterVehicle) (s : Scene) :
    Option (Bool × EnterVehicle × Scene) :=
  let character := s.character
  match s.vehicles[self.vehicle]? with
  | none => none
  | some vehicle =>
    -- Boats don't have any kind of entry animation unless you're onboard.
    if vehicle.type = VehicleType.BOAT then
      some (true, self,
        { s with character := character.enterVehicle (some self.vehicle) self.seat })
    else
      let self := resolveSeat anySeat self vehicle character.position
      match vehicle.getSeatEntryDoor self.seat with
      | none => none
      | some entryDoor =>
        -- entryDoor->dummy->getDefaultTranslation().x dereferences entryDoor
        match entryDoor.map (fun door => door.dummyX) with
        | none => none
        | some dummyX =>
          let anm_open :=
            if dummyX > 0 then character.animations.car_open_rhs
            else character.animations.car_open_lhs
          let anm_enter :=
            if dummyX > 0 then character.animations.car_getin_rhs
            else character.animations.car_getin_lhs
          if self.entering then
            if character.animator.animation = anm_open then
              if character.animator.completed then
                let character := character.playAnimation anm_enter false
                let character := character.enterVehicle (some self.vehicle) self.seat
                some (false, self, { s with character := character })
              else
                match entryDoor with
                | some door =>
                  if character.animator.time ≥ 1 / 2 then
                    some (false, self,
                      s.setVehicle self.vehicle
                        (vehicle.setPartTarget self.seat true door.openAngle))
                  else
                    some (false, self,
                      { s with character := { character with rotation := vehicle.rotation } })
                | none =>
                  some (false, self,
                    { s with character := { character with rotation := vehicle.rotation } })
            else if character.animator.animation = anm_enter then
              if character.animator.completed then
                -- VehicleGetIn is over, finish activity
                some (true, self, s)
              else some (false, self, s)
            else some (false, self, s)
          else
            match vehicle.getSeatEntryPosition self.seat with
            | none => none
            | some target =>
              let targetDirection := target.sub character.position
              let targetDirection := { targetDirection with z := 0 }
              -- float targetDistance = glm::length(targetDirection);
              let targetDistance2 := targetDirection.length2
              if targetDistance2 ≤ (2 / 5 : ℚ) * (2 / 5) then
                let self := { self with entering := true }
                -- Warp character to vehicle orientation
                let s := s.setRawMovement ⟨0, 0, 0⟩
                let character := { character with rotation := vehicle.rotation }
                -- Determine if the door open animation should be skipped.
                let skip :=
                  match entryDoor with
                  | none => true
                  | some door =>
                    match door.constraint with
                    | some hingeAngle => decide (|hingeAngle| ≥ 3 / 5)
                    | none => false
                if skip then
                  let character := character.playAnimation anm_enter false
                  let character := character.enterVehicle (some self.vehicle) self.seat
                  some (false, self, { s with character := character })
                else
                  let character := character.playAnimation anm_open false
                  some (false, self, { s with character := character })
              else if targetDistance2 > (15 : ℚ) * 15 then
                -- Give up if the vehicle is too far away.
                some (true, self, s)
              else
                let r := Quat.facing targetDirection.y targetDirection.x
                let character := { character with rotation := r }
                let s := { s with character := character }
                let s := s.setRawMovement ⟨1, 0, 0⟩
                some (false, self, s)

end EnterVehicle

/-! ## `Activities::Jump` (CharacterController.cpp:221-248) -/

/-- The activity `Activities::Jump`, with its phase flag. -/
structure Jump where
  jumped : Bool
  deriving DecidableEq, Repr

/-- Embedding of `Activities::Jump::update`. -/
def Jump.update (self : Jump) (s : Scene) : Option (Bool × Jump × Scene) :=
  let character := s.character
  if self.jumped then
    if character.canJump then
      let character := character.playAnimation character.animations.jump_land false
      some (true, self, { s with character := character })
    else
      let character :=
        if character.animator.animation = character.animations.jump_start then
          if character.animator.completed then
            character.playAnimation character.animations.jump_glide true
          else character
        else character
      some (false, self, { s with character := character })
  else
    let character := character.jump
    let character := character.playAnimation character.animations.jump_start false
    let self := { self with jumped := true }
    some (false, self, { s with character := character })

/-! ## `Activities::ExitVehicle` (CharacterController.cpp:344-386) -/

/-- The activity `Activities::ExitVehicle`; it has no state of its own. -/
structure ExitVehicle where
  deriving DecidableEq, Repr

/-- Embedding of `Activities::ExitVehicle::update`. -/
def ExitVehicle.update (self : ExitVehicle) (s : Scene) : Option (Bool × ExitVehicle × Scene) :=
  let character := s.character
  match character.currentVehicle with
  | none => some (true, self, s)
  | some v =>
    match s.vehicles[v]? with
    | none => none
    | some vehicle =>
      let seat := character.currentSeat
      match vehicle.getSeatEntryDoor seat with
      | none => none
      | some door =>
        -- door->dummy->getDefaultTranslation().x dereferences door
        match door.map (fun part => part.dummyX) with
        | none => none
        | some dummyX =>
          let anm_exit :=
            if dummyX > 0 then character.animations.car_getout_rhs
            else character.animations.car_getout_lhs
          if vehicle.type = VehicleType.BOAT then
            let ppos := character.position
            let character := character.enterVehicle none seat
            let character := character.setPosition ppos
            some (true, self, { s with character := character })
          else if character.animator.animation = anm_exit then
            if character.animator.completed then
              match vehicle.getSeatEntryPosition seat with
              | none => none
              | some exitpos =>
                let character := character.enterVehicle none seat
                let character := character.setPosition exitpos
                some (true, self, { s with character := character })
            else some (false, self, s)
          else
            let character := character.playAnimation anm_exit false
            let s := { s with character := character }
            match door with
            | some part =>
              some (false, self, s.setVehicle v (vehicle.setPartTarget seat true part.openAngle))
            | none => some (false, self, s)

/-! ## `Activities::ShootWeapon` (CharacterController.cpp:391-457) -/

/-- The activity `Activities::ShootWeapon`: the weapon item (a pointer into the scene's items)
and the fired flag. -/
structure ShootWeapon where
  _item : ℕ
  _fired : Bool
  deriving DecidableEq, Repr

namespace ShootWeapon

/-- The value `currID` read at line 411: the animation time after lines 403-405 have made the
shooting animation current. -/
def currID (item : WeaponItem) (s : Scene) : ℚ :=
  (if s.character.animator.animation ≠ item.data.animation1 then
      s.character.playAnimation item.data.animation1 false
    else s.character).animator.time

/-- Embedding of `Activities::ShootWeapon::update`. -/
def update (self : ShootWeapon) (s : Scene) : Option (Bool × ShootWeapon × Scene) :=
  match s.items[self._item]? with
  | none => none
  | some item =>
    let wepdata := item.data
    let character := s.character
    -- Instant hit weapons loop their anim
    if wepdata.fireType = FireType.INSTANT_HIT then
      if item.firing then
        let shootanim := wepdata.animation1
        if shootanim.isSome then
          let character :=
            if character.animator.animation ≠ shootanim then
              character.playAnimation shootanim false
            else character
          let loopstart := wepdata.animLoopStart / 100
          let loopend := wepdata.animLoopEnd / 100
          let firetime := wepdata.animFirePoint / 100
          let currID := character.animator.time
          let s := { s with character := character }
          -- if( currID >= firetime && ! _fired ) { _item->fire(); _fired = true; }
          let fires := decide (currID ≥ firetime) && !self._fired
          let s := if fires then { s with items := s.items.set self._item item.fire } else s
          let self := if fires then { self with _fired := true } else self
          -- if( currID > loopend ) { setAnimationTime( loopstart ); _fired = false; }
          if currID > loopend then
            let character :=
              { character with animator := character.animator.setAnimationTime loopstart }
            some (false, { self with _fired := false }, { s with character := character })
          else some (false, self, s)
        else some (false, self, s)
      else
        if character.animator.completed then some (true, self, s)
        else some (false, self, s)
    else if wepdata.fireType = FireType.PROJECTILE then
      let shootanim := wepdata.animation1
      let throwanim := wepdata.animation2
      if character.animator.animation = shootanim then
        if character.animator.completed then
          let character :=
            { character with animator := character.animator.setAnimation throwanim false }
          some (false, self, { s with character := character })
        else some (false, self, s)
      else if character.animator.animation = throwanim then
        let firetime := wepdata.animCrouchFirePoint / 100
        let currID := character.animator.time
        let fires := decide (currID ≥ firetime) && !self._fired
        let s := if fires then { s with items := s.items.set self._item item.fire } else s
        let self := if fires then { self with _fired := true } else self
        if character.animator.completed then some (true, self, s)
        else some (false, self, s)
      else
        let character :=
          { character with animator := character.animator.setAnimation throwanim false }
        some (false, self, { s with character := character })
    else some (false, self, s)

end ShootWeapon

/-! ## Successive updates of one activity -/

/-- One activity object updated once against each scene of a list, the scene being the world
as that call finds it. The result lists, call by call, the scene found, the value returned and
the scene left, and gives the activity's final state. -/
def runActivity {α : Type} (upd : α → Scene → Option (Bool × α × Scene)) :
    α → List Scene → Option (List (Scene × Bool × Scene) × α)
  | a, [] => some ([], a)
  | a, s :: rest =>
    match upd a s with
    | none => none
    | some (r, a1, s1) =>
      match runActivity upd a1 rest with
      | none => none
      | some (trace, a2) => some ((s, r, s1) :: trace, a2)

/-- The number of `fire()` calls recorded on item `i` of a scene, zero when there is no such
item. -/
def Scene.firedCount (s : Scene) (i : ℕ) : ℕ :=
  match s.items[i]? with
  | some w => w.fired
  | none => 0

/-- The calls of `jump()` made within the calls of a run. -/
def jumpCalls (trace : List (Scene × Bool × Scene)) : ℕ :=
  (trace.map (fun call => call.2.2.character.jumps - call.1.character.jumps)).sum

/-! ## `RWGame::tick` (RWGame.cpp:257-345)

The engine, the script machine and the active `State` are implemented outside the source
files. What `tick` reads or writes directly is embedded as data; every call into that code is
a function given in `TickCalls`. -/

/-- A camera snapshot (section 3): position and rotation. -/
structure ViewCamera where
  position : Vec3
  rotation : Quat
  deriving DecidableEq, Repr

/-- An entry of `engine->effects` as the clean-up loop reads it: whether `getType()` is
`VisualFX::Particle`, and the particle's `lifetime` and `starttime`. -/
structure VisualFX where
  isParticle : Bool
  lifetime : ℚ
  starttime : ℚ
  deriving DecidableEq, Repr

/-- An entry of `engine->state.text`. -/
structure OnscreenText where
  osTextStart : ℚ
  osTextTime : ℚ
  deriving DecidableEq, Repr

/-- The engine as `tick` touches it: `gameTime`, the clock `state.hour`/`state.minute`,
`effects`, `state.texts`, `state.text`, whether `state.player` is set, and `rest` for
everything that is reached only through calls (the objects, the physics world, the active
`State`). -/
structure GameWorld (W : Type) where
  gameTime : ℚ
  clock : GameClock
  effects : List VisualFX
  texts : List OnscreenText
  text : List OnscreenText
  player : Bool
  rest : W

/-- The calls `tick` makes into code outside the source files. `execute` is
`script->execute(dt)`; its error case is a raised `SCMException`, with the engine as the
script left it. -/
structure TickCalls (W : Type) where
  clearTickData : GameWorld W → GameWorld W
  workUpdate : GameWorld W → GameWorld W
  shouldWorldUpdate : GameWorld W → Bool
  tickObjects : ℚ → GameWorld W → GameWorld W
  destroyQueuedObjects : GameWorld W → GameWorld W
  stepSimulation : ℚ → GameWorld W → GameWorld W
  execute : ℚ → GameWorld W → Except (String × GameWorld W) (GameWorld W)
  cleanupTraffic : Vec3 → GameWorld W → GameWorld W
  createTraffic : Vec3 → GameWorld W → GameWorld W
  getCamera : GameWorld W → ViewCamera

/-- The members of `RWGame` that `tick` reads or writes, with the function-static
`clockAccumulator`; `script` tells whether the `script` pointer is set. -/
structure TickState (W : Type) where
  engine : GameWorld W
  script : Bool
  inFocus : Bool
  clockAccumulator : ℚ
  lastCam : ViewCamera
  nextCam : ViewCamera

/-- How a call of `tick` ends: it returns, or the `SCMException` caught at lines 326-330 is
thrown again. -/
inductive TickResult (σ : Type) where
  | returned (s : σ)
  | thrown (what : String) (s : σ)

namespace RWGame

/-- Lines 271-281: `while( clockAccumulator >= 1.f ) { ...; clockAccumulator -= 1.f; }` on the
pair of `clockAccumulator` and the clock. Exact reading of the accumulator; the results on
`tick` use only that this loop ends. -/
def clockLoop (fuel : ℕ) (clockAccumulator : ℚ) (clock : GameClock) : Option (ℚ × GameClock) :=
  whileLoop (fun p : ℚ × GameClock => decide (p.1 ≥ 1))
    (fun p => (GameClock.minuteIncrement fuel p.2).map (fun c => (p.1 - 1, c)))
    fuel (clockAccumulator, clock)

/-- Lines 283-297, the clean-up of old effects: a particle whose lifetime is not negative is
destroyed once `gameTime >= starttime + lifetime`; `destroyEffect` takes it off the list. -/
def cleanEffects (gameTime : ℚ) (effects : List VisualFX) : List VisualFX :=
  effects.filter (fun e =>
    !(e.isParticle && !decide (e.lifetime < 0) && decide (gameTime ≥ e.starttime + e.lifetime)))

/-- Lines 307-318: an on-screen text is erased once `gameTime > osTextStart + osTextTime`. -/
def expireText (gameTime : ℚ) (text : List OnscreenText) : List OnscreenText :=
  text.filter (fun t => !decide (gameTime > t.osTextStart + t.osTextTime))

/-- Embedding of `RWGame::tick`. -/
def tick {W : Type} (calls : TickCalls W) (fuel : ℕ) (g : TickState W) (dt : ℚ) :
    Option (TickResult (TickState W)) :=
  -- Clear out any per-tick state.
  let engine := calls.clearTickData g.engine
  -- Process the Engine's background work.
  let engine := calls.workUpdate engine
  if g.inFocus && calls.shouldWorldUpdate engine then
    let engine := { engine with gameTime := engine.gameTime + dt }
    match clockLoop fuel (g.clockAccumulator + dt) engine.clock with
    | none => none
    | some (clockAccumulator, clock) =>
      let g := { g with clockAccumulator := clockAccumulator }
      let engine := { engine with clock := clock }
      -- Clean up old VisualFX
      let engine := { engine with effects := cleanEffects engine.gameTime engine.effects }
      let engine := calls.tickObjects dt engine
      let engine := calls.destroyQueuedObjects engine
      let engine := { engine with texts := [] }
      let engine := { engine with text := expireText engine.gameTime engine.text }
      let engine := calls.stepSimulation dt engine
      match (if g.script then calls.execute dt engine else Except.ok engine) with
      | Except.error (what, engine) =>
        -- catch( SCMException& ex ) { ...; throw; }
        some (TickResult.thrown what { g with engine := engine })
      | Except.ok engine =>
        let engine :=
          if engine.player then
            -- Use the current camera position to spawn pedestrians.
            let p := g.nextCam.position
            calls.createTraffic p (calls.cleanupTraffic p engine)
          else engine
        -- render() needs two cameras to smoothly interpolate between ticks.
        some (TickResult.returned
          { g with engine := engine, lastCam := g.nextCam, nextCam := calls.getCamera engine })
  else
    some (TickResult.returned
      { g with engine := engine, lastCam := g.nextCam, nextCam := calls.getCamera engine })

end RWGame

/-! ## A sample scene

Concrete values on which the statements below are instantiated. -/

/-- Fourteen distinct clips. -/
def sampleAnimations : CharacterAnimations :=
  { idle := some 1, walk := some 2, walk_start := some 3, run := some 4, jump_start := some 5,
    jump_glide := some 6, jump_land := some 7, car_sit := some 8, car_open_lhs := some 9,
    car_open_rhs := some 10, car_getin_lhs := some 11, car_getin_rhs := some 12,
    car_getout_lhs := some 13, car_getout_rhs := some 14 }

/-- A character standing at the origin, on foot, with no animation playing. -/
def sampleCharacter : CharacterObject :=
  { position := ⟨0, 0, 0⟩, rotation := Quat.wxyz 1 0 0 0,
    animator := { animation := none, loop := false, time := 0, completed := true },
    animations := sampleAnimations, currentVehicle := none, currentSeat := 0,
    targetPosition := none }

/-- A closed left-hand door with a hinge constraint. -/
def sampleDoor : VehiclePart :=
  { dummyX := -1, constraint := some 0, openAngle := 1, closedAngle := 0, target := none }

/-- A car with four seats whose entry points lie at distances 1, 5, 2 and 8 from the origin. -/
def sampleCar : VehicleObject :=
  { type := VehicleType.CAR,
    seats := [⟨⟨1, 0, 0⟩, some sampleDoor⟩, ⟨⟨5, 0, 0⟩, some sampleDoor⟩,
              ⟨⟨2, 0, 0⟩, some sampleDoor⟩, ⟨⟨8, 0, 0⟩, some sampleDoor⟩],
    rotation := Quat.wxyz 1 0 0 0, steeringAngle := 0, throttle := 0, handbraking := true }

/-- The sample character next to the sample car. -/
def sampleScene : Scene :=
  { character := sampleCharacter, vehicles := [sampleCar], rawMovement := ⟨0, 0, 0⟩ }

/-- A controller whose current activity is a `GoTo` towards `(0, 0, 5)`, right above the
character, with nothing queued. -/
def sampleController : CharacterController GoTo :=
  { scene := sampleScene, _currentActivity := some ⟨⟨0, 0, 5⟩⟩, _nextActivity := none,
    running := false, vehicleIdle := 0, updated := [] }

/-- A boat with one seat, a hundred units away from the origin. -/
def sampleBoat : VehicleObject :=
  { sampleCar with type := VehicleType.BOAT, seats := [⟨⟨100, 0, 0⟩, none⟩] }

/-- The sample character a hundred units away from the sample boat. -/
def boatScene : Scene := { sampleScene with vehicles := [sampleBoat] }

/-- A grenade: a `PROJECTILE` weapon with wind-up clip 20, throw clip 21 and its fire point at
half of the throw. -/
def sampleGrenade : WeaponItem :=
  { data := { fireType := FireType.PROJECTILE, animation1 := some 20, animation2 := some 21,
              animLoopStart := 0, animLoopEnd := 100, animFirePoint := 50,
              animCrouchFirePoint := 50 },
    firing := false, fired := 0 }

/-- The sample scene with the grenade as item 0 and the character's animator playing clip
`clip` at time `time`. -/
def grenadeScene (clip : ℕ) (time : ℚ) (completed : Bool) : Scene :=
  { sampleScene with
    character := { sampleCharacter with
      animator := { animation := some clip, loop := false, time := time,
                    completed := completed } },
    items := [sampleGrenade] }

/-- A pistol: an `INSTANT_HIT` weapon, firing, with shooting clip 30, its loop from 10% to 60%
and its fire point at 30%. -/
def samplePistol : WeaponItem :=
  { data := { fireType := FireType.INSTANT_HIT, animation1 := some 30, animation2 := none,
              animLoopStart := 10, animLoopEnd := 60, animFirePoint := 30,
              animCrouchFirePoint := 30 },
    firing := true, fired := 0 }

/-- The sample scene with the pistol as item 0 and the character's animator playing the
shooting clip at time `time`. -/
def pistolScene (time : ℚ) : Scene :=
  { sampleScene with
    character := { sampleCharacter with
      animator := { animation := some 30, loop := false, time := time, completed := false } },
    items := [samplePistol] }

/-- A car with two seats of which neither has an entry door. -/
def doorlessCar : VehicleObject :=
  { sampleCar with seats := [⟨⟨1, 0, 0⟩, none⟩, ⟨⟨2, 0, 0⟩, none⟩] }

/-- The sample character next to the doorless car. -/
def doorlessScene : Scene := { sampleScene with vehicles := [doorlessCar] }

/-- The sample character seated in seat `seat` of the only vehicle of a scene. -/
def seatedIn (vehicle : VehicleObject) (seat : ℤ) : Scene :=
  { sampleScene with
    character := { sampleCharacter with currentVehicle := some 0, currentSeat := seat },
    vehicles := [vehicle] }

/-- The camera at height `z` above the origin. -/
def cameraAt (z : ℚ) : ViewCamera := { position := ⟨0, 0, z⟩, rotation := Quat.wxyz 1 0 0 0 }

/-- An engine at noon with no effects, no texts and no player. -/
def sampleWorld : GameWorld Unit :=
  { gameTime := 0, clock := ⟨12, 0⟩, effects := [], texts := [], text := [], player := false,
    rest := () }

/-- Calls that leave the engine as it is, with a state that lets the world update and whose
camera is at height 3; the script raises an `SCMException` when `raises` is set. -/
def sampleCalls (raises : Bool) : TickCalls Unit :=
  { clearTickData := fun e => e, workUpdate := fun e => e, shouldWorldUpdate := fun _ => true,
    tickObjects := fun _ e => e, destroyQueuedObjects := fun e => e,
    stepSimulation := fun _ e => e,
    execute := fun _ e => if raises then Except.error ("SCM", e) else Except.ok e,
    cleanupTraffic := fun _ e => e, createTraffic := fun _ e => e,
    getCamera := fun _ => cameraAt 3 }

/-- A game in focus with a script, its last and next cameras at heights 1 and 2. -/
def sampleTick : TickState Unit :=
  { engine := sampleWorld, script := true, inFocus := true, clockAccumulator := 0,
    lastCam := cameraAt 1, nextCam := cameraAt 2 }

/-! ## Binary32 arithmetic

The magnitude tests and the accumulators of the source are computed in `float`. This section
embeds IEEE 754 binary32 with round-to-nearest-even, on whole numbers of units of `2^-149`
(the smallest positive binary32 value): every finite binary32 value is a whole number of such
units. The definitions of the namespace `Binary32` below use it wherever the source computes
with `float`; the definitions above read the same code with exact rationals. -/

/-- A binary32 value: `finite neg m` is `(-1)^neg * m * 2^-149` (so `finite true 0` is `-0`),
`inf neg` is the infinity of that sign, `nan` a NaN. -/
inductive F32 where
  | finite (neg : Bool) (m : ℕ)
  | inf (neg : Bool)
  | nan
  deriving DecidableEq, Repr

namespace F32

/-- The number of binary digits of `n`, with at most `fuel` digits counted. -/
def bits : ℕ → ℕ → ℕ
  | 0, _ => 0
  | fuel + 1, n => if n = 0 then 0 else bits fuel (n / 2) + 1

/-- The number of binary digits of `n`. -/
def bitLength (n : ℕ) : ℕ := bits n n

/-- The spacing of binary32 values at `q` units: one unit below `2^24` units (the subnormal
range and the first binade), and `2^(bitLength q - 24)` units above. -/
def ulp (q : ℕ) : ℕ := 2 ^ (bitLength q - 24)

/-- Round-to-nearest-even of `num / den` units to 24 significant bits, the exponent unbounded
above. -/
def rn (num den : ℕ) : ℕ :=
  let u := ulp (num / den)
  let k := num / (den * u)
  let r := num % (den * u)
  if 2 * r < den * u then k * u
  else if 2 * r = den * u then (if k % 2 = 0 then k * u else (k + 1) * u)
  else (k + 1) * u

/-- The magnitude `m` (in units) is that of a finite binary32 value. -/
def Rep (m : ℕ) : Prop := rn m 1 = m ∧ m < 2 ^ 128 * 2 ^ 149

instance (m : ℕ) : Decidable (Rep m) := by unfold Rep; infer_instance

/-- The binary32 result of an operation whose exact value is `(-1)^neg * num / den` units:
rounded to nearest-even, infinite from `2^128` on. -/
def round (neg : Bool) (num den : ℕ) : F32 :=
  let r := rn num den
  if r < 2 ^ 128 * 2 ^ 149 then finite neg r else inf neg

/-- The literal `num / den` written in decimal with the suffix `f`, for instance `0.1f` is
`lit 1 10`: the binary32 value nearest to the fraction. -/
def lit (num den : ℕ) : F32 := round false (num * 2 ^ 149) den

/-- The value `0.f`. -/
def zero : F32 := finite false 0

/-- The constant `std::numeric_limits<float>::max()`, `(2^24 - 1) * 2^104`. -/
def FLT_MAX : F32 := finite false ((2 ^ 24 - 1) * 2 ^ 253)

/-- The signed number of units of a finite value. -/
def sval (neg : Bool) (m : ℕ) : ℤ := if neg then -(m : ℤ) else (m : ℤ)

/-- The value of a finite binary32 as a rational (zero for the infinities and NaN). -/
def toRat : F32 → ℚ
  | finite neg m => (sval neg m : ℚ) / 2 ^ 149
  | _ => 0

/-- Unary minus. -/
def neg : F32 → F32
  | finite n m => finite (!n) m
  | inf n => inf (!n)
  | nan => nan

/-- The function `std::abs` / `glm::abs`. -/
def abs : F32 → F32
  | finite _ m => finite false m
  | inf _ => inf false
  | nan => nan

/-- Binary32 addition. -/
def add : F32 → F32 → F32
  | nan, _ => nan
  | _, nan => nan
  | inf n1, inf n2 => if n1 = n2 then inf n1 else nan
  | inf n1, finite _ _ => inf n1
  | finite _ _, inf n2 => inf n2
  | finite n1 m1, finite n2 m2 =>
    let s := sval n1 m1 + sval n2 m2
    if s = 0 then finite (n1 && n2) 0
    else round (decide (s < 0)) s.natAbs 1

/-- Binary32 subtraction. -/
def sub (a b : F32) : F32 := add a (neg b)

/-- Binary32 multiplication. -/
def mul : F32 → F32 → F32
  | nan, _ => nan
  | _, nan => nan
  | inf n1, inf n2 => inf (xor n1 n2)
  | inf n1, finite n2 m2 => if m2 = 0 then nan else inf (xor n1 n2)
  | finite n1 m1, inf n2 => if m1 = 0 then nan else inf (xor n1 n2)
  | finite n1 m1, finite n2 m2 => round (xor n1 n2) (m1 * m2) (2 ^ 149)

/-- Integer square root by bisection on the bits `i - 1, ..., 0`, from the partial root `r`. -/
def isqrtAux (n : ℕ) : ℕ → ℕ → ℕ
  | 0, r => r
  | i + 1, r => isqrtAux n i (if (r + 2 ^ i) * (r + 2 ^ i) ≤ n then r + 2 ^ i else r)

/-- The integer square root `⌊√n⌋`. -/
def isqrt (n : ℕ) : ℕ := isqrtAux n (bitLength n / 2 + 1) 0

/-- Round-to-nearest-even of `√n` to 24 significant bits. -/
def rnSqrt (n : ℕ) : ℕ :=
  let u := ulp (isqrt n)
  let k := isqrt (n / (u * u))
  if (2 * k + 1) * (2 * k + 1) * (u * u) < 4 * n then (k + 1) * u
  else if (2 * k + 1) * (2 * k + 1) * (u * u) = 4 * n then
    (if k % 2 = 0 then k * u else (k + 1) * u)
  else k * u

/-- Binary32 square root; the root of `m * 2^-149` is `√(m * 2^149)` units. -/
def sqrt : F32 → F32
  | nan => nan
  | inf n => if n then nan else inf false
  | finite n m =>
    if m = 0 then finite n 0 else if n then nan else finite false (rnSqrt (m * 2 ^ 149))

/-- The comparison `a < b`; false when either side is a NaN. -/
def lt : F32 → F32 → Bool
  | nan, _ => false
  | _, nan => false
  | inf n1, inf n2 => n1 && !n2
  | inf n1, finite _ _ => n1
  | finite _ _, inf n2 => !n2
  | finite n1 m1, finite n2 m2 => decide (sval n1 m1 < sval n2 m2)

/-- The comparison `a <= b`; false when either side is a NaN. -/
def le : F32 → F32 → Bool
  | nan, _ => false
  | _, nan => false
  | inf n1, inf n2 => n1 || !n2
  | inf n1, finite _ _ => n1
  | finite _ _, inf n2 => !n2
  | finite n1 m1, finite n2 m2 => decide (sval n1 m1 ≤ sval n2 m2)

/-- Whether the value is finite (neither an infinity nor a NaN). -/
def isFinite : F32 → Bool
  | finite _ _ => true
  | _ => false

/-- The comparison `a > b`. -/
def gt (a b : F32) : Bool := lt b a

/-- The comparison `a >= b`. -/
def ge (a b : F32) : Bool := le b a

/-- The magnitude `2^128` in units of `2^-149`: the result of an operation is finite below it
and infinite from it on. -/
def top : ℕ := 2 ^ 128 * 2 ^ 149

/-- The magnitude in units of `2^-149`, with `top` for the values that are not finite. -/
def mag : F32 → ℕ
  | finite _ m => m
  | _ => top

/-- The value is `+inf`, or finite with the sign bit clear and below `2^128`. -/
def NonNeg (x : F32) : Prop := x = inf false ∨ ∃ m, x = finite false m ∧ m < top

/-- The magnitude of `x * x` for `x` of magnitude `a`. -/
def sqm (a : ℕ) : ℕ := min (rn (a * a) (2 ^ 149)) top

/-- The magnitude of `x + y` for non-negative `x`, `y` of magnitudes `p`, `q`. -/
def addm (p q : ℕ) : ℕ := min (rn (p + q) 1) top

/-- The magnitude of `sqrt(x)` for a non-negative `x` of magnitude `s`. -/
def sqrtm (s : ℕ) : ℕ := if s < top then (if s = 0 then 0 else rnSqrt (s * 2 ^ 149)) else top

/-- The magnitude of `x - y` for finite `x`, `y` whose values differ by `d` units. -/
def subm (d : ℤ) : ℕ := min (rn d.natAbs 1) top

/-- The magnitude of `glm::length` of a vector whose components have the magnitudes `a`, `b`,
`c`. -/
def lengthUnits (a b c : ℕ) : ℕ := sqrtm (addm (addm (sqm a) (sqm b)) (sqm c))

/-- The magnitude of `glm::length` of a two-component vector whose components have the
magnitudes `a`, `b`. -/
def lengthXYUnits (a b : ℕ) : ℕ := sqrtm (addm (sqm a) (sqm b))

end F32

/-- The state of a computation that ended by returning or by throwing. -/
def TickResult.state {σ : Type} : TickResult σ → σ
  | TickResult.returned s => s
  | TickResult.thrown _ s => s

namespace Binary32

/-! ## The stepping loop in binary32 (RWGame.cpp:224-239) -/

/-- The two calls the body of the stepping loop makes: `StateManager::get().tick(dt)`, which
is outside the source files, and `RWGame::tick(dt)`, which returns or throws the script's
`SCMException` again (lines 322-331). `σ` is everything these calls reach. -/
structure RunCalls (σ : Type) where
  stateTick : F32 → σ → σ
  tick : F32 → σ → TickResult σ

/-- The members of `RWGame` that the stepping loop of `run` reads or writes, with what the
calls of the loop body reach (`world`) and two instrumentation fields: `ticks` counts the
calls of `tick(GAME_TIMESTEP)` (line 230) that returned and `discarded` lists the accumulator
values dropped by `accum = 0.f` (line 237), oldest first. -/
structure RWGame (σ : Type) where
  accum : F32
  timescale : F32
  world : σ
  ticks : ℕ
  discarded : List F32

namespace RWGame

variable {σ : Type}

/-- Body of the stepping loop, lines 228-238; `T` is `GAME_TIMESTEP`. -/
def stepBody (calls : RunCalls σ) (T : F32) (g : RWGame σ) : TickResult (RWGame σ) :=
  -- StateManager::get().tick(GAME_TIMESTEP);
  let world := calls.stateTick T g.world
  -- tick(GAME_TIMESTEP);
  match calls.tick T world with
  | TickResult.thrown what world => TickResult.thrown what { g with world := world }
  | TickResult.returned world =>
    let g := { g with world := world, ticks := g.ticks + 1 }
    -- accum -= GAME_TIMESTEP;
    let g := { g with accum := F32.sub g.accum T }
    -- if ( accum > GAME_TIMESTEP * 5.f ) accum = 0.f;
    if F32.gt g.accum (F32.mul T (F32.lit 5 1)) then
      TickResult.returned { g with accum := F32.zero, discarded := g.discarded ++ [g.accum] }
    else
      TickResult.returned g

/-- The stepping loop `while ( accum >= GAME_TIMESTEP ) { ... }`, lines 227-239; an exception
thrown by the body leaves the loop. -/
def stepLoop (calls : RunCalls σ) (T : F32) (fuel : ℕ) (g : RWGame σ) :
    Option (TickResult (RWGame σ)) :=
  whileLoop
    (fun r => match r with
      | TickResult.returned g => F32.ge g.accum T
      | TickResult.thrown _ _ => false)
    (fun r => match r with
      | TickResult.returned g => some (stepBody calls T g)
      | TickResult.thrown what g => some (TickResult.thrown what g))
    fuel (TickResult.returned g)

/-- One iteration of the frame loop as far as the accumulator is concerned, lines 224-239:
`accum += timer * timescale` followed by the stepping loop. -/
def frame (calls : RunCalls σ) (T : F32) (fuel : ℕ) (g : RWGame σ) (timer : F32) :
    Option (TickResult (RWGame σ)) :=
  stepLoop calls T fuel { g with accum := F32.add g.accum (F32.mul timer g.timescale) }

end RWGame

/-! ## Vectors, characters and vehicles in binary32 -/

/-- The type `glm::vec3`. -/
structure Vec3 where
  x : F32
  y : F32
  z : F32
  deriving DecidableEq, Repr

namespace Vec3

/-- The value `glm::vec3()`. -/
def zero : Vec3 := ⟨F32.zero, F32.zero, F32.zero⟩

/-- Component-wise difference `a - b`. -/
def sub (a b : Vec3) : Vec3 := ⟨F32.sub a.x b.x, F32.sub a.y b.y, F32.sub a.z b.z⟩

/-- The function `glm::length(v)`: `sqrt(dot(v, v))` with the products summed from the
left, every operation rounded to binary32. -/
def length (v : Vec3) : F32 :=
  F32.sqrt (F32.add (F32.add (F32.mul v.x v.x) (F32.mul v.y v.y)) (F32.mul v.z v.z))

/-- The function `glm::length(glm::vec2(v))`, the horizontal length. -/
def lengthXY (v : Vec3) : F32 := F32.sqrt (F32.add (F32.mul v.x v.x) (F32.mul v.y v.y))

/-- The function `glm::distance(p0, p1)`, which is `length(p1 - p0)`. -/
def distance (p0 p1 : Vec3) : F32 := (p1.sub p0).length

/-- Whether the three components are finite. -/
def isFinite (v : Vec3) : Bool := v.x.isFinite && v.y.isFinite && v.z.isFinite

/-- The exact squared length `x^2 + y^2 + z^2` of a vector with finite components, as a
rational number. -/
def norm2 (v : Vec3) : ℚ := v.x.toRat ^ 2 + v.y.toRat ^ 2 + v.z.toRat ^ 2

/-- The exact squared horizontal distance `(p.x - q.x)^2 + (p.y - q.y)^2` of two points with
finite coordinates, as a rational number. -/
def dist2XY (p q : Vec3) : ℚ := (p.x.toRat - q.x.toRat) ^ 2 + (p.y.toRat - q.y.toRat) ^ 2

/-- The exact squared distance of two points with finite coordinates, as a rational number. -/
def dist2 (p q : Vec3) : ℚ :=
  (p.x.toRat - q.x.toRat) ^ 2 + (p.y.toRat - q.y.toRat) ^ 2 + (p.z.toRat - q.z.toRat) ^ 2

end Vec3

/-- The type `glm::quat`. The constructor `facing dy dx` stands for the quaternion
`glm::quat(glm::vec3{0, 0, atan2(dy, dx) - glm::half_pi<float>()})`; it is kept symbolic. -/
inductive Quat where
  | wxyz (w x y z : F32)
  | facing (dy dx : F32)
  deriving DecidableEq, Repr

/-- Modelled from the spec: the `Animator` (section 6: `getAnimation()`, `isCompleted()`,
`getAnimationTime()`), as the values those three observers return, with the loop flag last
passed to it. -/
structure Animator where
  animation : AnimPtr
  loop : Bool
  time : F32
  completed : Bool
  deriving DecidableEq, Repr

/-- Modelled from the spec: the `Character` of section 3 (position, rotation, current
animation, optional vehicle/seat occupancy). `currentVehicle` is a pointer into the scene's
vehicles, `none` when on foot; `targetPosition` is what `clearTargetPosition()` clears;
`canJump` is what `physCharacter->canJump()` reports (section 6); `jumps` is instrumentation,
the number of calls of `jump()`. -/
structure CharacterObject where
  position : Vec3
  rotation : Quat
  animator : Animator
  animations : CharacterAnimations
  currentVehicle : Option ℕ
  currentSeat : ℤ
  targetPosition : Option Vec3
  canJump : Bool := false
  jumps : ℕ := 0
  deriving DecidableEq, Repr

namespace CharacterObject

/-- Modelled from the spec: `playAnimation(clip, loop)` makes `clip` the current animation,
started afresh; a clip that is already playing is not interrupted (section 4.2). -/
def playAnimation (c : CharacterObject) (animation : AnimPtr) (loop : Bool) : CharacterObject :=
  if c.animator.animation = animation then c
  else { c with animator := { animation := animation, loop := loop, time := F32.zero,
                              completed := false } }

/-- Modelled from the spec: `enterVehicle(vehicle, seat)` records the vehicle/seat occupancy
of section 3; with a null vehicle it detaches the character. -/
def enterVehicle (c : CharacterObject) (vehicle : Option ℕ) (seat : ℤ) : CharacterObject :=
  match vehicle with
  | some v => { c with currentVehicle := some v, currentSeat := seat }
  | none => { c with currentVehicle := none, currentSeat := 0 }

/-- Modelled from the spec: `setPosition(p)` moves the character to `p`. -/
def setPosition (c : CharacterObject) (p : Vec3) : CharacterObject := { c with position := p }

/-- Modelled from the spec: `clearTargetPosition()` forgets the character's target position. -/
def clearTargetPosition (c : CharacterObject) : CharacterObject :=
  { c with targetPosition := none }

/-- Modelled from the spec: `jump()` applies the jump impulse to the physics body (section 6);
the call is counted. -/
def jump (c : CharacterObject) : CharacterObject := { c with jumps := c.jumps + 1 }

end CharacterObject

/-- Modelled from the spec: a door part with its hinge constraint (section 6: `openAngle`,
`closedAngle`, `getHingeAngle()`, "set target angle"). `dummyX` is
`dummy->getDefaultTranslation().x`; `constraint` is `none` when the part has no constraint and
otherwise holds `getHingeAngle()`; `target` is the last `setPartTarget(part, enable, angle)`. -/
structure VehiclePart where
  dummyX : F32
  constraint : Option F32
  openAngle : F32
  closedAngle : F32
  target : Option (Bool × F32)
  deriving DecidableEq, Repr

/-- One entry of `info->seats` together with what `getSeatEntryPosition` and
`getSeatEntryDoor` return for it. -/
structure Seat where
  entry : Vec3
  door : Option VehiclePart
  deriving DecidableEq, Repr

/-- Modelled from the spec: the `Vehicle` of section 6. -/
structure VehicleObject where
  type : VehicleType
  seats : List Seat
  rotation : Quat
  steeringAngle : F32
  throttle : F32
  handbraking : Bool
  deriving DecidableEq, Repr

namespace VehicleObject

/-- The seat record for a seat number; `none` when the number is not an index of
`info->seats` (an out-of-range access). -/
def getSeat (v : VehicleObject) (seat : ℤ) : Option Seat :=
  if 0 ≤ seat then v.seats[seat.toNat]? else none

/-- Modelled from the spec: `getSeatEntryPosition(seat) -> point`. -/
def getSeatEntryPosition (v : VehicleObject) (seat : ℤ) : Option Vec3 :=
  (v.getSeat seat).map (fun s => s.entry)

/-- Modelled from the spec: `getSeatEntryDoor(seat) -> optional door`; the inner `none` is
the null pointer. -/
def getSeatEntryDoor (v : VehicleObject) (seat : ℤ) : Option (Option VehiclePart) :=
  (v.getSeat seat).map (fun s => s.door)

/-- Modelled from the spec: `setPartTarget(part, enabled, angle)`, for the part that is the
entry door of `seat`. -/
def setPartTarget (v : VehicleObject) (seat : ℤ) (enable : Bool) (angle : F32) : VehicleObject :=
  match v.getSeat seat with
  | some s =>
    let door : Option VehiclePart :=
      match s.door with
      | some p => some { p with target := some (enable, angle) }
      | none => none
    { v with seats := v.seats.set seat.toNat { s with door := door } }
  | none => v

/-- Modelled from the spec: `setSteeringAngle`. -/
def setSteeringAngle (v : VehicleObject) (a : F32) : VehicleObject := { v with steeringAngle := a }

/-- Modelled from the spec: `setThrottle`. -/
def setThrottle (v : VehicleObject) (t : F32) : VehicleObject := { v with throttle := t }

/-- Modelled from the spec: `setHandbraking`. -/
def setHandbraking (v : VehicleObject) (b : Bool) : VehicleObject := { v with handbraking := b }

end VehicleObject

/-- Everything an activity's `update(character, controller)` reaches: the character, the
vehicles it may point to, and the controller's `rawMovement` (through `setRawMovement`). -/
structure Scene where
  character : CharacterObject
  vehicles : List VehicleObject
  rawMovement : Vec3
  deriving DecidableEq, Repr

namespace Scene

/-- Write back a vehicle after a call through the pointer `v`. -/
def setVehicle (s : Scene) (v : ℕ) (vehicle : VehicleObject) : Scene :=
  { s with vehicles := s.vehicles.set v vehicle }

/-- Embedding of `CharacterController::setRawMovement` (lines 190-193). -/
def setRawMovement (s : Scene) (movement : Vec3) : Scene := { s with rawMovement := movement }

end Scene

/-! ## `CharacterController` in binary32 (CharacterController.cpp:10-171) -/

/-- The members of `CharacterController`. `updated` is instrumentation: one entry per call of
an activity's `update`, with the activity as it was when called and the value it returned,
oldest first. -/
structure CharacterController (α : Type) where
  scene : Scene
  _currentActivity : Option α
  _nextActivity : Option α
  running : Bool
  vehicleIdle : F32
  updated : List (α × Bool)

namespace CharacterController

variable {α : Type}

/-- Embedding of `CharacterController::updateActivity` (lines 10-17). -/
def updateActivity (upd : α → Scene → Option (Bool × α × Scene)) (c : CharacterController α) :
    Option (Bool × CharacterController α) :=
  match c._currentActivity with
  | some a =>
    -- return _currentActivity->update(character, this);
    match upd a c.scene with
    | some (r, a1, scene) =>
      some (r, { c with scene := scene, _currentActivity := some a1,
                        updated := c.updated ++ [(a, r)] })
    | none => none
  | none => some (false, c)

/-- Embedding of `CharacterController::setActivity` (lines 19-27); the previous activity is
deleted, that is dropped. -/
def setActivity (c : CharacterController α) (activity : Option α) : CharacterController α :=
  let c := { c with _currentActivity := activity }
  match c._currentActivity with
  | none => { c with scene := { c.scene with character := c.scene.character.clearTargetPosition } }
  | some _ => c

/-- Lines 55-156 of `CharacterController::update`: driving input and animation selection. -/
def updateLocomotion (c : CharacterController α) (dt : F32) : Option (CharacterController α) :=
  let d := c.scene.rawMovement
  let character := c.scene.character
  match character.currentVehicle with
  | some v =>
    match c.scene.vehicles[v]? with
    | none => none
    | some vehicle =>
      let vehicle :=
        if character.currentSeat = 0 then
          let vehicle := vehicle.setSteeringAngle d.y
          let vehicle :=
            if F32.gt (F32.abs d.x) (F32.lit 1 100) then vehicle.setHandbraking false
            else vehicle
          vehicle.setThrottle d.x
        else vehicle
      match c._currentActivity with
      | some _ => some { c with scene := c.scene.setVehicle v vehicle }
      | none =>
        let character := character.playAnimation character.animations.car_sit true
        -- if( glm::length( d ) <= 0.1f ) vehicleIdle += dt; else vehicleIdle = 0.f;
        let vehicleIdle :=
          if F32.le d.length (F32.lit 1 10) then F32.add c.vehicleIdle dt else F32.zero
        if F32.ge vehicleIdle (F32.lit 1 1) then
          match vehicle.getSeatEntryDoor character.currentSeat with
          | none => none
          | some entryDoor =>
            let vehicle :=
              match entryDoor with
              | some door =>
                if door.constraint.isSome then
                  vehicle.setPartTarget character.currentSeat true door.closedAngle
                else vehicle
              | none => vehicle
            some { c with
              scene := ({ c.scene with character := character } : Scene).setVehicle v vehicle,
              vehicleIdle := vehicleIdle }
        else
          some { c with
            scene := ({ c.scene with character := character } : Scene).setVehicle v vehicle,
            vehicleIdle := vehicleIdle }
  | none =>
    let character :=
      if F32.gt d.length (F32.lit 1 100) then
        if c.running then
          if character.animator.animation ≠ character.animations.run then
            character.playAnimation character.animations.run true
          else character
        else
          if character.animator.animation = character.animations.walk_start then
            if character.animator.completed then
              character.playAnimation character.animations.walk true
            else character
          else if character.animator.animation ≠ character.animations.walk then
            character.playAnimation character.animations.walk_start false
          else character
      else character
    let character :=
      match c._currentActivity with
      | none =>
        if F32.lt d.length (F32.lit 1 1000) then
          character.playAnimation character.animations.idle true
        else character
      | some _ => character
    some { c with scene := { c.scene with character := character } }

/-- Embedding of `CharacterController::update` (lines 53-171). -/
def update (upd : α → Scene → Option (Bool × α × Scene)) (c : CharacterController α) (dt : F32) :
    Option (CharacterController α) :=
  match updateLocomotion c dt with
  | none => none
  | some c =>
    -- Reset raw movement between activity updates.
    let c := { c with scene := c.scene.setRawMovement Vec3.zero }
    match updateActivity upd c with
    | none => none
    | some (true, c) =>
      let c := match c._currentActivity with
        | some _ => { c with _currentActivity := none }
        | none => c
      match c._nextActivity with
      | some next =>
        let c := c.setActivity (some next)
        some { c with _nextActivity := none }
      | none => some c
    | some (false, c) => some c

end CharacterController

/-! ## `Activities::GoTo` in binary32 (CharacterController.cpp:201-219) -/

/-- The activity `Activities::GoTo`. -/
structure GoTo where
  target : Vec3
  deriving DecidableEq, Repr

/-- Embedding of `Activities::GoTo::update`. -/
def GoTo.update (self : GoTo) (s : Scene) : Option (Bool × GoTo × Scene) :=
  let cpos := s.character.position
  let targetDirection := self.target.sub cpos
  -- Ignore vertical axis for the sake of simplicity.
  if F32.lt targetDirection.lengthXY (F32.lit 1 10) then
    some (true, self,
      { s with character := s.character.setPosition ⟨self.target.x, self.target.y, cpos.z⟩ })
  else
    let r := Quat.facing targetDirection.y targetDirection.x
    let s := { s with character := { s.character with rotation := r } }
    let s := s.setRawMovement ⟨F32.lit 1 1, F32.zero, F32.zero⟩
    some (false, self, s)

/-! ## `Activities::EnterVehicle` in binary32 (CharacterController.cpp:250-341) -/

/-- The activity `Activities::EnterVehicle`: target vehicle (a pointer into the scene's
vehicles), seat number and the entering phase flag. -/
structure EnterVehicle where
  vehicle : ℕ
  seat : ℤ
  entering : Bool
  deriving DecidableEq, Repr

namespace EnterVehicle

/-- The loop `for(unsigned int s = 1; s < vehicle->info->seats.size(); ++s)` of lines 262-271,
from loop counter `s` with `rest` the seats numbered `s` and up. The state is the pair
`(seat, nearest)`. -/
def nearestLoop (pos : Vec3) : ℕ → List Seat → ℤ × F32 → ℤ × F32
  | _, [], acc => acc
  | s, info :: rest, (seat, nearest) =>
    let dist := Vec3.distance info.entry pos
    nearestLoop pos (s + 1) rest (if F32.lt dist nearest then ((s : ℤ), dist) else (seat, nearest))

/-- Lines 260-271: the seat chosen for `ANY_SEAT`, starting from
`nearest = std::numeric_limits<float>::max()`. -/
def nearestSeat (vehicle : VehicleObject) (pos : Vec3) (seat : ℤ) : ℤ :=
  (nearestLoop pos 1 (vehicle.seats.drop 1) (seat, F32.FLT_MAX)).1

/-- Lines 258-272: `if( seat == ANY_SEAT ) { ... }`, the seat resolution. -/
def resolveSeat (anySeat : ℤ) (self : EnterVehicle) (vehicle : VehicleObject) (pos : Vec3) :
    EnterVehicle :=
  if self.seat = anySeat then
    -- Determine which seat to take.
    { self with seat := nearestSeat vehicle pos self.seat }
  else self

/-- Embedding of `Activities::EnterVehicle::update`; `anySeat` is the constant `ANY_SEAT`,
whose value is declared outside the source files. -/
def update (anySeat : ℤ) (self : EnterVehicle) (s : Scene) :
    Option (Bool × EnterVehicle × Scene) :=
  let character := s.character
  match s.vehicles[self.vehicle]? with
  | none => none
  | some vehicle =>
    -- Boats don't have any kind of entry animation unless you're onboard.
    if vehicle.type = VehicleType.BOAT then
      some (true, self,
        { s with character := character.enterVehicle (some self.vehicle) self.seat })
    else
      let self := resolveSeat anySeat self vehicle character.position
      match vehicle.getSeatEntryDoor self.seat with
      | none => none
      | some entryDoor =>
        -- entryDoor->dummy->getDefaultTranslation().x dereferences entryDoor
        match entryDoor.map (fun door => door.dummyX) with
        | none => none
        | some dummyX =>
          let anm_open :=
            if F32.gt dummyX F32.zero then character.animations.car_open_rhs
            else character.animations.car_open_lhs
          let anm_enter :=
            if F32.gt dummyX F32.zero then character.animations.car_getin_rhs
            else character.animations.car_getin_lhs
          if self.entering then
            if character.animator.animation = anm_open then
              if character.animator.completed then
                let character := character.playAnimation anm_enter false
                let character := character.enterVehicle (some self.vehicle) self.seat
                some (false, self, { s with character := character })
              else
                match entryDoor with
                | some door =>
                  if F32.ge character.animator.time (F32.lit 1 2) then
                    some (false, self,
                      s.setVehicle self.vehicle
                        (vehicle.setPartTarget self.seat true door.openAngle))
                  else
                    some (false, self,
                      { s with character := { character with rotation := vehicle.rotation } })
                | none =>
                  some (false, self,
                    { s with character := { character with rotation := vehicle.rotation } })
            else if character.animator.animation = anm_enter then
              if character.animator.completed then
                -- VehicleGetIn is over, finish activity
                some (true, self, s)
              else some (false, self, s)
            else some (false, self, s)
          else
            match vehicle.getSeatEntryPosition self.seat with
            | none => none
            | some target =>
              let targetDirection := target.sub character.position
              let targetDirection := { targetDirection with z := F32.zero }
              let targetDistance := targetDirection.length
              if F32.le targetDistance (F32.lit 2 5) then
                let self := { self with entering := true }
                -- Warp character to vehicle orientation
                let s := s.setRawMovement ⟨F32.zero, F32.zero, F32.zero⟩
                let character := { character with rotation := vehicle.rotation }
                -- Determine if the door open animation should be skipped.
                let skip :=
                  match entryDoor with
                  | none => true
                  | some door =>
                    match door.constraint with
                    | some hingeAngle => F32.ge (F32.abs hingeAngle) (F32.lit 3 5)
                    | none => false
                if skip then
                  let character := character.playAnimation anm_enter false
                  let character := character.enterVehicle (some self.vehicle) self.seat
                  some (false, self, { s with character := character })
                else
                  let character := character.playAnimation anm_open false
                  some (false, self, { s with character := character })
              else if F32.gt targetDistance (F32.lit 15 1) then
                -- Give up if the vehicle is too far away.
                some (true, self, s)
              else
                let r := Quat.facing targetDirection.y targetDirection.x
                let character := { character with rotation := r }
                let s := { s with character := character }
                let s := s.setRawMovement ⟨F32.lit 1 1, F32.zero, F32.zero⟩
                some (false, self, s)

end EnterVehicle

/-! ## `Activities::Jump` and `Activities::ExitVehicle` in binary32 -/

/-- The activity `Activities::Jump` (CharacterController.cpp:221-248), with its phase flag. -/
structure Jump where
  jumped : Bool
  deriving DecidableEq, Repr

/-- Embedding of `Activities::Jump::update`. -/
def Jump.update (self : Jump) (s : Scene) : Option (Bool × Jump × Scene) :=
  let character := s.character
  if self.jumped then
    if character.canJump then
      let character := character.playAnimation character.animations.jump_land false
      some (true, self, { s with character := character })
    else
      let character :=
        if character.animator.animation = character.animations.jump_start then
          if character.animator.completed then
            character.playAnimation character.animations.jump_glide true
          else character
        else character
      some (false, self, { s with character := character })
  else
    let character := character.jump
    let character := character.playAnimation character.animations.jump_start false
    let self := { self with jumped := true }
    some (false, self, { s with character := character })

/-- The activity `Activities::ExitVehicle` (CharacterController.cpp:344-386); it has no state
of its own. -/
structure ExitVehicle where
  deriving DecidableEq, Repr

/-- Embedding of `Activities::ExitVehicle::update`. -/
def ExitVehicle.update (self : ExitVehicle) (s : Scene) : Option (Bool × ExitVehicle × Scene) :=
  let character := s.character
  match character.currentVehicle with
  | none => some (true, self, s)
  | some v =>
    match s.vehicles[v]? with
    | none => none
    | some vehicle =>
      let seat := character.currentSeat
      match vehicle.getSeatEntryDoor seat with
      | none => none
      | some door =>
        -- door->dummy->getDefaultTranslation().x dereferences door
        match door.map (fun part => part.dummyX) with
        | none => none
        | some dummyX =>
          let anm_exit :=
            if F32.gt dummyX F32.zero then character.animations.car_getout_rhs
            else character.animations.car_getout_lhs
          if vehicle.type = VehicleType.BOAT then
            let ppos := character.position
            let character := character.enterVehicle none seat
            let character := character.setPosition ppos
            some (true, self, { s with character := character })
          else if character.animator.animation = anm_exit then
            if character.animator.completed then
              match vehicle.getSeatEntryPosition seat with
              | none => none
              | some exitpos =>
                let character := character.enterVehicle none seat
                let character := character.setPosition exitpos
                some (true, self, { s with character := character })
            else some (false, self, s)
          else
            let character := character.playAnimation anm_exit false
            let s := { s with character := character }
            match door with
            | some part =>
              some (false, self, s.setVehicle v (vehicle.setPartTarget seat true part.openAngle))
            | none => some (false, self, s)

/-! ## Sample values in binary32 -/

/-- Calls that leave the world (here empty) as it is; `tick` returns. -/
def sampleRun : RunCalls Unit :=
  { stateTick := fun _ w => w, tick := fun _ w => TickResult.returned w }

/-- The state set up by the constructor (RWGame.cpp:30), `accum(0.f), timescale(1.f)`, with
the accumulator then set to `accum`. -/
def sampleGame (accum : F32) : RWGame Unit :=
  { accum := accum, timescale := F32.lit 1 1, world := (), ticks := 0, discarded := [] }

/-- The point with the whole-number coordinates `(x, y, z)`. -/
def point (x y z : ℕ) : Vec3 := ⟨F32.lit x 1, F32.lit y 1, F32.lit z 1⟩

/-- A character standing at the origin, on foot, with no animation playing. -/
def sampleCharacter : CharacterObject :=
  { position := point 0 0 0, rotation := Quat.wxyz (F32.lit 1 1) F32.zero F32.zero F32.zero,
    animator := { animation := none, loop := false, time := F32.zero, completed := true },
    animations := sampleAnimations, currentVehicle := none, currentSeat := 0,
    targetPosition := none }

/-- A closed left-hand door with a hinge constraint. -/
def sampleDoor : VehiclePart :=
  { dummyX := F32.neg (F32.lit 1 1), constraint := some F32.zero, openAngle := F32.lit 1 1,
    closedAngle := F32.zero, target := none }

/-- A car whose seats have the given entry points, each with the sample door. -/
def carWith (entries : List Vec3) : VehicleObject :=
  { type := VehicleType.CAR, seats := entries.map (fun e => ⟨e, some sampleDoor⟩),
    rotation := Quat.wxyz (F32.lit 1 1) F32.zero F32.zero F32.zero, steeringAngle := F32.zero,
    throttle := F32.zero, handbraking := true }

/-- A car with four seats whose entry points lie at distances 1, 5, 2 and 8 from the origin. -/
def sampleCar : VehicleObject := carWith [point 1 0 0, point 5 0 0, point 2 0 0, point 8 0 0]

/-- The sample character, at `position`, next to `vehicle`. -/
def sceneWith (vehicle : VehicleObject) (position : Vec3) : Scene :=
  { character := { sampleCharacter with position := position }, vehicles := [vehicle],
    rawMovement := Vec3.zero }

/-- The sample character next to the sample car. -/
def sampleScene : Scene := sceneWith sampleCar (point 0 0 0)

/-- A car with three seats, the entry points of seats 1 and 2 at `(3, 2^-13, 0)` and
`(3, 0, 0)`. -/
def tieCar : VehicleObject :=
  carWith [point 1 0 0, ⟨F32.lit 3 1, F32.lit 1 8192, F32.zero⟩, point 3 0 0]

/-- A car whose seat 0 has its entry point at `(15, 2^-10, 0)`. -/
def edgeCar : VehicleObject := carWith [⟨F32.lit 15 1, F32.lit 1 1024, F32.zero⟩, point 16 0 0]

/-- A boat with one seat, without a door, a hundred units away from the origin. -/
def sampleBoat : VehicleObject :=
  { sampleCar with type := VehicleType.BOAT, seats := [⟨point 100 0 0, none⟩] }

/-- A controller on `scene` with the given current activity and idle timer, nothing queued,
not running. -/
def controllerWith {α : Type} (scene : Scene) (activity : Option α) (vehicleIdle : F32) :
    CharacterController α :=
  { scene := scene, _currentActivity := activity, _nextActivity := none, running := false,
    vehicleIdle := vehicleIdle, updated := [] }

/-- The sample scene with the controller's movement intent set to `intent`. -/
def intentScene (intent : Vec3) : Scene := { sampleScene with rawMovement := intent }

/-- The sample character seated in seat 1 of the sample car, with the movement intent
`intent`. -/
def seatedScene (intent : Vec3) : Scene :=
  { sampleScene with
    character := { sampleCharacter with currentVehicle := some 0, currentSeat := 1 },
    rawMovement := intent }

end Binary32

/-! ## Stepping loop: lemmas -/

namespace RWGame

theorem stepLoop_of_lt (T : ℚ) (fuel : ℕ) (g : RWGame) (h : g.accum < T) :
    stepLoop T fuel g = some g := by
  have hc : ¬ (T ≤ g.accum) := not_le.mpr h
  cases fuel <;> simp [stepLoop, whileLoop, hc]

theorem stepLoop_succ (T : ℚ) (fuel : ℕ) (g : RWGame) (h : T ≤ g.accum) :
    stepLoop T (fuel + 1) g = stepLoop T fuel (stepBody T g) := by
  simp [stepLoop, whileLoop, h]

theorem stepBody_of_le (T : ℚ) (g : RWGame) (h : g.accum ≤ 6 * T) :
    stepBody T g = { g with accum := g.accum - T, ticks := g.ticks + 1 } := by
  have hc : ¬ (T * 5 < g.accum - T) := by linarith
  simp [stepBody, hc]

theorem stepBody_of_gt (T : ℚ) (g : RWGame) (h : 6 * T < g.accum) :
    stepBody T g =
      { g with accum := 0, ticks := g.ticks + 1, discarded := g.discarded + (g.accum - T) } := by
  have hc : T * 5 < g.accum - T := by linarith
  simp [stepBody, hc]

/-- When at most `6 * T` has accumulated the loop runs `n` whole steps, where
`n * T ≤ accum < (n + 1) * T`, and keeps the remainder. -/
theorem stepLoop_of_le (T : ℚ) (hT : 0 < T) (n : ℕ) :
    ∀ (fuel : ℕ) (g : RWGame), n ≤ fuel → (n : ℚ) * T ≤ g.accum → g.accum < ((n : ℚ) + 1) * T →
      g.accum ≤ 6 * T →
      stepLoop T fuel g = some { g with accum := g.accum - n * T, ticks := g.ticks + n } := by
  induction n with
  | zero =>
    intro fuel g _ _ h2 _
    have : g.accum < T := by simpa using h2
    rw [stepLoop_of_lt T fuel g this]
    simp
  | succ n ih =>
    intro fuel g hf h1 h2 h3
    obtain ⟨f, rfl⟩ : ∃ f, fuel = f + 1 := ⟨fuel - 1, by omega⟩
    push_cast at h1 h2
    have hn : (0 : ℚ) ≤ (n : ℚ) * T := mul_nonneg (Nat.cast_nonneg n) hT.le
    have hge : T ≤ g.accum := by linarith
    rw [stepLoop_succ T f g hge, stepBody_of_le T g h3]
    rw [ih f _ (by omega) (by simp only []; linarith) (by simp only []; linarith)
      (by simp only []; linarith)]
    simp only [Option.some.injEq]
    congr 1
    · push_cast; ring
    · omega

/-- When more than `6 * T` has accumulated the loop runs one step and drops the rest. -/
theorem stepLoop_of_gt (T : ℚ) (hT : 0 < T) (fuel : ℕ) (g : RWGame) (hf : 1 ≤ fuel)
    (h : 6 * T < g.accum) :
    stepLoop T fuel g =
      some { g with accum := 0, ticks := g.ticks + 1,
                    discarded := g.discarded + (g.accum - T) } := by
  obtain ⟨f, rfl⟩ : ∃ f, fuel = f + 1 := ⟨fuel - 1, by omega⟩
  have hge : T ≤ g.accum := by linarith
  rw [stepLoop_succ T f g hge, stepBody_of_gt T g h]
  exact stepLoop_of_lt T f _ (by simpa using hT)

/-- What the stepping loop does from an arbitrary state, given fuel for six iterations. -/
theorem stepLoop_spec (T : ℚ) (hT : 0 < T) (fuel : ℕ) (hf : 6 ≤ fuel) (g : RWGame) :
    ∃ r, stepLoop T fuel g = some r ∧ r.accum < T ∧ r.timescale = g.timescale ∧
      r.accum + r.ticks * T + r.discarded = g.accum + g.ticks * T + g.discarded ∧
      g.discarded ≤ r.discarded ∧ (0 ≤ g.accum → 0 ≤ r.accum) ∧
      (r.discarded = g.discarded ↔ g.accum ≤ 6 * T) ∧
      g.ticks ≤ r.ticks ∧ r.ticks ≤ g.ticks + 6 := by
  rcases lt_or_le g.accum T with h | h
  · refine ⟨g, stepLoop_of_lt T fuel g h, h, rfl, rfl, le_refl _, fun h0 => h0, ?_, le_refl _, ?_⟩
    · constructor
      · intro _; linarith
      · intro _; rfl
    · omega
  · rcases le_or_lt g.accum (6 * T) with h6 | h6
    · have hq : 0 ≤ g.accum / T := div_nonneg (by linarith) hT.le
      have h1 : ((⌊g.accum / T⌋₊ : ℕ) : ℚ) * T ≤ g.accum := by
        have := Nat.floor_le hq
        calc ((⌊g.accum / T⌋₊ : ℕ) : ℚ) * T ≤ g.accum / T * T :=
              mul_le_mul_of_nonneg_right this hT.le
          _ = g.accum := div_mul_cancel₀ _ hT.ne'
      have h2 : g.accum < (((⌊g.accum / T⌋₊ : ℕ) : ℚ) + 1) * T := by
        have := Nat.lt_floor_add_one (g.accum / T)
        calc g.accum = g.accum / T * T := (div_mul_cancel₀ _ hT.ne').symm
          _ < (((⌊g.accum / T⌋₊ : ℕ) : ℚ) + 1) * T := mul_lt_mul_of_pos_right this hT
      have hn : ⌊g.accum / T⌋₊ ≤ 6 := by
        have h3 : ((⌊g.accum / T⌋₊ : ℕ) : ℚ) * T ≤ 6 * T := le_trans h1 h6
        have h4 : ((⌊g.accum / T⌋₊ : ℕ) : ℚ) ≤ 6 := le_of_mul_le_mul_right h3 hT
        exact_mod_cast h4
      refine ⟨_, stepLoop_of_le T hT _ fuel g (le_trans hn hf) h1 h2 h6, ?_, rfl, ?_, le_refl _,
        ?_, ?_, ?_, ?_⟩
      · simp only []; linarith
      · simp only []; push_cast; ring
      · intro _; simp only []; linarith
      · simp only []; exact ⟨fun _ => h6, fun _ => trivial⟩
      · simp only []; omega
      · simp only []; omega
    · refine ⟨_, stepLoop_of_gt T hT fuel g (by omega) h6, ?_, rfl, ?_, ?_, ?_, ?_, ?_, ?_⟩
      · simpa using hT
      · simp only []; push_cast; ring
      · simp only []; linarith
      · intro _; simp only []; exact le_refl _
      · simp only []
        constructor
        · intro h'; linarith
        · intro h'; linarith
      · simp only []; omega
      · simp only []; omega

end RWGame

/-! ## Clock: lemmas -/

theorem whileLoop_of_false {σ : Type} (cond : σ → Bool) (body : σ → Option σ) (fuel : ℕ) (s : σ)
    (h : cond s = false) : whileLoop cond body fuel s = some s := by
  cases fuel <;> simp [whileLoop, h]

theorem whileLoop_succ_of_true {σ : Type} (cond : σ → Bool) (body : σ → Option σ) (fuel : ℕ)
    (s : σ) (h : cond s = true) :
    whileLoop cond body (fuel + 1) s = (body s).bind (whileLoop cond body fuel) := by
  simp [whileLoop, h]

namespace GameClock

/-- The hour carry loop runs at most once: it returns for every clock value. -/
theorem hourWrap_eq (fuel : ℕ) (hf : 1 ≤ fuel) (s : GameClock) :
    hourWrap fuel s = some (if s.hour ≥ 24 then { s with hour := 0 } else s) := by
  obtain ⟨f, rfl⟩ : ∃ f, fuel = f + 1 := ⟨fuel - 1, by omega⟩
  unfold hourWrap
  by_cases h : s.hour ≥ 24
  · rw [whileLoop_succ_of_true _ _ _ _ (by simpa using h), Option.some_bind,
      whileLoop_of_false _ _ _ _ (by simp), if_pos h]
  · rw [whileLoop_of_false _ _ _ _ (by simpa using h), if_neg h]

/-- The minute carry loop runs at most once: it returns for every clock value. -/
theorem minuteWrap_eq (fuel : ℕ) (hf : 1 ≤ fuel) (s : GameClock) :
    minuteWrap fuel s =
      some (if s.minute ≥ 60 then
              { hour := if s.hour + 1 ≥ 24 then 0 else s.hour + 1, minute := 0 }
            else s) := by
  obtain ⟨f, rfl⟩ : ∃ f, fuel = f + 1 := ⟨fuel - 1, by omega⟩
  unfold minuteWrap
  by_cases h : s.minute ≥ 60
  · rw [whileLoop_succ_of_true _ _ _ _ (by simpa using h), hourWrap_eq (f + 1) hf,
      Option.some_bind, if_pos h]
    rw [whileLoop_of_false _ _ _ _ (by split <;> simp)]
    congr 1
    split <;> rfl
  · rw [whileLoop_of_false _ _ _ _ (by simpa using h), if_neg h]

theorem minuteIncrement_eq (fuel : ℕ) (hf : 1 ≤ fuel) (hour minute : ℕ) (hh : hour < 24)
    (hm : minute < 60) :
    minuteIncrement fuel ⟨hour, minute⟩ =
      some ⟨(hour + (minute + 1) / 60) % 24, (minute + 1) % 60⟩ := by
  unfold minuteIncrement
  rw [minuteWrap_eq fuel hf]
  simp only [Option.some.injEq]
  by_cases h : minute + 1 ≥ 60
  · rw [if_pos h]
    have hmin : minute = 59 := by omega
    subst hmin
    by_cases h2 : hour + 1 ≥ 24
    · rw [if_pos h2]
      have : hour = 23 := by omega
      subst this
      rfl
    · rw [if_neg h2]
      congr 1
      omega
  · rw [if_neg h]
    congr 1
    · omega
    · omega

theorem minuteIncrements_eq (fuel : ℕ) (hf : 1 ≤ fuel) (n : ℕ) :
    ∀ hour minute : ℕ, hour < 24 → minute < 60 →
      minuteIncrements fuel n ⟨hour, minute⟩ =
        some ⟨(hour + (minute + n) / 60) % 24, (minute + n) % 60⟩ := by
  induction n with
  | zero =>
    intro hour minute hh hm
    simp only [minuteIncrements, Option.some.injEq]
    congr 1
    · omega
    · omega
  | succ n ih =>
    intro hour minute hh hm
    simp only [minuteIncrements]
    rw [minuteIncrement_eq fuel hf hour minute hh hm, Option.some_bind,
      ih _ _ (Nat.mod_lt _ (by decide)) (Nat.mod_lt _ (by decide))]
    simp only [Option.some.injEq]
    congr 1
    · omega
    · omega

end GameClock

/-! ## Character controller: lemmas -/

namespace CharacterController

variable {α : Type}

/-- Lines 55-156 touch neither activity slot. -/
theorem updateLocomotion_slots (c c1 : CharacterController α) (dt : ℚ)
    (h : updateLocomotion c dt = some c1) :
    c1._currentActivity = c._currentActivity ∧ c1._nextActivity = c._nextActivity ∧
      c1.updated = c.updated := by
  unfold updateLocomotion at h
  simp only [] at h
  repeat' split at h
  all_goals first
    | (cases h; done)
    | (cases h; exact ⟨rfl, rfl, rfl⟩)

/-- A character on foot never makes lines 55-156 fail. -/
theorem updateLocomotion_isSome_of_onFoot (c : CharacterController α) (dt : ℚ)
    (h : c.scene.character.currentVehicle = none) : (updateLocomotion c dt).isSome = true := by
  unfold updateLocomotion
  simp only [h]
  rfl

theorem update_of_idle (upd : α → Scene → Option (Bool × α × Scene)) (c c1 : CharacterController α)
    (dt : ℚ) (hloc : updateLocomotion c dt = some c1) (hcur : c._currentActivity = none) :
    update upd c dt = some { c1 with scene := c1.scene.setRawMovement Vec3.zero } := by
  have hs := updateLocomotion_slots c c1 dt hloc
  have h1 : c1._currentActivity = none := by rw [hs.1, hcur]
  simp [update, hloc, updateActivity, h1]

theorem update_of_failed (upd : α → Scene → Option (Bool × α × Scene))
    (c c1 : CharacterController α) (dt : ℚ) (a : α)
    (hloc : updateLocomotion c dt = some c1) (hcur : c._currentActivity = some a)
    (hupd : upd a (c1.scene.setRawMovement Vec3.zero) = none) : update upd c dt = none := by
  have hs := updateLocomotion_slots c c1 dt hloc
  have h1 : c1._currentActivity = some a := by rw [hs.1, hcur]
  simp [update, hloc, updateActivity, h1, hupd]

theorem update_of_running (upd : α → Scene → Option (Bool × α × Scene))
    (c c1 : CharacterController α) (dt : ℚ) (a a1 : α) (sc : Scene)
    (hloc : updateLocomotion c dt = some c1) (hcur : c._currentActivity = some a)
    (hupd : upd a (c1.scene.setRawMovement Vec3.zero) = some (false, a1, sc)) :
    update upd c dt =
      some { c1 with scene := sc, _currentActivity := some a1,
                     updated := c.updated ++ [(a, false)] } := by
  have hs := updateLocomotion_slots c c1 dt hloc
  have h1 : c1._currentActivity = some a := by rw [hs.1, hcur]
  simp [update, hloc, updateActivity, h1, hupd, hs.2.2]

theorem update_of_completed (upd : α → Scene → Option (Bool × α × Scene))
    (c c1 : CharacterController α) (dt : ℚ) (a a1 : α) (sc : Scene)
    (hloc : updateLocomotion c dt = some c1) (hcur : c._currentActivity = some a)
    (hupd : upd a (c1.scene.setRawMovement Vec3.zero) = some (true, a1, sc)) :
    update upd c dt =
      some { c1 with scene := sc, _currentActivity := c._nextActivity, _nextActivity := none,
                     updated := c.updated ++ [(a, true)] } := by
  have hs := updateLocomotion_slots c c1 dt hloc
  have h1 : c1._currentActivity = some a := by rw [hs.1, hcur]
  rcases hn : c._nextActivity with _ | n
  · have h2 : c1._nextActivity = none := by rw [hs.2.1, hn]
    simp [update, hloc, updateActivity, h1, hupd, hs.2.2, h2]
  · have h2 : c1._nextActivity = some n := by rw [hs.2.1, hn]
    simp [update, hloc, updateActivity, h1, hupd, hs.2.2, h2, setActivity]

/-- What a returning `update` has done to the slots and to the call record. -/
theorem update_post (upd : α → Scene → Option (Bool × α × Scene)) (c c2 : CharacterController α)
    (dt : ℚ) (h : update upd c dt = some c2) :
    (c._currentActivity = none ∧ c2.updated = c.updated ∧ c2._currentActivity = none ∧
        c2._nextActivity = c._nextActivity) ∨
      (∃ a r, c._currentActivity = some a ∧ c2.updated = c.updated ++ [(a, r)] ∧
        (r = true → c2._currentActivity = c._nextActivity ∧ c2._nextActivity = none) ∧
        (r = false → (∃ a1, c2._currentActivity = some a1) ∧
          c2._nextActivity = c._nextActivity)) := by
  rcases hloc : updateLocomotion c dt with _ | c1
  · simp [update, hloc] at h
  · have hs := updateLocomotion_slots c c1 dt hloc
    rcases hcur : c._currentActivity with _ | a
    · rw [update_of_idle upd c c1 dt hloc hcur] at h
      cases h
      exact Or.inl ⟨rfl, hs.2.2, by rw [← hcur]; exact hs.1, hs.2.1⟩
    · right
      rcases hupd : upd a (c1.scene.setRawMovement Vec3.zero) with _ | ⟨r, a1, sc⟩
      · rw [update_of_failed upd c c1 dt a hloc hcur hupd] at h
        cases h
      · cases r
        · rw [update_of_running upd c c1 dt a a1 sc hloc hcur hupd] at h
          cases h
          exact ⟨a, false, rfl, rfl, fun hr => absurd hr (by decide),
            fun _ => ⟨⟨a1, rfl⟩, hs.2.1⟩⟩
        · rw [update_of_completed upd c c1 dt a a1 sc hloc hcur hupd] at h
          cases h
          exact ⟨a, true, rfl, rfl, fun _ => ⟨rfl, rfl⟩, fun hr => absurd hr (by decide)⟩

/-- The call record only grows. -/
theorem updates_updated_append (upd : α → Scene → Option (Bool × α × Scene)) :
    ∀ (ds : List ℚ) (c c3 : CharacterController α), updates upd c ds = some c3 →
      ∃ l, c3.updated = c.updated ++ l := by
  intro ds
  induction ds with
  | nil =>
    intro c c3 h
    simp only [updates, Option.some.injEq] at h
    exact ⟨[], by rw [h]; simp⟩
  | cons dt rest ih =>
    intro c c3 h
    rcases hu : update upd c dt with _ | c1
    · simp [updates, hu] at h
    · simp only [updates, hu, Option.some_bind] at h
      obtain ⟨l, hl⟩ := ih c1 c3 h
      rcases update_post upd c c1 dt hu with ⟨_, h1, _, _⟩ | ⟨a, r, _, h1, _, _⟩
      · exact ⟨l, by rw [hl, h1]⟩
      · exact ⟨(a, r) :: l, by rw [hl, h1]; simp⟩

/-- While no activity update has reported completion, the current slot stays occupied and
the queued activity stays queued. -/
theorem updates_keeps_queued (upd : α → Scene → Option (Bool × α × Scene)) (B : α) (n : ℕ) :
    ∀ (ds : List ℚ) (c c3 : CharacterController α), c._nextActivity = some B →
      (∃ X, c._currentActivity = some X) → n ≤ c.updated.length →
      updates upd c ds = some c3 → (∀ e ∈ c3.updated.drop n, e.2 = false) →
      (∃ X, c3._currentActivity = some X) ∧ c3._nextActivity = some B := by
  intro ds
  induction ds with
  | nil =>
    intro c c3 hB hX _ h _
    simp only [updates, Option.some.injEq] at h
    subst h
    exact ⟨hX, hB⟩
  | cons dt rest ih =>
    intro c c3 hB hX hn h hfalse
    rcases hu : update upd c dt with _ | c1
    · simp [updates, hu] at h
    · simp only [updates, hu, Option.some_bind] at h
      obtain ⟨l, hl⟩ := updates_updated_append upd rest c1 c3 h
      obtain ⟨X, hX⟩ := hX
      rcases update_post upd c c1 dt hu with ⟨h0, _, _, _⟩ | ⟨a, r, _, h1, _, hrf⟩
      · rw [hX] at h0; cases h0
      · have hmem : (a, r) ∈ c3.updated.drop n := by
          rw [hl, h1, List.append_assoc]
          rw [List.drop_append_of_le_length hn]
          simp
        have hr : r = false := hfalse (a, r) hmem
        obtain ⟨hcur1, hnext1⟩ := hrf hr
        refine ih c1 c3 (by rw [hnext1, hB]) hcur1 ?_ h hfalse
        rw [h1, List.length_append]
        omega

end CharacterController

/-! ## The frame loop: step count, accumulator bound, interpolation factor -/

namespace RWGame

/-- C2: for every timestep `T > 0`, every accumulator value, every time scale and every frame
time, one frame's stepping loop returns (six iterations of fuel suffice) and leaves the
accumulator at most `5 * T`, in fact below `T`. -/
theorem C2_accum_below_timestep_after_loop (T : ℚ) (hT : 0 < T) (g : RWGame) (timer : ℚ)
    (fuel : ℕ) (hf : 6 ≤ fuel) :
    ∃ r, frame T fuel g timer = some r ∧ r.accum ≤ 5 * T ∧ r.accum < T := by
  obtain ⟨r, hr, hlt, -⟩ :=
    stepLoop_spec T hT fuel hf { g with accum := g.accum + timer * g.timescale }
  exact ⟨r, hr, by linarith, hlt⟩

/-- Witness for C2: `T = 1/60`, accumulator `1/100`, a frame of one second. -/
theorem C2_accum_below_timestep_after_loop_witness :
    (0 : ℚ) < 1 / 60 ∧
      ∃ r, frame (1 / 60) 6 { init with accum := 1 / 100 } 1 = some r ∧
        r.accum ≤ 5 * (1 / 60) ∧ r.accum < 1 / 60 :=
  ⟨by norm_num,
    C2_accum_below_timestep_after_loop (1 / 60) (by norm_num) { init with accum := 1 / 100 } 1 6
      (le_refl 6)⟩

/-- C3: for every timestep `T > 0` and every non-negative accumulator the interpolation factor
lies in `[0, 1]`, and it is exactly `1` when `shouldWorldUpdate()` is false. -/
theorem C3_alpha_in_unit_interval (T : ℚ) (hT : 0 < T) (accum : ℚ) (hacc : 0 ≤ accum)
    (shouldWorldUpdate : Bool) :
    0 ≤ alpha T accum shouldWorldUpdate ∧ alpha T accum shouldWorldUpdate ≤ 1 ∧
      (shouldWorldUpdate = false → alpha T accum shouldWorldUpdate = 1) := by
  have hq : 0 ≤ accum / T := div_nonneg hacc hT.le
  have hfm : fmod accum T / T = accum / T - ⌊accum / T⌋ := by
    unfold fmod
    rw [if_pos hq]
    field_simp
    ring
  have h1 : (⌊accum / T⌋ : ℚ) ≤ accum / T := Int.floor_le _
  have h2 : accum / T < ⌊accum / T⌋ + 1 := Int.lt_floor_add_one _
  cases shouldWorldUpdate
  · simp [alpha]
  · simp only [alpha, Bool.not_true, Bool.false_eq_true, if_false, hfm]
    refine ⟨by linarith, by linarith, ?_⟩
    intro h
    exact absurd h (by decide)

/-- Witness for C3: `T = 1/60` with `1/100` accumulated, while the world updates and while it
does not. -/
theorem C3_alpha_in_unit_interval_witness :
    (0 : ℚ) < 1 / 60 ∧ (0 : ℚ) ≤ 1 / 100 ∧
      (0 ≤ alpha (1 / 60) (1 / 100) true ∧ alpha (1 / 60) (1 / 100) true ≤ 1) ∧
      alpha (1 / 60) (1 / 100) false = 1 :=
  ⟨by norm_num, by norm_num,
    ⟨(C3_alpha_in_unit_interval (1 / 60) (by norm_num) (1 / 100) (by norm_num) true).1,
      (C3_alpha_in_unit_interval (1 / 60) (by norm_num) (1 / 100) (by norm_num) true).2.1⟩,
    (C3_alpha_in_unit_interval (1 / 60) (by norm_num) (1 / 100) (by norm_num) false).2.2 rfl⟩

end RWGame

/-! ## The in-game clock -/

namespace GameClock

/-- C4: from every clock value with `hour < 24` and `minute < 60`, `n` minute increments return
(one iteration of fuel per carry loop suffices) with `minute = (minute + n) mod 60` and
`hour = (hour + (minute + n) div 60) mod 24`; so `hour < 24` and `minute < 60` are preserved. -/
theorem C4_minute_increments (fuel : ℕ) (hf : 1 ≤ fuel) (hour minute n : ℕ) (hh : hour < 24)
    (hm : minute < 60) :
    ∃ c, minuteIncrements fuel n ⟨hour, minute⟩ = some c ∧
      c.minute = (minute + n) % 60 ∧ c.hour = (hour + (minute + n) / 60) % 24 ∧
      c.hour < 24 ∧ c.minute < 60 :=
  ⟨_, minuteIncrements_eq fuel hf n hour minute hh hm, rfl, rfl,
    Nat.mod_lt _ (by decide), Nat.mod_lt _ (by decide)⟩

/-- Witness for C4: 90 increments from 23:45 give 01:15. -/
theorem C4_minute_increments_witness :
    23 < 24 ∧ 45 < 60 ∧
      ∃ c, minuteIncrements 1 90 ⟨23, 45⟩ = some c ∧ c.minute = 15 ∧ c.hour = 1 ∧
        c.hour < 24 ∧ c.minute < 60 :=
  ⟨by decide, by decide,
    C4_minute_increments 1 (le_refl 1) 23 45 90 (by decide) (by decide)⟩

end GameClock

/-! ## The activity slots -/

namespace CharacterController

/-- C5: with an activity `C` current, `setNextActivity(A)` followed by `setNextActivity(B)`
leaves exactly the state that `setNextActivity(B)` alone would have left (so `A` has no further
effect: it is never current and never updated), with `C` current and `B` queued; through any
later updates in which no activity update reports completion the current slot stays occupied
and `B` stays queued; and an update in which the then current activity reports completion
returns with `B` current, the queue slot empty, and that one activity update on record. -/
theorem C5_second_setNextActivity_replaces_first {α : Type}
    (upd : α → Scene → Option (Bool × α × Scene)) (c : CharacterController α) (C A B : α)
    (hC : c._currentActivity = some C) :
    (c.setNextActivity (some A)).setNextActivity (some B) = c.setNextActivity (some B) ∧
      ((c.setNextActivity (some A)).setNextActivity (some B))._currentActivity = some C ∧
      ((c.setNextActivity (some A)).setNextActivity (some B))._nextActivity = some B ∧
      ((c.setNextActivity (some A)).setNextActivity (some B)).updated = c.updated ∧
      (∀ (ds : List ℚ) (c3 : CharacterController α),
        updates upd ((c.setNextActivity (some A)).setNextActivity (some B)) ds = some c3 →
        (∀ e ∈ c3.updated.drop c.updated.length, e.2 = false) →
        (∃ X, c3._currentActivity = some X) ∧ c3._nextActivity = some B) ∧
      (∀ (c3 c1 : CharacterController α) (dt : ℚ) (X X1 : α) (sc : Scene),
        c3._currentActivity = some X → c3._nextActivity = some B →
        updateLocomotion c3 dt = some c1 →
        upd X (c1.scene.setRawMovement Vec3.zero) = some (true, X1, sc) →
        ∃ c4, update upd c3 dt = some c4 ∧ c4._currentActivity = some B ∧
          c4._nextActivity = none ∧ c4.updated = c3.updated ++ [(X, true)]) := by
  have h1 : c.setNextActivity (some A) = { c with _nextActivity := some A } := by
    simp [setNextActivity, hC]
  have h2 : (c.setNextActivity (some A)).setNextActivity (some B) =
      { c with _nextActivity := some B } := by
    rw [h1]; simp [setNextActivity, hC]
  have h3 : c.setNextActivity (some B) = { c with _nextActivity := some B } := by
    simp [setNextActivity, hC]
  refine ⟨by rw [h2, h3], by rw [h2]; exact hC, by rw [h2], by rw [h2], ?_, ?_⟩
  · intro ds c3 hrun hfalse
    rw [h2] at hrun
    exact updates_keeps_queued upd B c.updated.length ds { c with _nextActivity := some B } c3 rfl
      ⟨C, hC⟩ (le_refl _) hrun hfalse
  · intro c3 c1 dt X X1 sc hX hB hloc hupd
    refine ⟨_, update_of_completed upd c3 c1 dt X X1 sc hloc hX hupd, ?_, rfl, rfl⟩
    simp only [hB]

/-- Witness for C5: the sample controller (a `GoTo` that is about to complete is current), with
two further `GoTo` activities submitted one after the other, then one `update`. -/
theorem C5_second_setNextActivity_replaces_first_witness :
    sampleController._currentActivity = some ⟨⟨0, 0, 5⟩⟩ ∧
      ((sampleController.setNextActivity (some ⟨⟨1, 1, 1⟩⟩)).setNextActivity
          (some ⟨⟨2, 2, 2⟩⟩))._currentActivity = some ⟨⟨0, 0, 5⟩⟩ ∧
      ((sampleController.setNextActivity (some ⟨⟨1, 1, 1⟩⟩)).setNextActivity
          (some ⟨⟨2, 2, 2⟩⟩))._nextActivity = some ⟨⟨2, 2, 2⟩⟩ ∧
      ∃ c4, update GoTo.update ((sampleController.setNextActivity (some ⟨⟨1, 1, 1⟩⟩)).setNextActivity
          (some ⟨⟨2, 2, 2⟩⟩)) (1 / 60) = some c4 ∧ c4._currentActivity = some ⟨⟨2, 2, 2⟩⟩ ∧
        c4._nextActivity = none ∧
        c4.updated = ((sampleController.setNextActivity (some ⟨⟨1, 1, 1⟩⟩)).setNextActivity
          (some ⟨⟨2, 2, 2⟩⟩)).updated ++ [(⟨⟨0, 0, 5⟩⟩, true)] :=
  ⟨rfl,
    (C5_second_setNextActivity_replaces_first GoTo.update sampleController ⟨⟨0, 0, 5⟩⟩
      ⟨⟨1, 1, 1⟩⟩ ⟨⟨2, 2, 2⟩⟩ rfl).2.1,
    (C5_second_setNextActivity_replaces_first GoTo.update sampleController ⟨⟨0, 0, 5⟩⟩
      ⟨⟨1, 1, 1⟩⟩ ⟨⟨2, 2, 2⟩⟩ rfl).2.2.1,
    (C5_second_setNextActivity_replaces_first GoTo.update sampleController ⟨⟨0, 0, 5⟩⟩
      ⟨⟨1, 1, 1⟩⟩ ⟨⟨2, 2, 2⟩⟩ rfl).2.2.2.2.2
      ((sampleController.setNextActivity (some ⟨⟨1, 1, 1⟩⟩)).setNextActivity (some ⟨⟨2, 2, 2⟩⟩))
      ((sampleController.setNextActivity (some ⟨⟨1, 1, 1⟩⟩)).setNextActivity (some ⟨⟨2, 2, 2⟩⟩))
      (1 / 60) ⟨⟨0, 0, 5⟩⟩ ⟨⟨0, 0, 5⟩⟩ sampleScene rfl rfl
      (by
        norm_num [updateLocomotion, setNextActivity, sampleController, sampleScene,
          sampleCharacter, Vec3.lengthGt, Vec3.length2])
      (by
        norm_num [GoTo.update, setNextActivity, sampleController, sampleScene, sampleCharacter,
          Scene.setRawMovement, Vec3.zero, Vec3.sub, Vec3.length2XY,
          CharacterObject.setPosition])⟩

/-- C6: `update` calls the current activity's `update` exactly once when a slot is occupied
and not at all otherwise. Whenever lines 55-156 return: with no current activity `update`
returns with both slots and the call record unchanged; with a current activity whose `update`
returns `r`, `update` returns with exactly that call added to the record, and if `r` is true
the current slot holds what was queued (nothing when nothing was queued) and the queue slot is
empty, so the completed activity is in neither slot, while if `r` is false the current slot
holds the same activity (in its new state) and the queue slot is unchanged. Conversely every
returning `update` is one of these cases. -/
theorem C6_update_runs_current_activity_once {α : Type}
    (upd : α → Scene → Option (Bool × α × Scene)) (c : CharacterController α) (dt : ℚ) :
    (∀ c1, updateLocomotion c dt = some c1 →
      (c._currentActivity = none →
        ∃ c2, update upd c dt = some c2 ∧ c2.updated = c.updated ∧
          c2._currentActivity = none ∧ c2._nextActivity = c._nextActivity) ∧
      (∀ a r a1 sc, c._currentActivity = some a →
        upd a (c1.scene.setRawMovement Vec3.zero) = some (r, a1, sc) →
        ∃ c2, update upd c dt = some c2 ∧ c2.updated = c.updated ++ [(a, r)] ∧
          (r = true → c2._currentActivity = c._nextActivity ∧ c2._nextActivity = none) ∧
          (r = false → c2._currentActivity = some a1 ∧
            c2._nextActivity = c._nextActivity))) ∧
    (∀ c2, update upd c dt = some c2 →
      (c._currentActivity = none ∧ c2.updated = c.updated ∧ c2._currentActivity = none ∧
          c2._nextActivity = c._nextActivity) ∨
        (∃ a r, c._currentActivity = some a ∧ c2.updated = c.updated ++ [(a, r)] ∧
          (r = true → c2._currentActivity = c._nextActivity ∧ c2._nextActivity = none) ∧
          (r = false → (∃ a1, c2._currentActivity = some a1) ∧
            c2._nextActivity = c._nextActivity))) := by
  refine ⟨?_, fun c2 h => update_post upd c c2 dt h⟩
  intro c1 hloc
  have hs := updateLocomotion_slots c c1 dt hloc
  refine ⟨?_, ?_⟩
  · intro hcur
    exact ⟨_, update_of_idle upd c c1 dt hloc hcur, hs.2.2, by rw [← hcur]; exact hs.1, hs.2.1⟩
  · intro a r a1 sc hcur hupd
    cases r
    · exact ⟨_, update_of_running upd c c1 dt a a1 sc hloc hcur hupd, rfl,
        fun hr => absurd hr (by decide), fun _ => ⟨rfl, hs.2.1⟩⟩
    · exact ⟨_, update_of_completed upd c c1 dt a a1 sc hloc hcur hupd, rfl,
        fun _ => ⟨rfl, rfl⟩, fun hr => absurd hr (by decide)⟩

/-- Witness for C6: one `update` of the sample controller, whose `GoTo` completes at once with
nothing queued: one call on record and both slots empty afterwards. -/
theorem C6_update_runs_current_activity_once_witness :
    ∃ c2, update GoTo.update sampleController (1 / 60) = some c2 ∧
      c2.updated = sampleController.updated ++ [(⟨⟨0, 0, 5⟩⟩, true)] ∧
      c2._currentActivity = none ∧ c2._nextActivity = none := by
  obtain ⟨c2, h1, h2, h3, -⟩ :=
    ((C6_update_runs_current_activity_once GoTo.update sampleController (1 / 60)).1
      sampleController
      (by
        norm_num [updateLocomotion, sampleController, sampleScene, sampleCharacter,
          Vec3.lengthGt, Vec3.length2])).2
      ⟨⟨0, 0, 5⟩⟩ true ⟨⟨0, 0, 5⟩⟩ sampleScene rfl
      (by
        norm_num [GoTo.update, sampleController, sampleScene, sampleCharacter,
          Scene.setRawMovement, Vec3.zero, Vec3.sub, Vec3.length2XY,
          CharacterObject.setPosition])
  exact ⟨c2, h1, h2, (h3 rfl).1, (h3 rfl).2⟩

/-- C7: `setNextActivity(a)` with no current activity makes `a` current and leaves the queue
slot empty; with a current activity it leaves that activity current and makes `a` the content
of the queue slot. This holds for every pointer `a`, the null pointer included. -/
theorem C7_setNextActivity_slots {α : Type} (c : CharacterController α) (a : Option α) :
    (c._currentActivity = none →
      (c.setNextActivity a)._currentActivity = a ∧ (c.setNextActivity a)._nextActivity = none) ∧
    (∀ x, c._currentActivity = some x →
      (c.setNextActivity a)._currentActivity = some x ∧
        (c.setNextActivity a)._nextActivity = a) := by
  refine ⟨?_, ?_⟩
  · intro h
    cases a <;> simp [setNextActivity, setActivity, h]
  · intro x h
    simp [setNextActivity, h]

/-- Witness for C7: on the sample controller (an activity is current) a submitted `GoTo` is
queued; after `skipActivity()` (no activity current) it becomes current at once. -/
theorem C7_setNextActivity_slots_witness :
    ((sampleController.setNextActivity (some ⟨⟨1, 1, 1⟩⟩))._currentActivity = some ⟨⟨0, 0, 5⟩⟩ ∧
      (sampleController.setNextActivity (some ⟨⟨1, 1, 1⟩⟩))._nextActivity = some ⟨⟨1, 1, 1⟩⟩) ∧
    ((sampleController.skipActivity.setNextActivity (some ⟨⟨1, 1, 1⟩⟩))._currentActivity =
        some ⟨⟨1, 1, 1⟩⟩ ∧
      (sampleController.skipActivity.setNextActivity (some ⟨⟨1, 1, 1⟩⟩))._nextActivity = none) :=
  ⟨(C7_setNextActivity_slots sampleController (some ⟨⟨1, 1, 1⟩⟩)).2 ⟨⟨0, 0, 5⟩⟩ rfl,
    (C7_setNextActivity_slots sampleController.skipActivity (some ⟨⟨1, 1, 1⟩⟩)).1 rfl⟩

end CharacterController

/-! ## The activity slots: a skipped activity -/

namespace CharacterController

variable {α : Type}

/-- Lines 55-156 leave the raw movement as it was at the start of `update`. -/
theorem updateLocomotion_rawMovement (c c1 : CharacterController α) (dt : ℚ)
    (h : updateLocomotion c dt = some c1) : c1.scene.rawMovement = c.scene.rawMovement := by
  unfold updateLocomotion at h
  simp only [] at h
  repeat' split at h
  all_goals first
    | (cases h; done)
    | (cases h; rfl)

/-- With the current slot empty, updates change neither slot nor the call record. -/
theorem updates_of_idle (upd : α → Scene → Option (Bool × α × Scene)) :
    ∀ (ds : List ℚ) (c c3 : CharacterController α), c._currentActivity = none →
      updates upd c ds = some c3 →
      c3._currentActivity = none ∧ c3._nextActivity = c._nextActivity ∧
        c3.updated = c.updated := by
  intro ds
  induction ds with
  | nil =>
    intro c c3 hcur h
    simp only [updates, Option.some.injEq] at h
    subst h
    exact ⟨hcur, rfl, rfl⟩
  | cons dt rest ih =>
    intro c c3 hcur h
    rcases hu : update upd c dt with _ | c1
    · simp [updates, hu] at h
    · simp only [updates, hu, Option.some_bind] at h
      rcases update_post upd c c1 dt hu with ⟨_, h1, h2, h3⟩ | ⟨a, _, ha, _⟩
      · obtain ⟨h4, h5, h6⟩ := ih c1 c3 h2 h
        exact ⟨h4, by rw [h5, h3], by rw [h6, h1]⟩
      · rw [hcur] at ha; cases ha

/-- C20: with `Q` queued (and whatever activity `C` is current), `skipActivity()` empties the
current slot and leaves `Q` queued; from there every sequence of updates that returns leaves
the current slot empty, `Q` queued and the call record as it was, so `Q` is never updated;
each single update does return when lines 55-156 do; and a following `setNextActivity(a)`
makes `a` current and empties the queue slot, dropping `Q`. -/
theorem C20_skipActivity_strands_queued_activity
    (upd : α → Scene → Option (Bool × α × Scene)) (c : CharacterController α) (Q : α)
    (hQ : c._nextActivity = some Q) :
    c.skipActivity._currentActivity = none ∧ c.skipActivity._nextActivity = some Q ∧
      c.skipActivity.updated = c.updated ∧
      (∀ (ds : List ℚ) (c3 : CharacterController α), updates upd c.skipActivity ds = some c3 →
        c3._currentActivity = none ∧ c3._nextActivity = some Q ∧ c3.updated = c.updated ∧
        ∀ a : Option α, (c3.setNextActivity a)._currentActivity = a ∧
          (c3.setNextActivity a)._nextActivity = none) ∧
      (∀ (c3 c1 : CharacterController α) (dt : ℚ), c3._currentActivity = none →
        c3._nextActivity = some Q → updateLocomotion c3 dt = some c1 →
        ∃ c4, update upd c3 dt = some c4 ∧ c4._currentActivity = none ∧
          c4._nextActivity = some Q ∧ c4.updated = c3.updated) := by
  have hskip : c.skipActivity =
      { c with _currentActivity := none,
               scene := { c.scene with character := c.scene.character.clearTargetPosition } } := by
    simp [skipActivity, setActivity]
  refine ⟨by rw [hskip], by rw [hskip]; exact hQ, by rw [hskip], ?_, ?_⟩
  · intro ds c3 hrun
    obtain ⟨h1, h2, h3⟩ := updates_of_idle upd ds c.skipActivity c3 (by rw [hskip]) hrun
    refine ⟨h1, by rw [h2, hskip]; exact hQ, by rw [h3, hskip], ?_⟩
    intro a
    cases a <;> simp [setNextActivity, setActivity, h1]
  · intro c3 c1 dt hcur hnext hloc
    have hs := updateLocomotion_slots c3 c1 dt hloc
    exact ⟨_, update_of_idle upd c3 c1 dt hloc hcur, by rw [← hcur]; exact hs.1,
      by rw [← hnext]; exact hs.2.1, hs.2.2⟩

/-- Witness for C20: the sample controller with a second `GoTo` queued, then skipped, then
updated once. -/
theorem C20_skipActivity_strands_queued_activity_witness :
    (sampleController.setNextActivity (some ⟨⟨2, 2, 2⟩⟩)).skipActivity._currentActivity = none ∧
      (sampleController.setNextActivity (some ⟨⟨2, 2, 2⟩⟩)).skipActivity._nextActivity =
        some ⟨⟨2, 2, 2⟩⟩ ∧
      ∃ c4, update GoTo.update (sampleController.setNextActivity (some ⟨⟨2, 2, 2⟩⟩)).skipActivity
          (1 / 60) = some c4 ∧ c4._currentActivity = none ∧
        c4._nextActivity = some ⟨⟨2, 2, 2⟩⟩ ∧
        c4.updated = (sampleController.setNextActivity (some ⟨⟨2, 2, 2⟩⟩)).skipActivity.updated :=
  ⟨(C20_skipActivity_strands_queued_activity GoTo.update
      (sampleController.setNextActivity (some ⟨⟨2, 2, 2⟩⟩)) ⟨⟨2, 2, 2⟩⟩ rfl).1,
    (C20_skipActivity_strands_queued_activity GoTo.update
      (sampleController.setNextActivity (some ⟨⟨2, 2, 2⟩⟩)) ⟨⟨2, 2, 2⟩⟩ rfl).2.1,
    (C20_skipActivity_strands_queued_activity GoTo.update
      (sampleController.setNextActivity (some ⟨⟨2, 2, 2⟩⟩)) ⟨⟨2, 2, 2⟩⟩ rfl).2.2.2.2
      (sampleController.setNextActivity (some ⟨⟨2, 2, 2⟩⟩)).skipActivity
      { (sampleController.setNextActivity (some ⟨⟨2, 2, 2⟩⟩)).skipActivity with
        scene := { sampleScene with
          character := sampleCharacter.playAnimation sampleAnimations.idle true } }
      (1 / 60) rfl rfl
      (by
        norm_num [updateLocomotion, skipActivity, setActivity, setNextActivity, sampleController,
          sampleScene, sampleCharacter, Vec3.lengthGt, Vec3.lengthLt, Vec3.length2,
          CharacterObject.clearTargetPosition, CharacterObject.playAnimation,
          sampleAnimations])⟩

end CharacterController

/-! ## The raw movement intent -/

namespace CharacterController

variable {α : Type}

/-- C13: lines 55-156 read the raw movement present at the start and leave it in place; it is
then reset before the activity runs. With no current activity `update` returns (whenever lines
55-156 do) with the raw movement zero. With a current activity, its `update` is run on a scene
whose raw movement is zero, and the scene left by a returning `update` is the one that
activity call returned: the raw movement afterwards is what the activity wrote, never the
intent given before the call. -/
theorem C13_raw_movement_is_reset_before_activity
    (upd : α → Scene → Option (Bool × α × Scene)) (c : CharacterController α) (dt : ℚ) :
    (∀ c1, updateLocomotion c dt = some c1 →
      c1.scene.rawMovement = c.scene.rawMovement ∧
      (c1.scene.setRawMovement Vec3.zero).rawMovement = Vec3.zero ∧
      (c._currentActivity = none →
        ∃ c2, update upd c dt = some c2 ∧ c2.scene.rawMovement = Vec3.zero) ∧
      (∀ a r a1 sc, c._currentActivity = some a →
        upd a (c1.scene.setRawMovement Vec3.zero) = some (r, a1, sc) →
        ∃ c2, update upd c dt = some c2 ∧ c2.scene = sc)) ∧
    (∀ c2, update upd c dt = some c2 →
      (c._currentActivity = none ∧ c2.scene.rawMovement = Vec3.zero) ∨
      (∃ c1 a r a1, c._currentActivity = some a ∧ updateLocomotion c dt = some c1 ∧
        upd a (c1.scene.setRawMovement Vec3.zero) = some (r, a1, c2.scene))) := by
  refine ⟨?_, ?_⟩
  · intro c1 hloc
    refine ⟨updateLocomotion_rawMovement c c1 dt hloc, rfl, ?_, ?_⟩
    · intro hcur
      exact ⟨_, update_of_idle upd c c1 dt hloc hcur, rfl⟩
    · intro a r a1 sc hcur hupd
      cases r
      · exact ⟨_, update_of_running upd c c1 dt a a1 sc hloc hcur hupd, rfl⟩
      · exact ⟨_, update_of_completed upd c c1 dt a a1 sc hloc hcur hupd, rfl⟩
  · intro c2 h
    rcases hloc : updateLocomotion c dt with _ | c1
    · simp [update, hloc] at h
    · rcases hcur : c._currentActivity with _ | a
      · rw [update_of_idle upd c c1 dt hloc hcur] at h
        cases h
        exact Or.inl ⟨rfl, rfl⟩
      · right
        rcases hupd : upd a (c1.scene.setRawMovement Vec3.zero) with _ | ⟨r, a1, sc⟩
        · rw [update_of_failed upd c c1 dt a hloc hcur hupd] at h
          cases h
        · cases r
          · rw [update_of_running upd c c1 dt a a1 sc hloc hcur hupd] at h
            cases h
            exact ⟨c1, a, false, a1, rfl, rfl, hupd⟩
          · rw [update_of_completed upd c c1 dt a a1 sc hloc hcur hupd] at h
            cases h
            exact ⟨c1, a, true, a1, rfl, rfl, hupd⟩

/-- Witness for C13: the sample controller with its activity skipped and a forward intent of
`(1, 0, 0)`: after one update the raw movement is zero. -/
theorem C13_raw_movement_is_reset_before_activity_witness :
    ∃ c2, update GoTo.update
        { sampleController.skipActivity with
          scene := { sampleScene with rawMovement := ⟨1, 0, 0⟩ } } (1 / 60) = some c2 ∧
      c2.scene.rawMovement = Vec3.zero :=
  ((C13_raw_movement_is_reset_before_activity GoTo.update
      { sampleController.skipActivity with
        scene := { sampleScene with rawMovement := ⟨1, 0, 0⟩ } } (1 / 60)).1
    { sampleController.skipActivity with
      scene := { sampleScene with
        character := sampleCharacter.playAnimation sampleAnimations.walk_start false,
        rawMovement := ⟨1, 0, 0⟩ } }
    (by
      norm_num [updateLocomotion, skipActivity, setActivity, sampleController,
        sampleScene, sampleCharacter, Vec3.lengthGt, Vec3.lengthLt, Vec3.length2,
        CharacterObject.playAnimation, sampleAnimations]
      rfl)).2.2.1 rfl

end CharacterController

/-! ## `Jump` -/

theorem CharacterObject.playAnimation_jumps (c : CharacterObject) (animation : AnimPtr)
    (loop : Bool) : (c.playAnimation animation loop).jumps = c.jumps := by
  unfold CharacterObject.playAnimation; split <;> rfl

theorem CharacterObject.playAnimation_animations (c : CharacterObject) (animation : AnimPtr)
    (loop : Bool) : (c.playAnimation animation loop).animations = c.animations := by
  unfold CharacterObject.playAnimation; split <;> rfl

namespace Jump

/-- The first update: impulse, jump-start animation, phase set, `false` returned. -/
theorem update_first (s : Scene) :
    Jump.update ⟨false⟩ s =
      some (false, ⟨true⟩,
        { s with character :=
            s.character.jump.playAnimation s.character.animations.jump_start false }) := by
  simp [Jump.update, CharacterObject.jump]

/-- A later update makes no call of `jump()` and keeps the phase set. -/
theorem update_later (s : Scene) :
    ∃ b s1, Jump.update ⟨true⟩ s = some (b, ⟨true⟩, s1) ∧
      s1.character.jumps = s.character.jumps := by
  unfold Jump.update
  simp only [if_true]
  split
  · exact ⟨true, _, rfl, CharacterObject.playAnimation_jumps _ _ _⟩
  · refine ⟨false, _, rfl, ?_⟩
    simp only []
    split
    · split
      · exact CharacterObject.playAnimation_jumps _ _ _
      · rfl
    · rfl

/-- Once the phase is set, no run of updates calls `jump()`. -/
theorem run_later : ∀ scenes : List Scene,
    ∃ trace, runActivity Jump.update ⟨true⟩ scenes = some (trace, ⟨true⟩) ∧
      jumpCalls trace = 0 ∧ trace.length = scenes.length := by
  intro scenes
  induction scenes with
  | nil => exact ⟨[], rfl, rfl, rfl⟩
  | cons s rest ih =>
    obtain ⟨trace, hrun, hcalls, hlen⟩ := ih
    obtain ⟨b, s1, hupd, hj⟩ := update_later s
    refine ⟨(s, b, s1) :: trace, ?_, ?_, ?_⟩
    · simp only [runActivity, hupd, hrun]
    · simp only [jumpCalls, List.map_cons, List.sum_cons] at hcalls ⊢
      rw [hcalls, hj]
      simp
    · simp [hlen]

/-- C15: the first update of a `Jump` (phase flag clear) calls `jump()`, starts the jump-start
animation, sets the phase flag and returns false, whatever `canJump()` reports. Every later
update returns true exactly when `canJump()` is true, then playing the landing animation;
otherwise it returns false and plays the looping glide animation only when jump-start is
current and completed, changing nothing else. Over any run of one or more updates `jump()` is
called exactly once. -/
theorem C15_jump_phases (s : Scene) :
    Jump.update ⟨false⟩ s =
        some (false, ⟨true⟩,
          { s with character :=
              s.character.jump.playAnimation s.character.animations.jump_start false }) ∧
      (s.character.jump.playAnimation s.character.animations.jump_start false).jumps
        = s.character.jumps + 1 ∧
      (∃ b s1, Jump.update ⟨true⟩ s = some (b, ⟨true⟩, s1) ∧
        (b = true ↔ s.character.canJump = true) ∧
        (b = true →
          s1 = { s with character :=
                   s.character.playAnimation s.character.animations.jump_land false }) ∧
        (b = false →
          (s.character.animator.animation = s.character.animations.jump_start →
            s.character.animator.completed = true →
            s1 = { s with character :=
                     s.character.playAnimation s.character.animations.jump_glide true }) ∧
          (¬ (s.character.animator.animation = s.character.animations.jump_start ∧
              s.character.animator.completed = true) → s1 = s)) ∧
        s1.character.jumps = s.character.jumps) ∧
      (∀ rest : List Scene, ∃ trace a,
        runActivity Jump.update ⟨false⟩ (s :: rest) = some (trace, a) ∧
          jumpCalls trace = 1 ∧ trace.length = rest.length + 1) := by
  refine ⟨update_first s, ?_, ?_, ?_⟩
  · rw [CharacterObject.playAnimation_jumps]; rfl
  · by_cases hcan : s.character.canJump = true
    · refine ⟨true, _, (by simp only [Jump.update, if_true, if_pos hcan]; rfl), ?_, ?_, ?_, ?_⟩
      · exact ⟨fun _ => hcan, fun _ => rfl⟩
      · intro _; rfl
      · intro h; cases h
      · exact CharacterObject.playAnimation_jumps _ _ _
    · by_cases hstart : s.character.animator.animation = s.character.animations.jump_start
      · by_cases hdone : s.character.animator.completed = true
        · have hupd : Jump.update ⟨true⟩ s = some (false, ⟨true⟩,
              { s with character :=
                  s.character.playAnimation s.character.animations.jump_glide true }) := by
            simp only [Jump.update, if_true, if_neg hcan, if_pos hstart, if_pos hdone]
          refine ⟨false, _, hupd, ?_, ?_, ?_, ?_⟩
          · exact ⟨fun h => Bool.noConfusion h, fun h => absurd h hcan⟩
          · intro h; cases h
          · intro _; exact ⟨fun _ _ => rfl, fun hn => absurd ⟨hstart, hdone⟩ hn⟩
          · exact CharacterObject.playAnimation_jumps _ _ _
        · have hupd : Jump.update ⟨true⟩ s = some (false, ⟨true⟩, s) := by
            simp only [Jump.update, if_true, if_neg hcan, if_pos hstart, if_neg hdone]
          refine ⟨false, _, hupd, ?_, ?_, ?_, ?_⟩
          · exact ⟨fun h => Bool.noConfusion h, fun h => absurd h hcan⟩
          · intro h; cases h
          · intro _; exact ⟨fun _ hd => absurd hd hdone, fun _ => rfl⟩
          · rfl
      · have hupd : Jump.update ⟨true⟩ s = some (false, ⟨true⟩, s) := by
          simp only [Jump.update, if_true, if_neg hcan, if_neg hstart]
        refine ⟨false, _, hupd, ?_, ?_, ?_, ?_⟩
        · exact ⟨fun h => Bool.noConfusion h, fun h => absurd h hcan⟩
        · intro h; cases h
        · intro _; exact ⟨fun hs _ => absurd hs hstart, fun _ => rfl⟩
        · rfl
  · intro rest
    obtain ⟨trace, hrun, hcalls, hlen⟩ := run_later rest
    refine ⟨_, _, (by simp only [runActivity, update_first, hrun]; rfl), ?_, ?_⟩
    · simp only [jumpCalls, List.map_cons, List.sum_cons] at hcalls ⊢
      rw [hcalls, CharacterObject.playAnimation_jumps]
      simp [CharacterObject.jump]
    · simp [hlen]

end Jump

/-! ## `ShootWeapon`: thrown projectiles -/

theorem Scene.firedCount_of_item (s : Scene) (i : ℕ) (item : WeaponItem)
    (h : s.items[i]? = some item) : s.firedCount i = item.fired := by
  simp only [Scene.firedCount, h]

namespace ShootWeapon

/-- The grenade run of the witness: the second call is the one that fires (the count of
item 0 goes from 0 to 1), the third the one that returns true. -/
theorem run_grenade :
    (runActivity update ⟨0, false⟩
        [grenadeScene 20 1 true, grenadeScene 21 (3 / 4) false, grenadeScene 21 1 true]).map
      (fun r => (r.1.map (fun call => (call.2.1, call.2.2.firedCount 0)), r.2)) =
      some ([(false, 0), (false, 1), (true, 0)], ⟨0, true⟩) := by
  have hne : ¬ (FireType.PROJECTILE = FireType.INSTANT_HIT) := by decide
  norm_num [runActivity, update, grenadeScene, sampleGrenade, Scene.firedCount,
    WeaponItem.fire, Animator.setAnimation, sampleScene, sampleCharacter, hne]

end ShootWeapon

/-! ## `ShootWeapon`: instant-hit weapons -/

namespace ShootWeapon

/-- The rewind on the pistol: found at 70%, past the loop end, with the flag set, the update
clears the flag and leaves the animation at the loop start, 10%, without calling `fire()`. -/
theorem update_pistol_rewind :
    (update ⟨0, true⟩ (pistolScene (7 / 10))).map
      (fun r => (r.1, r.2.1, r.2.2.character.animator.time, r.2.2.firedCount 0)) =
      some (false, ⟨0, false⟩, 1 / 10, 0) := by
  norm_num [update, pistolScene, samplePistol, sampleScene, sampleCharacter,
    Scene.firedCount, Animator.setAnimationTime]

end ShootWeapon

/-! ## Missing entry doors -/

/-- Line 279 on a missing door: for a vehicle that is not a boat, when the seat that lines
258-272 settle on has no entry door, `EnterVehicle::update` dereferences the null pointer
and returns nothing. -/
theorem EnterVehicle.update_null_entry_door (anySeat : ℤ) (self : EnterVehicle) (s : Scene)
    (vehicle : VehicleObject) (hv : s.vehicles[self.vehicle]? = some vehicle)
    (hcar : vehicle.type ≠ VehicleType.BOAT)
    (hdoor : vehicle.getSeatEntryDoor
      (EnterVehicle.resolveSeat anySeat self vehicle s.character.position).seat = some none) :
    EnterVehicle.update anySeat self s = none := by
  unfold EnterVehicle.update
  simp only [hv, if_neg hcar, hdoor, Option.map_none']

/-- Line 355 on a missing door: for a character seated in a vehicle of either type, when the
seat has no entry door, `ExitVehicle::update` dereferences the null pointer and returns
nothing. -/
theorem ExitVehicle.update_null_exit_door (self : ExitVehicle) (s : Scene) (v : ℕ)
    (vehicle : VehicleObject) (hcur : s.character.currentVehicle = some v)
    (hv : s.vehicles[v]? = some vehicle)
    (hdoor : vehicle.getSeatEntryDoor s.character.currentSeat = some none) :
    ExitVehicle.update self s = none := by
  unfold ExitVehicle.update
  simp only [hcur, hv, hdoor, Option.map_none']

/-- C12 at the failing inputs: with a seat whose entry door is missing, `EnterVehicle::update`
on a car (whatever the value of `ANY_SEAT`) and `ExitVehicle::update` on a car and on a boat
return nothing, the missing door being dereferenced at lines 279 and 355; only
`EnterVehicle::update` on a boat, which returns at line 255 before the door is looked up,
gives its completion value. -/
theorem C12_missing_door_is_dereferenced :
    (∀ anySeat : ℤ, EnterVehicle.update anySeat ⟨0, 1, false⟩ doorlessScene = none) ∧
    ExitVehicle.update ⟨⟩ (seatedIn doorlessCar 1) = none ∧
    ExitVehicle.update ⟨⟩ (seatedIn sampleBoat 0) = none ∧
    (∀ anySeat : ℤ, ∃ s1, EnterVehicle.update anySeat ⟨0, 0, false⟩ boatScene =
      some (true, ⟨0, 0, false⟩, s1)) := by
  refine ⟨?_, ?_, ?_, ?_⟩
  · intro anySeat
    refine EnterVehicle.update_null_entry_door anySeat ⟨0, 1, false⟩ doorlessScene doorlessCar rfl
      (by decide) ?_
    by_cases h : (1 : ℤ) = anySeat
    · have hseat : (EnterVehicle.resolveSeat anySeat ⟨0, 1, false⟩ doorlessCar
          doorlessScene.character.position).seat = 1 := by
        simp only [EnterVehicle.resolveSeat, if_pos h, EnterVehicle.nearestSeat, doorlessCar,
          List.drop_succ_cons, List.drop_zero, EnterVehicle.nearestLoop]
        split <;> rfl
      rw [hseat]
      rfl
    · simp only [EnterVehicle.resolveSeat, if_neg h]
      rfl
  · exact ExitVehicle.update_null_exit_door ⟨⟩ (seatedIn doorlessCar 1) 0 doorlessCar rfl rfl rfl
  · exact ExitVehicle.update_null_exit_door ⟨⟩ (seatedIn sampleBoat 0) 0 sampleBoat rfl rfl rfl
  · intro anySeat
    exact ⟨_, rfl⟩

/-! ## `RWGame::tick`: the camera snapshots -/

namespace RWGame

/-- The minute increment returns for every clock, given one unit of fuel. -/
theorem minuteIncrement_total (fuel : ℕ) (hf : 1 ≤ fuel) (s : GameClock) :
    ∃ c, GameClock.minuteIncrement fuel s = some c := by
  unfold GameClock.minuteIncrement
  rw [GameClock.minuteWrap_eq fuel hf]
  exact ⟨_, rfl⟩

/-- The loop of lines 271-281 with `n` iterations permitted terminates from every accumulator
below `n + 1`, leaving the accumulator below 1. -/
theorem clockLoop_aux (f : ℕ) (hf : 1 ≤ f) : ∀ (n : ℕ) (acc : ℚ) (clock : GameClock),
    acc < n + 1 →
    ∃ r, whileLoop (fun p : ℚ × GameClock => decide (p.1 ≥ 1))
        (fun p => (GameClock.minuteIncrement f p.2).map (fun c => (p.1 - 1, c)))
        n (acc, clock) = some r ∧ r.1 < 1 := by
  intro n
  induction n with
  | zero =>
    intro acc clock h
    have h1 : acc < 1 := by simpa using h
    have hc : ¬ (1 ≤ acc) := not_le.mpr h1
    exact ⟨(acc, clock), by simp [whileLoop, hc], h1⟩
  | succ n ih =>
    intro acc clock h
    by_cases hc : 1 ≤ acc
    · obtain ⟨c, hinc⟩ := minuteIncrement_total f hf clock
      have hlt : acc - 1 < n + 1 := by
        push_cast at h
        linarith
      obtain ⟨r, hr, hr1⟩ := ih (acc - 1) c hlt
      exact ⟨r, by simp [whileLoop, hc, hinc, hr], hr1⟩
    · exact ⟨(acc, clock), by simp [whileLoop, hc], not_le.mp hc⟩

/-- The clock loop terminates when the fuel exceeds the accumulator less one. -/
theorem clockLoop_total (fuel : ℕ) (hf : 1 ≤ fuel) (acc : ℚ) (clock : GameClock)
    (h : acc < fuel + 1) : ∃ r, clockLoop fuel acc clock = some r ∧ r.1 < 1 :=
  clockLoop_aux fuel hf fuel acc clock h

/-- A tick in which the world is not updated returns with the cameras shifted. -/
theorem tick_of_paused {W : Type} (calls : TickCalls W) (fuel : ℕ) (g : TickState W) (dt : ℚ)
    (h : (g.inFocus &&
      calls.shouldWorldUpdate (calls.workUpdate (calls.clearTickData g.engine))) = false) :
    tick calls fuel g dt = some (TickResult.returned
      { g with engine := calls.workUpdate (calls.clearTickData g.engine),
               lastCam := g.nextCam,
               nextCam := calls.getCamera (calls.workUpdate (calls.clearTickData g.engine)) }) := by
  unfold tick
  simp only [h, Bool.false_eq_true, if_false]

/-- C18 (counterexample): a tick in which the world is updated and the script raises an
`SCMException` ends by throwing it again, with `lastCam` still the old `lastCam` and not the
value `nextCam` had before the call. -/
theorem C18_cameras_kept_when_script_raises :
    ∃ what g1, tick (sampleCalls true) 1 sampleTick (1 / 60) =
        some (TickResult.thrown what g1) ∧
      g1.lastCam = sampleTick.lastCam ∧ g1.lastCam ≠ sampleTick.nextCam := by
  refine ⟨"SCM", { sampleTick with engine := { sampleWorld with gameTime := 1 / 60 },
                                   clockAccumulator := 1 / 60 }, ?_, rfl, ?_⟩
  · norm_num [tick, clockLoop, whileLoop, sampleCalls, sampleTick, sampleWorld, cleanEffects,
      expireText]
  · norm_num [sampleTick, cameraAt]

/-- C18 (amended): with fuel for the clock loop, every call of `tick` ends. A call that
returns, as every call does in which the world is not updated, or the script is not set, or
the script does not raise, ends with `lastCam` the value `nextCam` had before the call and
`nextCam` the active state's `getCamera()`, and what it leaves does not depend on the old
`lastCam`. The remaining calls update the world and throw the script's `SCMException` again,
leaving both cameras as they were. -/
theorem C18_tick_shifts_cameras {W : Type} (calls : TickCalls W) (fuel : ℕ) (g : TickState W)
    (dt : ℚ) (hf : 1 ≤ fuel) (hacc : g.clockAccumulator + dt < fuel + 1) :
    ∃ r, tick calls fuel g dt = some r ∧
      (∀ g1, r = TickResult.returned g1 →
        g1.lastCam = g.nextCam ∧ g1.nextCam = calls.getCamera g1.engine ∧
        ∀ cam, tick calls fuel { g with lastCam := cam } dt = some (TickResult.returned g1)) ∧
      (∀ what g1, r = TickResult.thrown what g1 →
        g.inFocus = true ∧
        calls.shouldWorldUpdate (calls.workUpdate (calls.clearTickData g.engine)) = true ∧
        g.script = true ∧ (∃ e, calls.execute dt e = Except.error (what, g1.engine)) ∧
        g1.lastCam = g.lastCam ∧ g1.nextCam = g.nextCam) ∧
      ((g.inFocus = false ∨
          calls.shouldWorldUpdate (calls.workUpdate (calls.clearTickData g.engine)) = false ∨
          g.script = false ∨ ∀ e, ∃ e1, calls.execute dt e = Except.ok e1) →
        ∃ g1, r = TickResult.returned g1) := by
  rcases hupd : (g.inFocus &&
      calls.shouldWorldUpdate (calls.workUpdate (calls.clearTickData g.engine))) with _ | _
  · refine ⟨_, tick_of_paused calls fuel g dt hupd, ?_, ?_, fun _ => ⟨_, rfl⟩⟩
    · intro g1 hg1
      cases hg1
      exact ⟨rfl, rfl, fun cam => tick_of_paused calls fuel { g with lastCam := cam } dt hupd⟩
    · intro what g1 hg1
      cases hg1
  · obtain ⟨hfocus, hshould⟩ := Bool.and_eq_true_iff.mp hupd
    obtain ⟨⟨acc1, clock1⟩, hloop, -⟩ := clockLoop_total fuel hf (g.clockAccumulator + dt)
      (calls.workUpdate (calls.clearTickData g.engine)).clock hacc
    unfold tick
    simp only [hupd, hloop, if_true]
    generalize calls.stepSimulation dt _ = E
    generalize hX : (if g.script = true then calls.execute dt E else Except.ok E) = X
    rcases X with ⟨what, e⟩ | e
    · refine ⟨_, rfl, ?_, ?_, ?_⟩
      · intro g1 hg1
        cases hg1
      · intro what1 g1 hg1
        cases hg1
        by_cases hs : g.script = true
        · rw [if_pos hs] at hX
          exact ⟨hfocus, hshould, hs, ⟨E, hX⟩, rfl, rfl⟩
        · rw [if_neg hs] at hX
          cases hX
      · intro h
        exfalso
        rcases h with h | h | h | h
        · rw [h] at hfocus
          cases hfocus
        · rw [h] at hshould
          cases hshould
        · simp only [h, Bool.false_eq_true, if_false] at hX
          cases hX
        · obtain ⟨e1, he1⟩ := h E
          by_cases hs : g.script = true
          · rw [if_pos hs, he1] at hX
            cases hX
          · rw [if_neg hs] at hX
            cases hX
    · refine ⟨_, rfl, ?_, ?_, fun _ => ⟨_, rfl⟩⟩
      · intro g1 hg1
        cases hg1
        exact ⟨rfl, rfl, fun _ => rfl⟩
      · intro what g1 hg1
        cases hg1

/-- Witness for C18: the sample game, whose script does not raise, ticked by a sixtieth of a
second. -/
theorem C18_tick_shifts_cameras_witness :
    ∃ r, tick (sampleCalls false) 1 sampleTick (1 / 60) = some r ∧
      (∀ g1, r = TickResult.returned g1 →
        g1.lastCam = sampleTick.nextCam ∧ g1.nextCam = (sampleCalls false).getCamera g1.engine ∧
        ∀ cam, tick (sampleCalls false) 1 { sampleTick with lastCam := cam } (1 / 60) =
          some (TickResult.returned g1)) ∧
      (∀ what g1, r = TickResult.thrown what g1 →
        sampleTick.inFocus = true ∧
        (sampleCalls false).shouldWorldUpdate
          ((sampleCalls false).workUpdate ((sampleCalls false).clearTickData sampleTick.engine)) =
            true ∧
        sampleTick.script = true ∧
        (∃ e, (sampleCalls false).execute (1 / 60) e = Except.error (what, g1.engine)) ∧
        g1.lastCam = sampleTick.lastCam ∧ g1.nextCam = sampleTick.nextCam) ∧
      ((sampleTick.inFocus = false ∨
          (sampleCalls false).shouldWorldUpdate
            ((sampleCalls false).workUpdate
              ((sampleCalls false).clearTickData sampleTick.engine)) = false ∨
          sampleTick.script = false ∨
          ∀ e, ∃ e1, (sampleCalls false).execute (1 / 60) e = Except.ok e1) →
        ∃ g1, r = TickResult.returned g1) :=
  C18_tick_shifts_cameras (sampleCalls false) 1 sampleTick (1 / 60) (le_refl 1)
    (by norm_num [sampleTick])

/-- The sample tick of the witness returns, with the cameras at heights 2 and 3. -/
theorem tick_sample :
    ∃ g1, tick (sampleCalls false) 1 sampleTick (1 / 60) = some (TickResult.returned g1) ∧
      g1.lastCam = cameraAt 2 ∧ g1.nextCam = cameraAt 3 := by
  refine ⟨{ sampleTick with engine := { sampleWorld with gameTime := 1 / 60 },
                            clockAccumulator := 1 / 60, lastCam := cameraAt 2,
                            nextCam := cameraAt 3 }, ?_, rfl, rfl⟩
  norm_num [tick, clockLoop, whileLoop, sampleCalls, sampleTick, sampleWorld, cleanEffects,
    expireText]

end RWGame

set_option maxRecDepth 20000

/-! ## Binary32 rounding: lemmas -/

namespace F32

theorem bits_spec : ∀ fuel n : ℕ, n ≤ fuel →
    n < 2 ^ bits fuel n ∧ (n ≠ 0 → 2 ^ (bits fuel n - 1) ≤ n) := by
  intro fuel
  induction fuel with
  | zero =>
    intro n hn
    have : n = 0 := by omega
    subst this
    simp [bits]
  | succ fuel ih =>
    intro n hn
    by_cases h0 : n = 0
    · subst h0
      simp [bits]
    · have hle : n / 2 ≤ fuel := by omega
      obtain ⟨h1, h2⟩ := ih (n / 2) hle
      simp only [bits, if_neg h0, Nat.add_sub_cancel]
      refine ⟨?_, fun _ => ?_⟩
      · rw [pow_succ]
        omega
      · by_cases h1' : n / 2 = 0
        · have : bits fuel (n / 2) = 0 := by
            rw [h1']
            cases fuel <;> simp [bits]
          rw [this]
          simp
          omega
        · have h3 := h2 h1'
          have hb : bits fuel (n / 2) ≠ 0 := by
            intro hb
            rw [hb] at h1
            simp at h1
            exact h1' h1
          have : bits fuel (n / 2) = (bits fuel (n / 2) - 1) + 1 := by omega
          rw [this, pow_succ]
          omega

theorem lt_two_pow_bitLength (n : ℕ) : n < 2 ^ bitLength n := (bits_spec n n le_rfl).1

theorem two_pow_bitLength_le (n : ℕ) (h : n ≠ 0) : 2 ^ (bitLength n - 1) ≤ n :=
  (bits_spec n n le_rfl).2 h

theorem ulp_pos (q : ℕ) : 0 < ulp q := by
  unfold ulp
  positivity

/-- Below `2^24` units the spacing is one unit; above, it is at most `q / 2^23`. -/
theorem ulp_cases (q : ℕ) :
    q < 2 ^ 24 * ulp q ∧ (ulp q = 1 ∨ 2 ^ 23 * ulp q ≤ q) := by
  unfold ulp
  have h1 := lt_two_pow_bitLength q
  by_cases hL : bitLength q ≤ 24
  · have : bitLength q - 24 = 0 := by omega
    rw [this]
    refine ⟨?_, Or.inl rfl⟩
    have : 2 ^ bitLength q ≤ 2 ^ 24 := Nat.pow_le_pow_right (by norm_num) hL
    simp only [pow_zero, mul_one]
    omega
  · have hq : q ≠ 0 := by
      rintro rfl
      apply hL
      simp [bitLength, bits]
    have h2 := two_pow_bitLength_le q hq
    have e1 : 2 ^ 24 * 2 ^ (bitLength q - 24) = 2 ^ bitLength q := by
      rw [← pow_add]
      congr 1
      omega
    have e2 : 2 ^ 23 * 2 ^ (bitLength q - 24) = 2 ^ (bitLength q - 1) := by
      rw [← pow_add]
      congr 1
      omega
    rw [e1, e2]
    exact ⟨h1, Or.inr h2⟩

theorem bitLength_mono {a b : ℕ} (h : a ≤ b) : bitLength a ≤ bitLength b := by
  by_contra hc
  push_neg at hc
  have ha : a ≠ 0 := by
    rintro rfl
    simp [bitLength, bits] at hc
  have h1 := two_pow_bitLength_le a ha
  have h2 := lt_two_pow_bitLength b
  have h3 : 2 ^ bitLength b ≤ 2 ^ (bitLength a - 1) :=
    Nat.pow_le_pow_right (by norm_num) (by omega)
  omega

/-- The spacings at `a ≤ b` are equal, or the one at `b` is at least twice the one at `a`. -/
theorem ulp_mono {a b : ℕ} (h : a ≤ b) : ulp a = ulp b ∨ 2 * ulp a ≤ ulp b := by
  have hL := bitLength_mono h
  unfold ulp
  by_cases he : bitLength a - 24 = bitLength b - 24
  · left
    rw [he]
  · right
    have : bitLength a - 24 + 1 ≤ bitLength b - 24 := by omega
    calc 2 * 2 ^ (bitLength a - 24) = 2 ^ (bitLength a - 24 + 1) := by rw [pow_succ]; ring
      _ ≤ 2 ^ (bitLength b - 24) := Nat.pow_le_pow_right (by norm_num) this

/-- Rounding of a whole number of units, unfolded. -/
theorem rn_one (n : ℕ) :
    rn n 1 = if 2 * (n % ulp n) < ulp n then n / ulp n * ulp n
      else if 2 * (n % ulp n) = ulp n then
        (if n / ulp n % 2 = 0 then n / ulp n * ulp n else (n / ulp n + 1) * ulp n)
      else (n / ulp n + 1) * ulp n := by
  simp only [rn, Nat.div_one, one_mul]

/-- Rounding does not depend on the scale of the fraction. -/
theorem rn_mul_right (a d : ℕ) (hd : 0 < d) : rn (a * d) d = rn a 1 := by
  have hu := ulp_pos a
  have e1 : a * d / d = a := Nat.mul_div_cancel a hd
  have e2 : a * d / (d * ulp a) = a / ulp a := by
    rw [mul_comm a d]
    exact Nat.mul_div_mul_left a (ulp a) hd
  have e3 : a * d % (d * ulp a) = d * (a % ulp a) := by
    rw [mul_comm a d]
    exact Nat.mul_mod_mul_left d a (ulp a)
  rw [rn_one]
  simp only [rn, e1, e2, e3]
  have c1 : 2 * (d * (a % ulp a)) < d * ulp a ↔ 2 * (a % ulp a) < ulp a := by
    rw [show 2 * (d * (a % ulp a)) = d * (2 * (a % ulp a)) by ring]
    exact Nat.mul_lt_mul_left hd
  have c2 : 2 * (d * (a % ulp a)) = d * ulp a ↔ 2 * (a % ulp a) = ulp a := by
    rw [show 2 * (d * (a % ulp a)) = d * (2 * (a % ulp a)) by ring]
    exact Nat.mul_right_inj (Nat.pos_iff_ne_zero.mp hd)
  simp only [c1, c2]

/-- The value of `rn n 1` is one of the two multiples of the spacing around `n`, at most
half a spacing away. -/
theorem rn_one_cases (n : ℕ) :
    (rn n 1 = n / ulp n * ulp n ∧ 2 * (n % ulp n) ≤ ulp n ∧
        (2 * (n % ulp n) = ulp n → n / ulp n % 2 = 0)) ∨
      (rn n 1 = (n / ulp n + 1) * ulp n ∧ ulp n ≤ 2 * (n % ulp n) ∧
        (2 * (n % ulp n) = ulp n → n / ulp n % 2 = 1)) := by
  rw [rn_one]
  by_cases h1 : 2 * (n % ulp n) < ulp n
  · left
    simp only [if_pos h1, true_and]
    exact ⟨by omega, fun h => by omega⟩
  · by_cases h2 : 2 * (n % ulp n) = ulp n
    · by_cases h3 : n / ulp n % 2 = 0
      · left
        simp only [if_neg h1, if_pos h2, if_pos h3, true_and]
        exact ⟨by omega, fun _ => h3⟩
      · right
        simp only [if_neg h1, if_pos h2, if_neg h3, true_and]
        exact ⟨by omega, fun _ => by omega⟩
    · right
      simp only [if_neg h1, if_neg h2, true_and]
      exact ⟨by omega, fun h => absurd h h2⟩

/-- The relative error of rounding is at most `2^-24`. -/
theorem rn_one_err (n : ℕ) :
    2 ^ 24 * rn n 1 ≤ (2 ^ 24 + 1) * n ∧ (2 ^ 24 - 1) * n ≤ 2 ^ 24 * rn n 1 := by
  have hu := ulp_pos n
  have hdm : ulp n * (n / ulp n) + n % ulp n = n := Nat.div_add_mod n (ulp n)
  have hr : n % ulp n < ulp n := Nat.mod_lt n hu
  obtain ⟨-, hc⟩ := ulp_cases n
  have hsmall : 2 ^ 23 * ulp n ≤ n ∨ n % ulp n = 0 := by
    rcases hc with h | h
    · right
      rw [h]
      exact Nat.mod_one n
    · left
      exact h
  have hcases := rn_one_cases n
  generalize hR : rn n 1 = R at *
  generalize hk : n / ulp n = k at *
  generalize hrr : n % ulp n = r at *
  generalize hU : ulp n = u at *
  have hp : (k + 1) * u = u * k + u := by ring
  have hp0 : k * u = u * k := by ring
  rw [hp, hp0] at hcases
  generalize u * k = p at *
  norm_num at *
  omega

theorem rn_one_le_succ (n : ℕ) : rn n 1 ≤ (n / ulp n + 1) * ulp n := by
  rcases rn_one_cases n with ⟨h, -, -⟩ | ⟨h, -, -⟩
  · rw [h]
    exact Nat.mul_le_mul_right _ (Nat.le_succ _)
  · rw [h]

theorem le_rn_one (n : ℕ) : n / ulp n * ulp n ≤ rn n 1 := by
  rcases rn_one_cases n with ⟨h, -, -⟩ | ⟨h, -, -⟩
  · rw [h]
  · rw [h]
    exact Nat.mul_le_mul_right _ (Nat.le_succ _)

/-- Rounding is monotone. -/
theorem rn_one_mono {a b : ℕ} (h : a ≤ b) : rn a 1 ≤ rn b 1 := by
  have hua := ulp_pos a
  have hub := ulp_pos b
  rcases ulp_mono h with hu | hu
  · -- same spacing
    have hka : a / ulp a ≤ b / ulp a := Nat.div_le_div_right h
    rcases Nat.lt_or_ge (a / ulp a) (b / ulp a) with hlt | hge
    · calc rn a 1 ≤ (a / ulp a + 1) * ulp a := rn_one_le_succ a
        _ ≤ b / ulp a * ulp a := Nat.mul_le_mul_right _ hlt
        _ = b / ulp b * ulp b := by rw [hu]
        _ ≤ rn b 1 := le_rn_one b
    · have hk : a / ulp a = b / ulp b := by rw [← hu]; omega
      have hda : ulp a * (a / ulp a) + a % ulp a = a := Nat.div_add_mod a (ulp a)
      have hdb : ulp b * (b / ulp b) + b % ulp b = b := Nat.div_add_mod b (ulp b)
      have hca := rn_one_cases a
      have hcb := rn_one_cases b
      rw [← hk, ← hu] at hdb hcb
      generalize rn a 1 = A at *
      generalize rn b 1 = B at *
      generalize a / ulp a = k at *
      generalize a % ulp a = ra at *
      generalize b % ulp a = rb at *
      generalize ulp a = u at *
      have hp : (k + 1) * u = u * k + u := by ring
      have hp0 : k * u = u * k := by ring
      rw [hp, hp0] at hca hcb
      generalize u * k = p at *
      omega
  · -- the spacing at `b` is larger
    have h1 : a / ulp a + 1 ≤ 2 ^ 24 := by
      have := (ulp_cases a).1
      have : a / ulp a < 2 ^ 24 := (Nat.div_lt_iff_lt_mul hua).mpr this
      omega
    have h2 : 2 ^ 23 ≤ b / ulp b := by
      rcases (ulp_cases b).2 with h1 | h1
      · omega
      · exact (Nat.le_div_iff_mul_le hub).mpr h1
    calc rn a 1 ≤ (a / ulp a + 1) * ulp a := rn_one_le_succ a
      _ ≤ 2 ^ 24 * ulp a := Nat.mul_le_mul_right _ h1
      _ = 2 ^ 23 * (2 * ulp a) := by ring
      _ ≤ 2 ^ 23 * ulp b := Nat.mul_le_mul_left _ hu
      _ ≤ b / ulp b * ulp b := Nat.mul_le_mul_right _ h2
      _ ≤ rn b 1 := le_rn_one b

end F32

/-! ## The stepping loop in binary32: lemmas -/

namespace F32

theorem rn_zero : rn 0 1 = 0 := by decide

theorem lit_five : lit 5 1 = finite false (5 * 2 ^ 149) := by decide

theorem gt_finite (a b : ℕ) : gt (finite false a) (finite false b) = decide (b < a) := by
  simp [gt, lt, sval]

theorem ge_finite (a b : ℕ) : ge (finite false a) (finite false b) = decide (b ≤ a) := by
  simp [ge, le, sval]

theorem lt_finite (a b : ℕ) : lt (finite false a) (finite false b) = decide (a < b) := by
  simp [lt, sval]

/-- Subtraction of a smaller non-negative value, when the rounded difference is finite. -/
theorem sub_finite (n t : ℕ) (htn : t ≤ n) (hlt : rn (n - t) 1 < 2 ^ 128 * 2 ^ 149) :
    sub (finite false n) (finite false t) = finite false (rn (n - t) 1) := by
  rcases Nat.eq_or_lt_of_le htn with h | h
  · subst h
    simp [sub, neg, add, sval, rn_zero]
  · have hs : ((n : ℤ) + -(t : ℤ)) ≠ 0 := by omega
    have hpos : ¬ ((n : ℤ) + -(t : ℤ) < 0) := by omega
    have habs : ((n : ℤ) + -(t : ℤ)).natAbs = n - t := by omega
    simp only [sub, neg, add, sval, Bool.not_false, if_true, Bool.false_eq_true, if_false,
      if_neg hs, habs, decide_eq_false hpos, round, if_pos hlt]

/-- The product `T * 5.f`. -/
theorem mul_five (t : ℕ) :
    mul (finite false t) (lit 5 1) = round false (5 * t) 1 := by
  rw [lit_five]
  have e : t * (5 * 2 ^ 149) = 5 * t * 2 ^ 149 := by ring
  simp only [mul, Bool.xor_false, round, e, rn_mul_right (5 * t) (2 ^ 149) (by positivity)]

end F32

namespace Binary32
namespace RWGame

variable {σ : Type}

theorem stepLoop_stop (calls : RunCalls σ) (T : F32) (fuel : ℕ) (g : RWGame σ)
    (h : F32.ge g.accum T = false) :
    stepLoop calls T fuel g = some (TickResult.returned g) := by
  unfold stepLoop
  exact whileLoop_of_false _ _ fuel _ h

theorem stepLoop_step (calls : RunCalls σ) (T : F32) (fuel : ℕ) (g : RWGame σ)
    (h : F32.ge g.accum T = true) :
    stepLoop calls T (fuel + 1) g =
      match stepBody calls T g with
      | TickResult.returned g1 => stepLoop calls T fuel g1
      | TickResult.thrown what g1 => some (TickResult.thrown what g1) := by
  unfold stepLoop
  simp only [whileLoop, h, if_true, Option.some_bind]
  cases stepBody calls T g with
  | returned g1 => rfl
  | thrown what g1 => exact whileLoop_of_false _ _ fuel _ rfl

/-- The loop body on a finite non-negative accumulator of `n ≥ t` units, the timestep being
`t` units. -/
theorem stepBody_finite (calls : RunCalls σ) (t n : ℕ) (g : RWGame σ)
    (hacc : g.accum = F32.finite false n) (htn : t ≤ n)
    (hlt : F32.rn (n - t) 1 < 2 ^ 128 * 2 ^ 149)
    (hv : F32.rn (5 * t) 1 < 2 ^ 128 * 2 ^ 149) :
    stepBody calls (F32.finite false t) g =
      match calls.tick (F32.finite false t) (calls.stateTick (F32.finite false t) g.world) with
      | TickResult.thrown what world => TickResult.thrown what { g with world := world }
      | TickResult.returned world =>
        if F32.rn (5 * t) 1 < F32.rn (n - t) 1 then
          TickResult.returned
            { g with world := world, ticks := g.ticks + 1, accum := F32.zero,
                     discarded := g.discarded ++ [F32.finite false (F32.rn (n - t) 1)] }
        else
          TickResult.returned
            { g with world := world, ticks := g.ticks + 1,
                     accum := F32.finite false (F32.rn (n - t) 1) } := by
  rcases hk : calls.tick (F32.finite false t) (calls.stateTick (F32.finite false t) g.world)
    with world | ⟨what, world⟩
  · simp only [stepBody, hk, hacc, F32.sub_finite n t htn hlt, F32.mul_five, F32.round,
      if_pos hv, F32.gt_finite, decide_eq_true_eq]
  · simp only [stepBody, hk]

/-- The relative error of rounding, with the constant written out. -/
theorem rn_err (x : ℕ) :
    16777216 * F32.rn x 1 ≤ 16777217 * x ∧ 16777215 * x ≤ 16777216 * F32.rn x 1 := by
  have h := F32.rn_one_err x
  norm_num at h
  exact h

/-- The loop from the second step on, when the first step has not reset the accumulator:
after `i` steps the accumulator `n` is within `6 * i * t * 2^-24` of `n0 - i * t`, and the loop
ends within `6 - i` further steps, without resetting the accumulator. -/
theorem stepLoop_chain (calls : RunCalls σ) (t n0 : ℕ) (ht : 0 < t)
    (hv : F32.rn (5 * t) 1 < 2 ^ 128 * 2 ^ 149)
    (hn0 : 16777216 * n0 ≤ 6 * 16777216 * t + 16 * t) :
    ∀ (k i fuel : ℕ) (g : RWGame σ) (n : ℕ), i + k = 6 → 1 ≤ i → k ≤ fuel →
      g.accum = F32.finite false n →
      16777216 * n + 16777216 * (i * t) ≤ 16777216 * n0 + 6 * (i * t) →
      16777216 * n0 ≤ 16777216 * n + 16777216 * (i * t) + 6 * (i * t) →
      i * t ≤ n0 + t →
      ∃ r, stepLoop calls (F32.finite false t) fuel g = some r ∧
        r.state.ticks ≤ g.ticks + k ∧ r.state.discarded = g.discarded ∧
        (∀ what g1, r = TickResult.thrown what g1 →
          ∃ w, calls.tick (F32.finite false t) w = TickResult.thrown what g1.world) ∧
        (∀ g1, r = TickResult.returned g1 →
          F32.lt g1.accum (F32.finite false t) = true ∧
          n0 / t + g.ticks ≤ g1.ticks + i + 1 ∧ g1.ticks + i ≤ n0 / t + g.ticks + 1) ∧
        ((∀ w, ∃ w1, calls.tick (F32.finite false t) w = TickResult.returned w1) →
          ∃ g1, r = TickResult.returned g1) := by
  have hstop : ∀ (k i fuel : ℕ) (g : RWGame σ) (n : ℕ), i + k = 6 → 1 ≤ i →
      g.accum = F32.finite false n → n < t →
      16777216 * n0 ≤ 16777216 * n + 16777216 * (i * t) + 6 * (i * t) →
      i * t ≤ n0 + t →
      ∃ r, stepLoop calls (F32.finite false t) fuel g = some r ∧
        r.state.ticks ≤ g.ticks + k ∧ r.state.discarded = g.discarded ∧
        (∀ what g1, r = TickResult.thrown what g1 →
          ∃ w, calls.tick (F32.finite false t) w = TickResult.thrown what g1.world) ∧
        (∀ g1, r = TickResult.returned g1 →
          F32.lt g1.accum (F32.finite false t) = true ∧
          n0 / t + g.ticks ≤ g1.ticks + i + 1 ∧ g1.ticks + i ≤ n0 / t + g.ticks + 1) ∧
        ((∀ w, ∃ w1, calls.tick (F32.finite false t) w = TickResult.returned w1) →
          ∃ g1, r = TickResult.returned g1) := by
    intro k i fuel g n hik hi hacc hlt hlb hprev
    have hge : F32.ge g.accum (F32.finite false t) = false := by
      rw [hacc, F32.ge_finite]
      exact decide_eq_false (by omega)
    refine ⟨_, stepLoop_stop calls _ fuel g hge, Nat.le_add_right _ _, rfl, ?_, ?_,
      fun _ => ⟨g, rfl⟩⟩
    · intro what g1 h
      cases h
    · intro g1 h
      cases h
      have hi6 : i ≤ 6 := by omega
      have hp6 : i * t ≤ 6 * t := Nat.mul_le_mul_right t hi6
      have hf1 : n0 / t < i + 2 := by
        rw [Nat.div_lt_iff_lt_mul ht]
        have : (i + 2) * t = i * t + 2 * t := by ring
        rw [this]
        generalize i * t = p at *
        omega
      have hf2 : i - 1 ≤ n0 / t := by
        rw [Nat.le_div_iff_mul_le ht]
        have : (i - 1) * t + t = i * t := by
          have : i - 1 + 1 = i := by omega
          calc (i - 1) * t + t = (i - 1 + 1) * t := by ring
            _ = i * t := by rw [this]
        generalize (i - 1) * t = q at *
        generalize i * t = p at *
        omega
      refine ⟨?_, by omega, by omega⟩
      rw [hacc, F32.lt_finite]
      exact decide_eq_true hlt
  intro k
  induction k with
  | zero =>
    intro i fuel g n hik hi _ hacc hub hlb hprev
    have hi6 : i = 6 := by omega
    subst hi6
    have hlt : n < t := by omega
    exact hstop 0 6 fuel g n hik hi hacc hlt hlb hprev
  | succ k ih =>
    intro i fuel g n hik hi hfuel hacc hub hlb hprev
    rcases Nat.lt_or_ge n t with hlt | hge
    · exact hstop (k + 1) i fuel g n hik hi hacc hlt hlb hprev
    · obtain ⟨fuel1, rfl⟩ : ∃ f, fuel = f + 1 := ⟨fuel - 1, by omega⟩
      have hi5 : i ≤ 5 := by omega
      have hp1 : t ≤ i * t := Nat.le_mul_of_pos_left t (by omega)
      have hp5 : i * t ≤ 5 * t := Nat.mul_le_mul_right t hi5
      have hsucc : (i + 1) * t = i * t + t := by ring
      obtain ⟨hx1, hx2⟩ := rn_err (n - t)
      obtain ⟨-, hv2⟩ := rn_err (5 * t)
      have hnv : F32.rn (n - t) 1 ≤ F32.rn (5 * t) 1 := by
        generalize F32.rn (n - t) 1 = n1 at *
        generalize F32.rn (5 * t) 1 = v at *
        generalize i * t = p at *
        omega
      have hcond : F32.ge g.accum (F32.finite false t) = true := by
        rw [hacc, F32.ge_finite]
        exact decide_eq_true hge
      rw [stepLoop_step calls _ fuel1 g hcond,
        stepBody_finite calls t n g hacc hge (lt_of_le_of_lt hnv hv) hv]
      rcases hk : calls.tick (F32.finite false t)
          (calls.stateTick (F32.finite false t) g.world) with world | ⟨what, world⟩
      · simp only [if_neg (not_lt.mpr hnv)]
        obtain ⟨r, hr, h1, h2, h3, h4, h5⟩ := ih (i + 1) fuel1
          { g with world := world, ticks := g.ticks + 1,
                   accum := F32.finite false (F32.rn (n - t) 1) }
          (F32.rn (n - t) 1) (by omega) (by omega) (by omega) rfl
          (by
            rw [hsucc]
            generalize F32.rn (n - t) 1 = n1 at *
            generalize i * t = p at *
            omega)
          (by
            rw [hsucc]
            generalize F32.rn (n - t) 1 = n1 at *
            generalize i * t = p at *
            omega)
          (by
            rw [hsucc]
            generalize F32.rn (n - t) 1 = n1 at *
            generalize i * t = p at *
            omega)
        refine ⟨r, hr, ?_, h2, h3, ?_, h5⟩
        · simp only [] at h1
          omega
        · intro g1 hg1
          obtain ⟨ha, hb, hc⟩ := h4 g1 hg1
          simp only [] at hb hc
          exact ⟨ha, by omega, by omega⟩
      · refine ⟨_, rfl, ?_, rfl, ?_, ?_, ?_⟩
        · simp only [TickResult.state]
          omega
        · intro what1 g1 h
          cases h
          exact ⟨_, hk⟩
        · intro g1 h
          cases h
        · intro h
          obtain ⟨w1, hw1⟩ := h (calls.stateTick (F32.finite false t) g.world)
          rw [hk] at hw1
          cases hw1

/-- C19 (as stated, refuted): with `GAME_TIMESTEP = 1.f/60.f` and `0.1f` accumulated, which
is at most `6 * T` with `⌊accum / T⌋ = 5`, the stepping loop runs six steps, not five: the
subtractions `accum -= GAME_TIMESTEP` round, and the fifth leaves exactly `1.f/60.f`. It ends
with `2^-28` in the accumulator. (Values in units of `2^-149`.) -/
theorem C19_six_steps_where_floor_is_five :
    F32.lit 1 60 = F32.finite false (8947849 * 2 ^ 120) ∧
    F32.lit 1 10 = F32.finite false (13421773 * 2 ^ 122) ∧
    13421773 * 2 ^ 122 ≤ 6 * (8947849 * 2 ^ 120) ∧
    13421773 * 2 ^ 122 / (8947849 * 2 ^ 120) = 5 ∧
    stepLoop sampleRun (F32.lit 1 60) 6 (sampleGame (F32.lit 1 10)) =
      some (TickResult.returned
        { sampleGame (F32.finite false (2 ^ 121)) with ticks := 6 }) := by
  refine ⟨by decide, by decide, by decide, by decide, ?_⟩
  rfl

/-- C19 (amended): in binary32, for every timestep of `t > 0` units whose fivefold is finite
and every finite non-negative accumulator of `n` units, the stepping loop ends within six
simulation steps, by its condition or by a `tick` that throws (only then does it end by an
exception), and it ends by its condition when no `tick` throws. When it ends by its condition
the accumulator is below the timestep, and either no time was thrown away or exactly one step
was run and the accumulator reset to zero. No time is thrown away when `n ≤ 6 * t`, and the
number of steps then differs from `⌊n / t⌋` by at most one; one step is run and the
accumulator reset when `n > 6 * t * (1 + 2^-23)`. -/
theorem C19_step_loop_ends_within_six_steps (calls : RunCalls σ) (t n fuel : ℕ)
    (g : RWGame σ) (ht : 0 < t) (hv : F32.rn (5 * t) 1 < 2 ^ 128 * 2 ^ 149)
    (hn : F32.Rep n) (hacc : g.accum = F32.finite false n) (hf : 6 ≤ fuel) :
    ∃ r, stepLoop calls (F32.finite false t) fuel g = some r ∧
      r.state.ticks ≤ g.ticks + 6 ∧
      (∀ what g1, r = TickResult.thrown what g1 →
        ∃ w, calls.tick (F32.finite false t) w = TickResult.thrown what g1.world) ∧
      ((∀ w, ∃ w1, calls.tick (F32.finite false t) w = TickResult.returned w1) →
        ∃ g1, r = TickResult.returned g1) ∧
      (∀ g1, r = TickResult.returned g1 →
        F32.lt g1.accum (F32.finite false t) = true ∧
        (g1.discarded = g.discarded ∨
          (g1.ticks = g.ticks + 1 ∧ g1.accum = F32.zero ∧
            g1.discarded = g.discarded ++ [F32.sub g.accum (F32.finite false t)])) ∧
        (n ≤ 6 * t →
          g1.discarded = g.discarded ∧
          n / t + g.ticks ≤ g1.ticks + 1 ∧ g1.ticks ≤ n / t + g.ticks + 1) ∧
        (6 * (2 ^ 23 + 1) * t < 2 ^ 23 * n →
          g1.ticks = g.ticks + 1 ∧ g1.accum = F32.zero ∧
          g1.discarded = g.discarded ++ [F32.sub g.accum (F32.finite false t)])) := by
  rcases Nat.lt_or_ge n t with hlt | hge
  · -- the loop is not entered
    have hge : F32.ge g.accum (F32.finite false t) = false := by
      rw [hacc, F32.ge_finite]
      exact decide_eq_false (by omega)
    refine ⟨_, stepLoop_stop calls _ fuel g hge, Nat.le_add_right _ _, ?_,
      fun _ => ⟨g, rfl⟩, ?_⟩
    · intro what g1 h
      cases h
    · intro g1 h
      cases h
      have h0 : n / t = 0 := Nat.div_eq_of_lt hlt
      refine ⟨?_, Or.inl rfl, fun _ => ⟨rfl, by omega, by omega⟩, fun h => ?_⟩
      · rw [hacc, F32.lt_finite]
        exact decide_eq_true hlt
      · exfalso
        norm_num at h
        omega
  · obtain ⟨fuel1, rfl⟩ : ∃ f, fuel = f + 1 := ⟨fuel - 1, by omega⟩
    have hmono : F32.rn (n - t) 1 ≤ n := by
      have := F32.rn_one_mono (Nat.sub_le n t)
      rw [hn.1] at this
      exact this
    have hfin : F32.rn (n - t) 1 < 2 ^ 128 * 2 ^ 149 := lt_of_le_of_lt hmono hn.2
    have hsub : F32.sub g.accum (F32.finite false t) = F32.finite false (F32.rn (n - t) 1) := by
      rw [hacc, F32.sub_finite n t hge hfin]
    have hcond : F32.ge g.accum (F32.finite false t) = true := by
      rw [hacc, F32.ge_finite]
      exact decide_eq_true hge
    obtain ⟨hx1, hx2⟩ := rn_err (n - t)
    obtain ⟨hv1, hv2⟩ := rn_err (5 * t)
    rw [stepLoop_step calls _ fuel1 g hcond, stepBody_finite calls t n g hacc hge hfin hv, hsub]
    rcases hk : calls.tick (F32.finite false t)
        (calls.stateTick (F32.finite false t) g.world) with world | ⟨what, world⟩
    · by_cases hfire : F32.rn (5 * t) 1 < F32.rn (n - t) 1
      · -- the first step resets the accumulator
        simp only [if_pos hfire]
        have hz : F32.ge F32.zero (F32.finite false t) = false := by
          rw [F32.zero, F32.ge_finite]
          exact decide_eq_false (by omega)
        refine ⟨_, stepLoop_stop calls _ fuel1 _ hz, ?_, ?_, fun _ => ⟨_, rfl⟩, ?_⟩
        · simp only [TickResult.state]
          omega
        · intro what g1 h
          cases h
        · intro g1 h
          cases h
          refine ⟨?_, Or.inr ⟨rfl, rfl, rfl⟩, fun h6 => ?_, fun _ => ⟨rfl, rfl, rfl⟩⟩
          · rw [F32.zero, F32.lt_finite]
            exact decide_eq_true ht
          · exfalso
            have : F32.rn (n - t) 1 ≤ F32.rn (5 * t) 1 := F32.rn_one_mono (by omega)
            omega
      · -- the first step keeps the accumulator
        simp only [if_neg hfire]
        have hnv : F32.rn (n - t) 1 ≤ F32.rn (5 * t) 1 := not_lt.mp hfire
        have hone : 1 * t = t := one_mul t
        obtain ⟨r, hr, h1, h2, h3, h4, h5⟩ := stepLoop_chain calls t n ht hv
          (by
            generalize F32.rn (n - t) 1 = n1 at *
            generalize F32.rn (5 * t) 1 = v at *
            omega)
          5 1 fuel1
          { g with world := world, ticks := g.ticks + 1,
                   accum := F32.finite false (F32.rn (n - t) 1) }
          (F32.rn (n - t) 1) rfl le_rfl (by omega) rfl
          (by
            rw [hone]
            generalize F32.rn (n - t) 1 = n1 at *
            generalize F32.rn (5 * t) 1 = v at *
            omega)
          (by
            rw [hone]
            generalize F32.rn (n - t) 1 = n1 at *
            generalize F32.rn (5 * t) 1 = v at *
            omega)
          (by omega)
        refine ⟨r, hr, ?_, h3, h5, ?_⟩
        · simp only [] at h1
          omega
        · intro g1 hg1
          obtain ⟨ha, hb, hc⟩ := h4 g1 hg1
          have hd : g1.discarded = g.discarded := by
            rw [hg1] at h2
            exact h2
          simp only [] at hb hc
          refine ⟨ha, Or.inl hd, fun _ => ⟨hd, by omega, by omega⟩, fun hbig => ?_⟩
          exfalso
          norm_num at hbig
          generalize F32.rn (n - t) 1 = n1 at *
          generalize F32.rn (5 * t) 1 = v at *
          omega
    · refine ⟨_, rfl, ?_, ?_, ?_, ?_⟩
      · simp only [TickResult.state]
        omega
      · intro what1 g1 h
        cases h
        exact ⟨_, hk⟩
      · intro h
        obtain ⟨w1, hw1⟩ := h (calls.stateTick (F32.finite false t) g.world)
        rw [hk] at hw1
        cases hw1
      · intro g1 h
        cases h

/-- Witness for C19: `GAME_TIMESTEP = 1.f/60.f` with `0.1f` accumulated and nothing that
throws. -/
theorem C19_step_loop_ends_within_six_steps_witness :
    ∃ r, stepLoop sampleRun (F32.finite false (8947849 * 2 ^ 120)) 6
        (sampleGame (F32.finite false (13421773 * 2 ^ 122))) = some r ∧
      r.state.ticks ≤ 6 ∧
      ∃ g1, r = TickResult.returned g1 ∧ g1.discarded = [] ∧
        F32.lt g1.accum (F32.finite false (8947849 * 2 ^ 120)) = true := by
  obtain ⟨r, hr, h1, -, h3, h4⟩ := C19_step_loop_ends_within_six_steps sampleRun
    (8947849 * 2 ^ 120) (13421773 * 2 ^ 122) 6
    (sampleGame (F32.finite false (13421773 * 2 ^ 122)))
    (by decide) (by decide) (by decide) rfl le_rfl
  obtain ⟨g1, hg1⟩ := h3 (fun w => ⟨w, rfl⟩)
  obtain ⟨ha, -, hb, -⟩ := h4 g1 hg1
  exact ⟨r, hr, by simpa [sampleGame] using h1, g1, hg1, (hb (by decide)).1, ha⟩

end RWGame
end Binary32

/-! ## The frame loop in binary32: whole multiples of the timestep -/

namespace Binary32
namespace RWGame

variable {σ : Type}

end RWGame
end Binary32

/-! ## Binary32 comparisons: lemmas -/

namespace F32

/-- For values that are not NaN, `a < b` fails exactly when `b <= a`. -/
theorem lt_eq_false_iff (a b : F32) (ha : a ≠ nan) (hb : b ≠ nan) :
    lt a b = false ↔ le b a = true := by
  cases a with
  | nan => exact absurd rfl ha
  | inf n1 =>
    cases b with
    | nan => exact absurd rfl hb
    | inf n2 => cases n1 <;> cases n2 <;> simp [lt, le]
    | finite n2 m2 => cases n1 <;> simp [lt, le]
  | finite n1 m1 =>
    cases b with
    | nan => exact absurd rfl hb
    | inf n2 => cases n2 <;> simp [lt, le]
    | finite n2 m2 => simp [lt, le]

theorem le_refl (a : F32) (ha : a ≠ nan) : le a a = true := by
  cases a with
  | finite n m => simp [le]
  | inf n => cases n <;> rfl
  | nan => exact absurd rfl ha

theorem le_of_lt (a b : F32) (h : lt a b = true) : le a b = true := by
  cases a with
  | nan => simp [lt] at h
  | inf n1 =>
    cases b with
    | nan => simp [lt] at h
    | inf n2 => cases n1 <;> cases n2 <;> simp [lt, le] at h ⊢
    | finite n2 m2 => cases n1 <;> simp [lt, le] at h ⊢
  | finite n1 m1 =>
    cases b with
    | nan => simp [lt] at h
    | inf n2 => cases n2 <;> simp [lt, le] at h ⊢
    | finite n2 m2 =>
      simp only [lt, le, decide_eq_true_eq] at h ⊢
      omega

theorem le_trans (a b c : F32) (h1 : le a b = true) (h2 : le b c = true) : le a c = true := by
  cases a with
  | nan => simp [le] at h1
  | inf n1 =>
    cases b with
    | nan => simp [le] at h1
    | inf n2 =>
      cases c with
      | nan => simp [le] at h2
      | inf n3 => cases n1 <;> cases n2 <;> cases n3 <;> simp [le] at h1 h2 ⊢
      | finite n3 m3 => cases n1 <;> cases n2 <;> simp [le] at h1 h2 ⊢
    | finite n2 m2 =>
      cases c with
      | nan => simp [le] at h2
      | inf n3 => cases n1 <;> cases n3 <;> simp [le] at h1 h2 ⊢
      | finite n3 m3 => cases n1 <;> simp [le] at h1 h2 ⊢
  | finite n1 m1 =>
    cases b with
    | nan => simp [le] at h1
    | inf n2 =>
      cases c with
      | nan => simp [le] at h2
      | inf n3 => cases n2 <;> cases n3 <;> simp [le] at h1 h2 ⊢
      | finite n3 m3 => cases n2 <;> simp [le] at h1 h2 ⊢
    | finite n2 m2 =>
      cases c with
      | nan => simp [le] at h2
      | inf n3 => cases n3 <;> simp [le] at h1 h2 ⊢
      | finite n3 m3 =>
        simp only [le, decide_eq_true_eq] at h1 h2 ⊢
        omega

theorem lt_of_lt_of_le (a b c : F32) (h1 : lt a b = true) (h2 : le b c = true) :
    lt a c = true := by
  cases a with
  | nan => simp [lt] at h1
  | inf n1 =>
    cases b with
    | nan => simp [lt] at h1
    | inf n2 =>
      cases c with
      | nan => simp [le] at h2
      | inf n3 => cases n1 <;> cases n2 <;> cases n3 <;> simp [lt, le] at h1 h2 ⊢
      | finite n3 m3 => cases n1 <;> cases n2 <;> simp [lt, le] at h1 h2 ⊢
    | finite n2 m2 =>
      cases c with
      | nan => simp [le] at h2
      | inf n3 => cases n1 <;> cases n3 <;> simp [lt, le] at h1 h2 ⊢
      | finite n3 m3 => cases n1 <;> simp [lt, le] at h1 h2 ⊢
  | finite n1 m1 =>
    cases b with
    | nan => simp [lt] at h1
    | inf n2 =>
      cases c with
      | nan => simp [le] at h2
      | inf n3 => cases n2 <;> cases n3 <;> simp [lt, le] at h1 h2 ⊢
      | finite n3 m3 => cases n2 <;> simp [lt, le] at h1 h2 ⊢
    | finite n2 m2 =>
      cases c with
      | nan => simp [le] at h2
      | inf n3 => cases n3 <;> simp [lt, le] at h1 h2 ⊢
      | finite n3 m3 =>
        simp only [lt, le, decide_eq_true_eq] at h1 h2 ⊢
        omega

theorem lt_ne_nan_left (a b : F32) (h : lt a b = true) : a ≠ nan := by
  rintro rfl
  simp [lt] at h

theorem le_ne_nan_left (a b : F32) (h : le a b = true) : a ≠ nan := by
  rintro rfl
  simp [le] at h

theorem round_nonneg (num den : ℕ) : le zero (round false num den) = true := by
  simp only [round]
  split <;> simp [le, zero, sval]

theorem mul_self_nonneg (a : F32) (ha : a ≠ nan) : le zero (mul a a) = true := by
  cases a with
  | nan => exact absurd rfl ha
  | inf n => cases n <;> rfl
  | finite n m =>
    have : mul (finite n m) (finite n m) = round false (m * m) (2 ^ 149) := by
      cases n <;> rfl
    rw [this]
    exact round_nonneg _ _

theorem add_nonneg (a b : F32) (ha : le zero a = true) (hb : le zero b = true) :
    le zero (add a b) = true := by
  cases a with
  | nan => simp [le, zero] at ha
  | inf n1 =>
    cases n1
    · cases b with
      | nan => simp [le, zero] at hb
      | inf n2 =>
        cases n2
        · rfl
        · simp [le, zero] at hb
      | finite n2 m2 => rfl
    · simp [le, zero] at ha
  | finite n1 m1 =>
    cases b with
    | nan => simp [le, zero] at hb
    | inf n2 =>
      cases n2
      · rfl
      · simp [le, zero] at hb
    | finite n2 m2 =>
      simp only [le, zero, decide_eq_true_eq] at ha hb
      have h0 : sval false 0 = 0 := by simp [sval]
      rw [h0] at ha hb
      simp only [add]
      by_cases hs : sval n1 m1 + sval n2 m2 = 0
      · simp only [if_pos hs, le, zero, decide_eq_true_eq, h0]
        cases n1 <;> cases n2 <;> simp [sval]
      · have hneg : ¬ (sval n1 m1 + sval n2 m2 < 0) := by omega
        simp only [if_neg hs, decide_eq_false hneg]
        exact round_nonneg _ _

theorem sqrt_nonneg (a : F32) (ha : le zero a = true) : le zero (sqrt a) = true := by
  cases a with
  | nan => simp [le, zero] at ha
  | inf n =>
    cases n
    · rfl
    · simp [le, zero] at ha
  | finite n m =>
    simp only [le, zero, decide_eq_true_eq] at ha
    by_cases hm : m = 0
    · subst hm
      cases n <;> simp [sqrt, le, zero, sval]
    · have hn : n = false := by
        cases n
        · rfl
        · simp [sval] at ha
          omega
      subst hn
      simp [sqrt, hm, le, zero, sval]

theorem sub_ne_nan (a b : F32) (ha : a.isFinite = true) (hb : b.isFinite = true) :
    sub a b ≠ nan := by
  cases a with
  | nan => simp [isFinite] at ha
  | inf n => simp [isFinite] at ha
  | finite n1 m1 =>
    cases b with
    | nan => simp [isFinite] at hb
    | inf n => simp [isFinite] at hb
    | finite n2 m2 =>
      simp only [sub, neg, add]
      split
      · simp
      · simp only [round]
        split <;> simp

end F32

namespace Binary32

/-- The length computed by `glm::length` is not a NaN and not negative when no component
is a NaN. -/
theorem Vec3.length_nonneg (v : Vec3) (hx : v.x ≠ F32.nan) (hy : v.y ≠ F32.nan)
    (hz : v.z ≠ F32.nan) : F32.le F32.zero v.length = true :=
  F32.sqrt_nonneg _ (F32.add_nonneg _ _
    (F32.add_nonneg _ _ (F32.mul_self_nonneg _ hx) (F32.mul_self_nonneg _ hy))
    (F32.mul_self_nonneg _ hz))

/-- The distance computed by `glm::distance` between two points with finite coordinates is
not a NaN and not negative. -/
theorem Vec3.distance_nonneg (a b : Vec3) (ha : a.isFinite = true) (hb : b.isFinite = true) :
    F32.le F32.zero (Vec3.distance a b) = true := by
  simp only [Vec3.isFinite, Bool.and_eq_true] at ha hb
  exact Vec3.length_nonneg _ (F32.sub_ne_nan _ _ hb.1.1 ha.1.1)
    (F32.sub_ne_nan _ _ hb.1.2 ha.1.2) (F32.sub_ne_nan _ _ hb.2 ha.2)

end Binary32

/-! ## Binary32: rounding errors -/

namespace F32

/-- The error of rounding `num / den` units: at most `2^-24` of the value, or half a unit. -/
theorem rn_den_err (num den : ℕ) (hden : 0 < den) :
    2 ^ 24 * (rn num den * den) ≤ (2 ^ 24 + 1) * num + 2 ^ 23 * den ∧
    (2 ^ 24 - 1) * num ≤ 2 ^ 24 * (rn num den * den) + 2 ^ 23 * den := by
  have hu := ulp_cases (num / den)
  have hupos := ulp_pos (num / den)
  have hD : 0 < den * ulp (num / den) := Nat.mul_pos hden hupos
  have hdm := Nat.div_add_mod num (den * ulp (num / den))
  have hr := Nat.mod_lt num hD
  have hq : num / den * den ≤ num := Nat.div_mul_le_self num den
  have hDle : 2 ^ 23 * (den * ulp (num / den)) ≤ num + 2 ^ 23 * den := by
    rcases hu.2 with h1 | h2
    · rw [h1, mul_one]; omega
    · have : den * (2 ^ 23 * ulp (num / den)) ≤ den * (num / den) := Nat.mul_le_mul_left _ h2
      have h3 : 2 ^ 23 * (den * ulp (num / den)) = den * (2 ^ 23 * ulp (num / den)) := by ring
      have h4 : den * (num / den) = num / den * den := by ring
      omega
  have hk : ∀ k : ℕ, k * ulp (num / den) * den = den * ulp (num / den) * k := by
    intro k; ring
  unfold rn
  simp only []
  generalize hDD : den * ulp (num / den) = D at *
  generalize hkk : num / D = k at *
  generalize hrr : num % D = r at *
  have hk1 : D * (k + 1) = D * k + D := by ring
  generalize hDk : D * k = Dk at *
  split_ifs <;> simp only [hk, hDD, hDk, hk1] <;> norm_num at * <;> omega

/-- The bisection keeps the root bracketed. -/
theorem isqrtAux_spec (n : ℕ) : ∀ i r : ℕ, r * r ≤ n → n < (r + 2 ^ i) * (r + 2 ^ i) →
    isqrtAux n i r * isqrtAux n i r ≤ n ∧ n < (isqrtAux n i r + 1) * (isqrtAux n i r + 1) := by
  intro i
  induction i with
  | zero =>
    intro r h1 h2
    simpa [isqrtAux] using And.intro h1 h2
  | succ i ih =>
    intro r h1 h2
    simp only [isqrtAux]
    split
    · rename_i h
      refine ih _ h ?_
      have : r + 2 ^ i + 2 ^ i = r + 2 ^ (i + 1) := by rw [pow_succ]; ring
      rw [this]
      exact h2
    · rename_i h
      exact ih _ h1 (not_le.mp h)

/-- The function `isqrt` is the integer square root. -/
theorem isqrt_spec (n : ℕ) : isqrt n * isqrt n ≤ n ∧ n < (isqrt n + 1) * (isqrt n + 1) := by
  unfold isqrt
  refine isqrtAux_spec n _ 0 (Nat.zero_le _) ?_
  have h1 := lt_two_pow_bitLength n
  have h2 : 2 ^ bitLength n ≤ 2 ^ (bitLength n / 2 + 1) * 2 ^ (bitLength n / 2 + 1) := by
    rw [← pow_add]
    exact Nat.pow_le_pow_right (by norm_num) (by omega)
  simpa using Nat.lt_of_lt_of_le h1 h2

/-- The error of the rounded square root, for radicands from `2^48` on: at most `2^-23` of the
root, both ways. -/
theorem rnSqrt_err (n : ℕ) (h : 2 ^ 48 ≤ n) :
    2 ^ 46 * (rnSqrt n * rnSqrt n) ≤ (2 ^ 23 + 1) * (2 ^ 23 + 1) * n ∧
    2 ^ 46 * n ≤ (2 ^ 23 + 1) * (2 ^ 23 + 1) * (rnSqrt n * rnSqrt n) := by
  obtain ⟨hs1, hs2⟩ := isqrt_spec n
  have hs : 2 ^ 24 ≤ isqrt n := by
    by_contra hc
    push_neg at hc
    have h3 : isqrt n + 1 ≤ 2 ^ 24 := hc
    have h4 := Nat.mul_le_mul h3 h3
    have h5 : (2 : ℕ) ^ 24 * 2 ^ 24 = 2 ^ 48 := by norm_num
    omega
  have hu := ulp_cases (isqrt n)
  have hupos := ulp_pos (isqrt n)
  have hu2 : 2 ^ 23 * ulp (isqrt n) ≤ isqrt n := by
    rcases hu.2 with h1 | h2
    · rw [h1] at hu; omega
    · exact h2
  obtain ⟨hk1, hk2⟩ := isqrt_spec (n / (ulp (isqrt n) * ulp (isqrt n)))
  have huu : 0 < ulp (isqrt n) * ulp (isqrt n) := Nat.mul_pos hupos hupos
  have hk3 := (Nat.le_div_iff_mul_le huu).mp hk1
  have hk4 := (Nat.div_lt_iff_lt_mul huu).mp hk2
  have hk5 : 2 ^ 23 ≤ isqrt (n / (ulp (isqrt n) * ulp (isqrt n))) := by
    by_contra hc
    push_neg at hc
    have h3 : isqrt (n / (ulp (isqrt n) * ulp (isqrt n))) + 1 ≤ 2 ^ 23 := hc
    have h4 := Nat.mul_le_mul h3 h3
    have h6 := Nat.mul_le_mul hu2 hu2
    have h7 := Nat.mul_le_mul_right (ulp (isqrt n) * ulp (isqrt n)) h4
    have h8 : 2 ^ 23 * ulp (isqrt n) * (2 ^ 23 * ulp (isqrt n)) =
        2 ^ 23 * 2 ^ 23 * (ulp (isqrt n) * ulp (isqrt n)) := by ring
    omega
  unfold rnSqrt
  simp only []
  generalize ulp (isqrt n) = u at *
  generalize isqrt (n / (u * u)) = k at *
  have ha1 : k * u * (k * u) ≤ n := by
    have : k * u * (k * u) = k * k * (u * u) := by ring
    omega
  have ha2 : n < (k + 1) * u * ((k + 1) * u) := by
    have : (k + 1) * u * ((k + 1) * u) = (k + 1) * (k + 1) * (u * u) := by ring
    omega
  have hb : 2 ^ 23 * ((k + 1) * u) ≤ (2 ^ 23 + 1) * (k * u) := by
    have : 2 ^ 23 * u ≤ k * u := Nat.mul_le_mul_right u hk5
    have h9 : (k + 1) * u = k * u + u := by ring
    omega
  have hb2 := Nat.mul_le_mul hb hb
  have hle : k * u ≤ (k + 1) * u := Nat.mul_le_mul_right u (Nat.le_succ k)
  have hle2 := Nat.mul_le_mul hle hle
  have e1 : 2 ^ 23 * ((k + 1) * u) * (2 ^ 23 * ((k + 1) * u)) =
      2 ^ 46 * ((k + 1) * u * ((k + 1) * u)) := by ring
  have e2 : (2 ^ 23 + 1) * (k * u) * ((2 ^ 23 + 1) * (k * u)) =
      (2 ^ 23 + 1) * (2 ^ 23 + 1) * (k * u * (k * u)) := by ring
  rw [e1, e2] at hb2
  generalize hA : k * u * (k * u) = A at *
  generalize hB : (k + 1) * u * ((k + 1) * u) = B at *
  split_ifs <;> simp only [hA, hB] <;> norm_num at * <;> omega

end F32

/-! ## Binary32: the magnitude of a computed length -/

namespace F32

/-- The magnitude `2^128` is not changed by rounding. -/
theorem rn_top : rn top 1 = top := by decide

/-- A sum with a term of magnitude `2^128` overflows. -/
theorem top_le_rn_add (m : ℕ) : top ≤ rn (top + m) 1 := by
  have := rn_one_mono (Nat.le_add_right top m)
  rw [rn_top] at this
  exact this

/-- The square of the magnitude `2^128` overflows. -/
theorem top_le_rn_sq : top ≤ rn (top * top) (2 ^ 149) := by
  have h1 : top * top = top * 2 ^ 128 * 2 ^ 149 := by unfold top; ring
  rw [h1, rn_mul_right _ _ (by positivity)]
  have h2 : top * 2 ^ 128 = top + top * (2 ^ 128 - 1) := by
    have : (2 : ℕ) ^ 128 = 2 ^ 128 - 1 + 1 := by norm_num
    nth_rewrite 1 [this]
    ring
  rw [h2]
  exact top_le_rn_add _

/-- The result of an operation with a non-negative exact value. -/
theorem round_mag (num den : ℕ) :
    NonNeg (round false num den) ∧ mag (round false num den) = min (rn num den) top := by
  simp only [round]
  split
  · rename_i h
    exact ⟨Or.inr ⟨_, rfl, h⟩, by simp only [mag]; exact (min_eq_left (Nat.le_of_lt h)).symm⟩
  · rename_i h
    exact ⟨Or.inl rfl, by simp only [mag]; exact (min_eq_right (not_lt.mp h)).symm⟩

/-- The square of a value that is not a NaN. -/
theorem mul_self_mag (x : F32) (hx : x ≠ nan) :
    NonNeg (mul x x) ∧ mag (mul x x) = sqm (mag x) := by
  cases x with
  | nan => exact absurd rfl hx
  | inf n =>
    have : mul (inf n) (inf n) = inf false := by cases n <;> rfl
    rw [this]
    refine ⟨Or.inl rfl, ?_⟩
    simp only [mag, sqm]
    exact (min_eq_right top_le_rn_sq).symm
  | finite n m =>
    have : mul (finite n m) (finite n m) = round false (m * m) (2 ^ 149) := by
      cases n <;> rfl
    rw [this]
    exact round_mag _ _

/-- The sum of two non-negative values. -/
theorem add_mag (x y : F32) (hx : NonNeg x) (hy : NonNeg y) :
    NonNeg (add x y) ∧ mag (add x y) = addm (mag x) (mag y) := by
  rcases hx with rfl | ⟨a, rfl, ha⟩
  · rcases hy with rfl | ⟨b, rfl, hb⟩
    · refine ⟨Or.inl rfl, ?_⟩
      simp only [add, mag, addm, if_true]
      exact (min_eq_right (top_le_rn_add top)).symm
    · refine ⟨Or.inl rfl, ?_⟩
      simp only [add, mag, addm]
      exact (min_eq_right (top_le_rn_add b)).symm
  · rcases hy with rfl | ⟨b, rfl, hb⟩
    · refine ⟨Or.inl rfl, ?_⟩
      simp only [add, mag, addm]
      rw [Nat.add_comm]
      exact (min_eq_right (top_le_rn_add a)).symm
    · by_cases h : a + b = 0
      · have ha0 : a = 0 := by omega
        have hb0 : b = 0 := by omega
        subst ha0 hb0
        refine ⟨Or.inr ⟨0, by simp [add, sval], by decide⟩, ?_⟩
        simp [add, sval, mag, addm, rn_zero]
      · have hs : ((a : ℤ) + (b : ℤ)) ≠ 0 := by omega
        have hpos : ¬ ((a : ℤ) + (b : ℤ) < 0) := by omega
        have habs : ((a : ℤ) + (b : ℤ)).natAbs = a + b := by omega
        have : add (finite false a) (finite false b) = round false (a + b) 1 := by
          simp only [add, sval, Bool.false_eq_true, if_false, if_neg hs, habs,
            decide_eq_false hpos]
        rw [this]
        exact round_mag _ _

/-- The square root of a non-negative value. -/
theorem sqrt_mag (x : F32) (hx : NonNeg x) :
    (sqrt x = inf false ∨ ∃ m, sqrt x = finite false m) ∧ mag (sqrt x) = sqrtm (mag x) := by
  rcases hx with rfl | ⟨a, rfl, ha⟩
  · refine ⟨Or.inl rfl, ?_⟩
    simp [sqrt, mag, sqrtm]
  · by_cases h0 : a = 0
    · subst h0
      refine ⟨Or.inr ⟨0, by simp [sqrt]⟩, ?_⟩
      simp [sqrt, mag, sqrtm, top]
    · refine ⟨Or.inr ⟨rnSqrt (a * 2 ^ 149), by simp [sqrt, h0]⟩, ?_⟩
      simp [sqrt, mag, sqrtm, h0, ha]

/-- The difference of two finite values. -/
theorem sub_mag (n1 n2 : Bool) (m1 m2 : ℕ) :
    sub (finite n1 m1) (finite n2 m2) ≠ nan ∧
    mag (sub (finite n1 m1) (finite n2 m2)) = subm (sval n1 m1 - sval n2 m2) := by
  have hneg : sval (!n2) m2 = - sval n2 m2 := by
    cases n2 <;> simp [sval]
  by_cases h : sval n1 m1 + sval (!n2) m2 = 0
  · have h2 : sval n1 m1 - sval n2 m2 = 0 := by rw [hneg] at h; omega
    simp only [sub, neg, add, h, if_true, mag, subm, h2, Int.natAbs_zero, rn_zero]
    exact ⟨by simp, by simp⟩
  · have h2 : sval n1 m1 - sval n2 m2 = sval n1 m1 + sval (!n2) m2 := by rw [hneg]; ring
    simp only [sub, neg, add, if_neg h, subm, h2]
    simp only [round]
    split
    · rename_i hlt
      exact ⟨by simp, by simp only [mag]; exact (min_eq_left (Nat.le_of_lt hlt)).symm⟩
    · rename_i hlt
      exact ⟨by simp, by simp only [mag]; exact (min_eq_right (not_lt.mp hlt)).symm⟩

/-- The comparison `x < c` of a value that is `+inf` or finite and non-negative with a finite
non-negative bound, on the magnitudes. -/
theorem lt_mag (x : F32) (c : ℕ) (hx : x = inf false ∨ ∃ m, x = finite false m)
    (hc : c ≤ top) : lt x (finite false c) = decide (mag x < c) := by
  rcases hx with rfl | ⟨a, rfl⟩
  · simp only [lt, mag]
    exact (decide_eq_false (by omega)).symm
  · simp [lt, mag, sval]

/-- The comparison `x <= c` on the magnitudes. -/
theorem le_mag (x : F32) (c : ℕ) (hx : x = inf false ∨ ∃ m, x = finite false m)
    (hc : c < top) : le x (finite false c) = decide (mag x ≤ c) := by
  rcases hx with rfl | ⟨a, rfl⟩
  · simp only [le, mag]
    exact (decide_eq_false (by omega)).symm
  · simp [le, mag, sval]

/-- The comparison `x > c` on the magnitudes. -/
theorem gt_mag (x : F32) (c : ℕ) (hx : x = inf false ∨ ∃ m, x = finite false m)
    (hc : c < top) : gt x (finite false c) = decide (c < mag x) := by
  rcases hx with rfl | ⟨a, rfl⟩
  · simp only [gt, lt, mag]
    exact (decide_eq_true hc).symm
  · simp [gt, lt, mag, sval]

end F32

namespace Binary32

/-- The magnitude of `glm::length(v)` for components that are not NaN. -/
theorem Vec3.length_mag (v : Vec3) (hx : v.x ≠ F32.nan) (hy : v.y ≠ F32.nan)
    (hz : v.z ≠ F32.nan) :
    (v.length = F32.inf false ∨ ∃ m, v.length = F32.finite false m) ∧
    F32.mag v.length = F32.lengthUnits (F32.mag v.x) (F32.mag v.y) (F32.mag v.z) := by
  obtain ⟨hx1, hx2⟩ := F32.mul_self_mag v.x hx
  obtain ⟨hy1, hy2⟩ := F32.mul_self_mag v.y hy
  obtain ⟨hz1, hz2⟩ := F32.mul_self_mag v.z hz
  obtain ⟨h1, h2⟩ := F32.add_mag _ _ hx1 hy1
  obtain ⟨h3, h4⟩ := F32.add_mag _ _ h1 hz1
  obtain ⟨h5, h6⟩ := F32.sqrt_mag _ h3
  refine ⟨h5, ?_⟩
  unfold Vec3.length F32.lengthUnits
  rw [h6, h4, h2, hx2, hy2, hz2]

/-- The magnitude of `glm::length(glm::vec2(v))` for components that are not NaN. -/
theorem Vec3.lengthXY_mag (v : Vec3) (hx : v.x ≠ F32.nan) (hy : v.y ≠ F32.nan) :
    (v.lengthXY = F32.inf false ∨ ∃ m, v.lengthXY = F32.finite false m) ∧
    F32.mag v.lengthXY = F32.lengthXYUnits (F32.mag v.x) (F32.mag v.y) := by
  obtain ⟨hx1, hx2⟩ := F32.mul_self_mag v.x hx
  obtain ⟨hy1, hy2⟩ := F32.mul_self_mag v.y hy
  obtain ⟨h1, h2⟩ := F32.add_mag _ _ hx1 hy1
  obtain ⟨h5, h6⟩ := F32.sqrt_mag _ h1
  refine ⟨h5, ?_⟩
  unfold Vec3.lengthXY F32.lengthXYUnits
  rw [h6, h2, hx2, hy2]

end Binary32

/-! ## Binary32: the computed length against the exact length -/

namespace F32

/-- A square that does not overflow: the product is rounded with a relative error of at most
`2^-24`, or by half a unit. -/
theorem sqm_near (a : ℕ) (h : a * a ≤ 2 ^ 120 * (2 ^ 149 * 2 ^ 149)) :
    2 ^ 24 * (sqm a * 2 ^ 149) ≤ (2 ^ 24 + 1) * (a * a) + 2 ^ 23 * 2 ^ 149 ∧
    (2 ^ 24 - 1) * (a * a) ≤ 2 ^ 24 * (sqm a * 2 ^ 149) + 2 ^ 23 * 2 ^ 149 := by
  obtain ⟨h1, h2⟩ := rn_den_err (a * a) (2 ^ 149) (by positivity)
  have hlt : rn (a * a) (2 ^ 149) ≤ top := by
    unfold top
    generalize rn (a * a) (2 ^ 149) = r at *
    generalize a * a = x at *
    norm_num at *
    omega
  unfold sqm
  rw [min_eq_left hlt]
  exact ⟨h1, h2⟩

/-- A sum that does not overflow is rounded with a relative error of at most `2^-24`. -/
theorem addm_near (p q : ℕ) (h : p + q ≤ 2 ^ 125 * 2 ^ 149) :
    2 ^ 24 * addm p q ≤ (2 ^ 24 + 1) * (p + q) ∧ (2 ^ 24 - 1) * (p + q) ≤ 2 ^ 24 * addm p q := by
  obtain ⟨h1, h2⟩ := rn_one_err (p + q)
  have hlt : rn (p + q) 1 ≤ top := by
    unfold top
    generalize rn (p + q) 1 = r at *
    generalize p + q = x at *
    norm_num at *
    omega
  unfold addm
  rw [min_eq_left hlt]
  exact ⟨h1, h2⟩

/-- The square root of a finite magnitude is rounded with a relative error of at most
`2^-23`. -/
theorem sqrtm_near (s : ℕ) (h : s < top) :
    2 ^ 46 * (sqrtm s * sqrtm s) ≤ (2 ^ 23 + 1) * (2 ^ 23 + 1) * (s * 2 ^ 149) ∧
    2 ^ 46 * (s * 2 ^ 149) ≤ (2 ^ 23 + 1) * (2 ^ 23 + 1) * (sqrtm s * sqrtm s) := by
  unfold sqrtm
  rw [if_pos h]
  by_cases h0 : s = 0
  · subst h0
    simp
  · rw [if_neg h0]
    refine rnSqrt_err (s * 2 ^ 149) ?_
    have : 1 ≤ s := Nat.one_le_iff_ne_zero.mpr h0
    calc 2 ^ 48 ≤ 1 * 2 ^ 149 := by norm_num
      _ ≤ s * 2 ^ 149 := Nat.mul_le_mul_right _ this

/-- The computed length of a vector of squared length `X ≤ 2^120` agrees with `√X` to within
`2^-22`, up to a few units: on the squares, a relative error of at most `2^-21`. -/
theorem lengthUnits_near (a b c : ℕ)
    (h : a * a + b * b + c * c ≤ 2 ^ 120 * (2 ^ 149 * 2 ^ 149)) :
    2 ^ 21 * (lengthUnits a b c * lengthUnits a b c) ≤
      (2 ^ 21 + 1) * (a * a + b * b + c * c) + 2 ^ 172 ∧
    2 ^ 21 * (a * a + b * b + c * c) ≤
      (2 ^ 21 + 1) * (lengthUnits a b c * lengthUnits a b c) + 2 ^ 172 := by
  obtain ⟨ha1, ha2⟩ := sqm_near a (by omega)
  obtain ⟨hb1, hb2⟩ := sqm_near b (by omega)
  obtain ⟨hc1, hc2⟩ := sqm_near c (by omega)
  have hpq : sqm a + sqm b ≤ 2 ^ 125 * 2 ^ 149 := by
    generalize sqm a = P at *
    generalize sqm b = Q at *
    generalize a * a = x at *
    generalize b * b = y at *
    generalize c * c = z at *
    norm_num at *
    omega
  obtain ⟨hs1, hs2⟩ := addm_near (sqm a) (sqm b) hpq
  have hsr : addm (sqm a) (sqm b) + sqm c ≤ 2 ^ 125 * 2 ^ 149 := by
    generalize addm (sqm a) (sqm b) = S1 at *
    generalize sqm a = P at *
    generalize sqm b = Q at *
    generalize sqm c = R at *
    generalize a * a = x at *
    generalize b * b = y at *
    generalize c * c = z at *
    norm_num at *
    omega
  obtain ⟨ht1, ht2⟩ := addm_near (addm (sqm a) (sqm b)) (sqm c) hsr
  have hS : addm (addm (sqm a) (sqm b)) (sqm c) < top := by
    unfold top
    generalize addm (addm (sqm a) (sqm b)) (sqm c) = S at *
    generalize addm (sqm a) (sqm b) = S1 at *
    generalize sqm a = P at *
    generalize sqm b = Q at *
    generalize sqm c = R at *
    generalize a * a = x at *
    generalize b * b = y at *
    generalize c * c = z at *
    norm_num at *
    omega
  obtain ⟨hl1, hl2⟩ := sqrtm_near _ hS
  unfold lengthUnits
  generalize sqrtm (addm (addm (sqm a) (sqm b)) (sqm c)) *
    sqrtm (addm (addm (sqm a) (sqm b)) (sqm c)) = L2 at *
  generalize addm (addm (sqm a) (sqm b)) (sqm c) = S at *
  generalize addm (sqm a) (sqm b) = S1 at *
  generalize sqm a = P at *
  generalize sqm b = Q at *
  generalize sqm c = R at *
  generalize a * a = x at *
  generalize b * b = y at *
  generalize c * c = z at *
  norm_num at *
  omega

/-- Two-component form of `lengthUnits_near`. -/
theorem lengthXYUnits_near (a b : ℕ) (h : a * a + b * b ≤ 2 ^ 120 * (2 ^ 149 * 2 ^ 149)) :
    2 ^ 21 * (lengthXYUnits a b * lengthXYUnits a b) ≤ (2 ^ 21 + 1) * (a * a + b * b) + 2 ^ 172 ∧
    2 ^ 21 * (a * a + b * b) ≤ (2 ^ 21 + 1) * (lengthXYUnits a b * lengthXYUnits a b) + 2 ^ 172 := by
  obtain ⟨ha1, ha2⟩ := sqm_near a (by omega)
  obtain ⟨hb1, hb2⟩ := sqm_near b (by omega)
  have hpq : sqm a + sqm b ≤ 2 ^ 125 * 2 ^ 149 := by
    generalize sqm a = P at *
    generalize sqm b = Q at *
    generalize a * a = x at *
    generalize b * b = y at *
    norm_num at *
    omega
  obtain ⟨hs1, hs2⟩ := addm_near (sqm a) (sqm b) hpq
  have hS : addm (sqm a) (sqm b) < top := by
    unfold top
    generalize addm (sqm a) (sqm b) = S1 at *
    generalize sqm a = P at *
    generalize sqm b = Q at *
    generalize a * a = x at *
    generalize b * b = y at *
    norm_num at *
    omega
  obtain ⟨hl1, hl2⟩ := sqrtm_near _ hS
  unfold lengthXYUnits
  generalize sqrtm (addm (sqm a) (sqm b)) * sqrtm (addm (sqm a) (sqm b)) = L2 at *
  generalize addm (sqm a) (sqm b) = S1 at *
  generalize sqm a = P at *
  generalize sqm b = Q at *
  generalize a * a = x at *
  generalize b * b = y at *
  norm_num at *
  omega

/-- A large square stays large, or overflows. -/
theorem sqm_far (a : ℕ) (h : 2 ^ 118 * (2 ^ 149 * 2 ^ 149) ≤ a * a) :
    3 * 2 ^ 116 * 2 ^ 149 ≤ sqm a := by
  obtain ⟨h1, h2⟩ := rn_den_err (a * a) (2 ^ 149) (by positivity)
  unfold sqm top
  refine le_min ?_ (by norm_num)
  generalize rn (a * a) (2 ^ 149) = r at *
  generalize a * a = x at *
  norm_num at *
  omega

/-- A sum is at least its first term, up to the rounding. -/
theorem addm_ge_left (p q B : ℕ) (hB : B ≤ top) (h : 2 ^ 24 * B ≤ (2 ^ 24 - 1) * p) :
    B ≤ addm p q := by
  obtain ⟨h1, h2⟩ := rn_one_err p
  have h3 := rn_one_mono (Nat.le_add_right p q)
  unfold addm
  refine le_min ?_ hB
  generalize rn (p + q) 1 = r at *
  generalize rn p 1 = r1 at *
  norm_num at *
  omega

/-- A sum is at least its second term, up to the rounding. -/
theorem addm_ge_right (p q B : ℕ) (hB : B ≤ top) (h : 2 ^ 24 * B ≤ (2 ^ 24 - 1) * q) :
    B ≤ addm p q := by
  have := addm_ge_left q p B hB h
  unfold addm at this ⊢
  rw [Nat.add_comm]
  exact this

/-- The square root of a large magnitude is large. -/
theorem sqrtm_far (s : ℕ) (h : 2 ^ 117 * 2 ^ 149 ≤ s) : 2 ^ 58 * 2 ^ 149 ≤ sqrtm s := by
  by_cases hs : s < top
  · obtain ⟨h1, h2⟩ := sqrtm_near s hs
    by_contra hc
    push_neg at hc
    have h3 := Nat.mul_self_lt_mul_self hc
    generalize sqrtm s * sqrtm s = L2 at *
    norm_num at *
    omega
  · unfold sqrtm top
    rw [if_neg (by unfold top at hs; exact hs)]
    norm_num

/-- The computed length of a vector of squared length above `2^120` is at least `2^58`, or
infinite. -/
theorem lengthUnits_far (a b c : ℕ)
    (h : 2 ^ 120 * (2 ^ 149 * 2 ^ 149) < a * a + b * b + c * c) :
    2 ^ 58 * 2 ^ 149 ≤ lengthUnits a b c := by
  unfold lengthUnits
  refine sqrtm_far _ ?_
  have htop1 : 5 * 2 ^ 115 * 2 ^ 149 ≤ top := by unfold top; norm_num
  have htop2 : 2 ^ 117 * 2 ^ 149 ≤ top := by unfold top; norm_num
  have hcases : 2 ^ 118 * (2 ^ 149 * 2 ^ 149) ≤ a * a ∨ 2 ^ 118 * (2 ^ 149 * 2 ^ 149) ≤ b * b ∨
      2 ^ 118 * (2 ^ 149 * 2 ^ 149) ≤ c * c := by
    generalize a * a = x at *
    generalize b * b = y at *
    generalize c * c = z at *
    norm_num at *
    omega
  rcases hcases with ha | hb | hc
  · have hP := sqm_far a ha
    have hS1 : 5 * 2 ^ 115 * 2 ^ 149 ≤ addm (sqm a) (sqm b) :=
      addm_ge_left _ _ _ htop1 (by generalize sqm a = P at *; norm_num at *; omega)
    exact addm_ge_left _ _ _ htop2
      (by generalize addm (sqm a) (sqm b) = S at *; norm_num at *; omega)
  · have hP := sqm_far b hb
    have hS1 : 5 * 2 ^ 115 * 2 ^ 149 ≤ addm (sqm a) (sqm b) :=
      addm_ge_right _ _ _ htop1 (by generalize sqm b = P at *; norm_num at *; omega)
    exact addm_ge_left _ _ _ htop2
      (by generalize addm (sqm a) (sqm b) = S at *; norm_num at *; omega)
  · have hP := sqm_far c hc
    exact addm_ge_right _ _ _ htop2 (by generalize sqm c = P at *; norm_num at *; omega)

/-- Two-component form of `lengthUnits_far`. -/
theorem lengthXYUnits_far (a b : ℕ) (h : 2 ^ 120 * (2 ^ 149 * 2 ^ 149) < a * a + b * b) :
    2 ^ 58 * 2 ^ 149 ≤ lengthXYUnits a b := by
  unfold lengthXYUnits
  refine sqrtm_far _ ?_
  have htop2 : 2 ^ 117 * 2 ^ 149 ≤ top := by unfold top; norm_num
  have hcases : 2 ^ 118 * (2 ^ 149 * 2 ^ 149) ≤ a * a ∨
      2 ^ 118 * (2 ^ 149 * 2 ^ 149) ≤ b * b := by
    generalize a * a = x at *
    generalize b * b = y at *
    norm_num at *
    omega
  rcases hcases with ha | hb
  · have hP := sqm_far a ha
    exact addm_ge_left _ _ _ htop2 (by generalize sqm a = P at *; norm_num at *; omega)
  · have hP := sqm_far b hb
    exact addm_ge_right _ _ _ htop2 (by generalize sqm b = P at *; norm_num at *; omega)

/-- A vector whose squared length is below `C^2` by more than `2^-21` of it (and a few units)
has a computed length below `C`. -/
theorem lengthUnits_lt (a b c C : ℕ) (hC : C ≤ 2 ^ 58 * 2 ^ 149)
    (h : (2 ^ 21 + 1) * (a * a + b * b + c * c) + 2 ^ 172 < 2 ^ 21 * (C * C)) :
    lengthUnits a b c < C := by
  have hCC := Nat.mul_le_mul hC hC
  have hnear : a * a + b * b + c * c ≤ 2 ^ 120 * (2 ^ 149 * 2 ^ 149) := by
    generalize a * a + b * b + c * c = X at *
    generalize C * C = C2 at *
    norm_num at *
    omega
  obtain ⟨h1, -⟩ := lengthUnits_near a b c hnear
  by_contra hc
  push_neg at hc
  have h3 := Nat.mul_le_mul hc hc
  generalize lengthUnits a b c * lengthUnits a b c = L2 at *
  generalize a * a + b * b + c * c = X at *
  generalize C * C = C2 at *
  omega

/-- A vector whose squared length is above `C^2` by more than `2^-21` of it (and a few units)
has a computed length of at least `C`. -/
theorem le_lengthUnits (a b c C : ℕ) (hC : C ≤ 2 ^ 58 * 2 ^ 149)
    (h : (2 ^ 21 + 1) * (C * C) + 2 ^ 172 ≤ 2 ^ 21 * (a * a + b * b + c * c)) :
    C ≤ lengthUnits a b c := by
  rcases Nat.lt_or_ge (2 ^ 120 * (2 ^ 149 * 2 ^ 149)) (a * a + b * b + c * c) with hfar | hnear
  · exact Nat.le_trans hC (lengthUnits_far a b c hfar)
  · obtain ⟨-, h2⟩ := lengthUnits_near a b c hnear
    by_contra hc
    push_neg at hc
    have h3 := Nat.mul_self_lt_mul_self hc
    generalize lengthUnits a b c * lengthUnits a b c = L2 at *
    generalize a * a + b * b + c * c = X at *
    generalize C * C = C2 at *
    omega

/-- Two-component form of `lengthUnits_lt`. -/
theorem lengthXYUnits_lt (a b C : ℕ) (hC : C ≤ 2 ^ 58 * 2 ^ 149)
    (h : (2 ^ 21 + 1) * (a * a + b * b) + 2 ^ 172 < 2 ^ 21 * (C * C)) :
    lengthXYUnits a b < C := by
  have hCC := Nat.mul_le_mul hC hC
  have hnear : a * a + b * b ≤ 2 ^ 120 * (2 ^ 149 * 2 ^ 149) := by
    generalize a * a + b * b = X at *
    generalize C * C = C2 at *
    norm_num at *
    omega
  obtain ⟨h1, -⟩ := lengthXYUnits_near a b hnear
  by_contra hc
  push_neg at hc
  have h3 := Nat.mul_le_mul hc hc
  generalize lengthXYUnits a b * lengthXYUnits a b = L2 at *
  generalize a * a + b * b = X at *
  generalize C * C = C2 at *
  omega

/-- Two-component form of `le_lengthUnits`. -/
theorem le_lengthXYUnits (a b C : ℕ) (hC : C ≤ 2 ^ 58 * 2 ^ 149)
    (h : (2 ^ 21 + 1) * (C * C) + 2 ^ 172 ≤ 2 ^ 21 * (a * a + b * b)) :
    C ≤ lengthXYUnits a b := by
  rcases Nat.lt_or_ge (2 ^ 120 * (2 ^ 149 * 2 ^ 149)) (a * a + b * b) with hfar | hnear
  · exact Nat.le_trans hC (lengthXYUnits_far a b hfar)
  · obtain ⟨-, h2⟩ := lengthXYUnits_near a b hnear
    by_contra hc
    push_neg at hc
    have h3 := Nat.mul_self_lt_mul_self hc
    generalize lengthXYUnits a b * lengthXYUnits a b = L2 at *
    generalize a * a + b * b = X at *
    generalize C * C = C2 at *
    omega

end F32

/-! ## Binary32: rounded differences -/

namespace F32

/-- A difference that does not overflow is rounded with a relative error of at most
`2^-24`. -/
theorem subm_near (d : ℤ) (h : d.natAbs ≤ 2 ^ 61 * 2 ^ 149) :
    2 ^ 24 * subm d ≤ (2 ^ 24 + 1) * d.natAbs ∧ (2 ^ 24 - 1) * d.natAbs ≤ 2 ^ 24 * subm d := by
  obtain ⟨h1, h2⟩ := rn_one_err d.natAbs
  have hlt : rn d.natAbs 1 ≤ top := by
    unfold top
    generalize rn d.natAbs 1 = r at *
    generalize d.natAbs = x at *
    norm_num at *
    omega
  unfold subm
  rw [min_eq_left hlt]
  exact ⟨h1, h2⟩

/-- A large difference stays large, or overflows. -/
theorem subm_far (d : ℤ) (h : 2 ^ 61 * 2 ^ 149 ≤ d.natAbs) : 2 ^ 60 * 2 ^ 149 ≤ subm d := by
  obtain ⟨h1, h2⟩ := rn_one_err d.natAbs
  unfold subm top
  refine le_min ?_ (by norm_num)
  generalize rn d.natAbs 1 = r at *
  generalize d.natAbs = x at *
  norm_num at *
  omega

/-- The square of a rounded difference against the square of the exact difference. -/
theorem subm_sq (d : ℤ) :
    (d.natAbs ≤ 2 ^ 61 * 2 ^ 149 ∧
      2 ^ 48 * (subm d * subm d) ≤ (2 ^ 24 + 1) * (2 ^ 24 + 1) * (d.natAbs * d.natAbs) ∧
      (2 ^ 24 - 1) * (2 ^ 24 - 1) * (d.natAbs * d.natAbs) ≤ 2 ^ 48 * (subm d * subm d)) ∨
    (2 ^ 61 * 2 ^ 149 < d.natAbs ∧
      2 ^ 120 * (2 ^ 149 * 2 ^ 149) ≤ subm d * subm d) := by
  rcases Nat.lt_or_ge (2 ^ 61 * 2 ^ 149) d.natAbs with hfar | hnear
  · right
    refine ⟨hfar, ?_⟩
    have h1 := subm_far d (Nat.le_of_lt hfar)
    have h2 := Nat.mul_le_mul h1 h1
    have e : 2 ^ 60 * 2 ^ 149 * (2 ^ 60 * 2 ^ 149) = 2 ^ 120 * (2 ^ 149 * 2 ^ 149) := by ring
    rw [e] at h2
    exact h2
  · left
    obtain ⟨h1, h2⟩ := subm_near d hnear
    have h3 := Nat.mul_le_mul h1 h1
    have h4 := Nat.mul_le_mul h2 h2
    have e1 : 2 ^ 24 * subm d * (2 ^ 24 * subm d) = 2 ^ 48 * (subm d * subm d) := by ring
    have e2 : (2 ^ 24 + 1) * d.natAbs * ((2 ^ 24 + 1) * d.natAbs) =
        (2 ^ 24 + 1) * (2 ^ 24 + 1) * (d.natAbs * d.natAbs) := by ring
    have e3 : (2 ^ 24 - 1) * d.natAbs * ((2 ^ 24 - 1) * d.natAbs) =
        (2 ^ 24 - 1) * (2 ^ 24 - 1) * (d.natAbs * d.natAbs) := by ring
    rw [e1, e2] at h3
    rw [e3, e1] at h4
    exact ⟨hnear, h3, h4⟩

/-- Two points whose squared horizontal distance is below `C^2` by more than `2^-20` of it
have a computed horizontal distance below `C`. -/
theorem distUnits_lt (dx dy : ℤ) (c C : ℕ) (hC : C ≤ 2 ^ 58 * 2 ^ 149)
    (h : (2 ^ 20 + 1) * (dx.natAbs * dx.natAbs + dy.natAbs * dy.natAbs + c * c) + 2 ^ 172 <
      2 ^ 20 * (C * C)) :
    lengthUnits (subm dx) (subm dy) c < C ∧ (c = 0 → lengthXYUnits (subm dx) (subm dy) < C) := by
  have hCC := Nat.mul_le_mul hC hC
  have hx := subm_sq dx
  have hy := subm_sq dy
  have hx2 : dx.natAbs ≤ 2 ^ 61 * 2 ^ 149 := by
    by_contra hc
    push_neg at hc
    have := Nat.mul_le_mul (Nat.le_of_lt hc) (Nat.le_of_lt hc)
    generalize dx.natAbs * dx.natAbs = x at *
    generalize dy.natAbs * dy.natAbs = y at *
    generalize c * c = z at *
    generalize C * C = C2 at *
    norm_num at *
    omega
  have hy2 : dy.natAbs ≤ 2 ^ 61 * 2 ^ 149 := by
    by_contra hc
    push_neg at hc
    have := Nat.mul_le_mul (Nat.le_of_lt hc) (Nat.le_of_lt hc)
    generalize dx.natAbs * dx.natAbs = x at *
    generalize dy.natAbs * dy.natAbs = y at *
    generalize c * c = z at *
    generalize C * C = C2 at *
    norm_num at *
    omega
  rcases hx with ⟨-, hx3, -⟩ | ⟨hx3, -⟩
  swap
  · omega
  rcases hy with ⟨-, hy3, -⟩ | ⟨hy3, -⟩
  swap
  · omega
  refine ⟨lengthUnits_lt _ _ _ C hC ?_, ?_⟩
  · generalize subm dx * subm dx = a2 at *
    generalize subm dy * subm dy = b2 at *
    generalize dx.natAbs * dx.natAbs = x at *
    generalize dy.natAbs * dy.natAbs = y at *
    generalize c * c = z at *
    generalize C * C = C2 at *
    norm_num at *
    omega
  · intro hc0
    subst hc0
    refine lengthXYUnits_lt _ _ C hC ?_
    generalize subm dx * subm dx = a2 at *
    generalize subm dy * subm dy = b2 at *
    generalize dx.natAbs * dx.natAbs = x at *
    generalize dy.natAbs * dy.natAbs = y at *
    generalize C * C = C2 at *
    norm_num at *
    omega

/-- Two points whose squared horizontal distance is above `C^2` by more than `2^-20` of it
have a computed horizontal distance of at least `C`. -/
theorem le_distUnits (dx dy : ℤ) (c C : ℕ) (hC : C ≤ 2 ^ 58 * 2 ^ 149)
    (h : (2 ^ 20 + 1) * (C * C) + 2 ^ 172 ≤
      2 ^ 20 * (dx.natAbs * dx.natAbs + dy.natAbs * dy.natAbs + c * c)) :
    C ≤ lengthUnits (subm dx) (subm dy) c ∧ (c = 0 → C ≤ lengthXYUnits (subm dx) (subm dy)) := by
  have hCC := Nat.mul_le_mul hC hC
  have hx := subm_sq dx
  have hy := subm_sq dy
  have key : (2 ^ 21 + 1) * (C * C) + 2 ^ 172 ≤
      2 ^ 21 * (subm dx * subm dx + subm dy * subm dy + c * c) := by
    rcases hx with ⟨-, -, hx3⟩ | ⟨-, hx3⟩
    · rcases hy with ⟨-, -, hy3⟩ | ⟨-, hy3⟩
      · generalize subm dx * subm dx = a2 at *
        generalize subm dy * subm dy = b2 at *
        generalize dx.natAbs * dx.natAbs = x at *
        generalize dy.natAbs * dy.natAbs = y at *
        generalize c * c = z at *
        generalize C * C = C2 at *
        norm_num at *
        omega
      · generalize subm dx * subm dx = a2 at *
        generalize subm dy * subm dy = b2 at *
        generalize c * c = z at *
        generalize C * C = C2 at *
        norm_num at *
        omega
    · generalize subm dx * subm dx = a2 at *
      generalize subm dy * subm dy = b2 at *
      generalize c * c = z at *
      generalize C * C = C2 at *
      norm_num at *
      omega
  refine ⟨le_lengthUnits _ _ _ C hC key, ?_⟩
  intro hc0
  subst hc0
  exact le_lengthXYUnits _ _ C hC (by simpa using key)

end F32

/-! ## Binary32: exact squared lengths in units -/

namespace F32

/-- A value that passes `isFinite` is a `finite`. -/
theorem eq_finite_of_isFinite (x : F32) (h : x.isFinite = true) : ∃ n m, x = finite n m := by
  cases x with
  | finite n m => exact ⟨n, m, rfl⟩
  | inf n => simp [isFinite] at h
  | nan => simp [isFinite] at h

/-- The exact square of a finite value, in units. -/
theorem toRat_sq (n : Bool) (m : ℕ) :
    (finite n m).toRat ^ 2 * (2 ^ 149 * 2 ^ 149) = ((m * m : ℕ) : ℚ) := by
  have h : ((sval n m : ℤ) : ℚ) ^ 2 = ((m : ℚ)) ^ 2 := by
    cases n <;> simp [sval]
  simp only [toRat, div_pow, h]
  push_cast
  field_simp
  ring

/-- The exact square of the difference of two finite values, in units. -/
theorem toRat_sub_sq (n1 n2 : Bool) (m1 m2 : ℕ) :
    ((finite n1 m1).toRat - (finite n2 m2).toRat) ^ 2 * (2 ^ 149 * 2 ^ 149) =
      (((sval n1 m1 - sval n2 m2).natAbs * (sval n1 m1 - sval n2 m2).natAbs : ℕ) : ℚ) := by
  have hz := Int.natAbs_mul_self' (sval n1 m1 - sval n2 m2)
  have h : (((sval n1 m1 - sval n2 m2).natAbs * (sval n1 m1 - sval n2 m2).natAbs : ℕ) : ℚ) =
      (((sval n1 m1 - sval n2 m2) * (sval n1 m1 - sval n2 m2) : ℤ) : ℚ) := by
    have hq := congrArg (fun z : ℤ => (z : ℚ)) hz
    simp only [Int.cast_mul, Int.cast_natCast] at hq
    rw [Nat.cast_mul, hq, Int.cast_mul]
  rw [h]
  simp only [toRat]
  push_cast
  field_simp
  ring

/-- From a bound on an exact square in rationals to the bound on units. -/
theorem units_of_le (N : ℚ) (X : ℕ) (hX : N * (2 ^ 149 * 2 ^ 149) = (X : ℚ)) (p q : ℕ)
    (h : (q : ℚ) * N ≤ p * (1 - 1 / 2 ^ 19)) :
    q * 2 ^ 19 * X ≤ p * (2 ^ 19 - 1) * (2 ^ 149 * 2 ^ 149) := by
  have hK : (0 : ℚ) < 2 ^ 149 * 2 ^ 149 := by positivity
  have h1 := mul_le_mul_of_nonneg_right h hK.le
  have h2 : (q : ℚ) * N * (2 ^ 149 * 2 ^ 149) = q * X := by rw [mul_assoc, hX]
  rw [h2] at h1
  have h3 : ((q * 2 ^ 19 * X : ℕ) : ℚ) ≤ ((p * (2 ^ 19 - 1) * (2 ^ 149 * 2 ^ 149) : ℕ) : ℚ) := by
    push_cast
    have e : (p : ℚ) * (1 - 1 / 2 ^ 19) * (2 ^ 149 * 2 ^ 149) * 2 ^ 19 =
        p * (2 ^ 19 - 1) * (2 ^ 149 * 2 ^ 149) := by
      field_simp
    have h4 := mul_le_mul_of_nonneg_right h1 (by positivity : (0 : ℚ) ≤ 2 ^ 19)
    rw [e] at h4
    have e2 : (q : ℚ) * X * 2 ^ 19 = q * 2 ^ 19 * X := by ring
    rw [e2] at h4
    norm_num at h4 ⊢
    linarith
  exact_mod_cast h3

/-- From a bound on an exact square in rationals to the bound on units. -/
theorem units_of_ge (N : ℚ) (X : ℕ) (hX : N * (2 ^ 149 * 2 ^ 149) = (X : ℚ)) (p q : ℕ)
    (h : (p : ℚ) * (1 + 1 / 2 ^ 19) ≤ q * N) :
    p * (2 ^ 19 + 1) * (2 ^ 149 * 2 ^ 149) ≤ q * 2 ^ 19 * X := by
  have hK : (0 : ℚ) < 2 ^ 149 * 2 ^ 149 := by positivity
  have h1 := mul_le_mul_of_nonneg_right h hK.le
  have h2 : (q : ℚ) * N * (2 ^ 149 * 2 ^ 149) = q * X := by rw [mul_assoc, hX]
  rw [h2] at h1
  have h3 : ((p * (2 ^ 19 + 1) * (2 ^ 149 * 2 ^ 149) : ℕ) : ℚ) ≤ ((q * 2 ^ 19 * X : ℕ) : ℚ) := by
    push_cast
    have e : (p : ℚ) * (1 + 1 / 2 ^ 19) * (2 ^ 149 * 2 ^ 149) * 2 ^ 19 =
        p * (2 ^ 19 + 1) * (2 ^ 149 * 2 ^ 149) := by
      field_simp
    have h4 := mul_le_mul_of_nonneg_right h1 (by positivity : (0 : ℚ) ≤ 2 ^ 19)
    rw [e] at h4
    have e2 : (q : ℚ) * X * 2 ^ 19 = q * 2 ^ 19 * X := by ring
    rw [e2] at h4
    norm_num at h4 ⊢
    linarith
  exact_mod_cast h3

end F32

namespace Binary32
namespace Vec3

/-- The computed length of a vector with finite components, against its exact squared length
in units. -/
theorem length_units (v : Vec3) (hfin : v.isFinite = true) :
    ∃ a b c : ℕ, v.norm2 * (2 ^ 149 * 2 ^ 149) = ((a * a + b * b + c * c : ℕ) : ℚ) ∧
      (v.length = F32.inf false ∨ ∃ m, v.length = F32.finite false m) ∧
      F32.mag v.length = F32.lengthUnits a b c := by
  simp only [isFinite, Bool.and_eq_true] at hfin
  obtain ⟨⟨hx, hy⟩, hz⟩ := hfin
  obtain ⟨n1, m1, h1⟩ := F32.eq_finite_of_isFinite _ hx
  obtain ⟨n2, m2, h2⟩ := F32.eq_finite_of_isFinite _ hy
  obtain ⟨n3, m3, h3⟩ := F32.eq_finite_of_isFinite _ hz
  obtain ⟨hs, hm⟩ := length_mag v (by rw [h1]; simp) (by rw [h2]; simp) (by rw [h3]; simp)
  refine ⟨m1, m2, m3, ?_, hs, ?_⟩
  · unfold norm2
    rw [h1, h2, h3]
    have e1 := F32.toRat_sq n1 m1
    have e2 := F32.toRat_sq n2 m2
    have e3 := F32.toRat_sq n3 m3
    push_cast at e1 e2 e3 ⊢
    linear_combination e1 + e2 + e3
  · rw [hm, h1, h2, h3]
    rfl

/-- The computed horizontal length of the difference of two points with finite horizontal
coordinates, against their exact squared horizontal distance in units. -/
theorem sub_length_units (t p : Vec3) (htx : t.x.isFinite = true) (hty : t.y.isFinite = true)
    (hpx : p.x.isFinite = true) (hpy : p.y.isFinite = true) :
    ∃ dx dy : ℤ, dist2XY t p * (2 ^ 149 * 2 ^ 149) =
        ((dx.natAbs * dx.natAbs + dy.natAbs * dy.natAbs + 0 * 0 : ℕ) : ℚ) ∧
      ((t.sub p).lengthXY = F32.inf false ∨ ∃ m, (t.sub p).lengthXY = F32.finite false m) ∧
      F32.mag (t.sub p).lengthXY = F32.lengthXYUnits (F32.subm dx) (F32.subm dy) ∧
      ((({ t.sub p with z := F32.zero } : Vec3).length = F32.inf false) ∨
        ∃ m, ({ t.sub p with z := F32.zero } : Vec3).length = F32.finite false m) ∧
      F32.mag ({ t.sub p with z := F32.zero } : Vec3).length =
        F32.lengthUnits (F32.subm dx) (F32.subm dy) 0 := by
  obtain ⟨n1, m1, h1⟩ := F32.eq_finite_of_isFinite _ htx
  obtain ⟨n2, m2, h2⟩ := F32.eq_finite_of_isFinite _ hty
  obtain ⟨n3, m3, h3⟩ := F32.eq_finite_of_isFinite _ hpx
  obtain ⟨n4, m4, h4⟩ := F32.eq_finite_of_isFinite _ hpy
  obtain ⟨hxn, hxm⟩ := F32.sub_mag n1 n3 m1 m3
  obtain ⟨hyn, hym⟩ := F32.sub_mag n2 n4 m2 m4
  have hx : (t.sub p).x = F32.sub (F32.finite n1 m1) (F32.finite n3 m3) := by
    simp only [sub, h1, h3]
  have hy : (t.sub p).y = F32.sub (F32.finite n2 m2) (F32.finite n4 m4) := by
    simp only [sub, h2, h4]
  obtain ⟨hs, hm⟩ := lengthXY_mag (t.sub p) (by rw [hx]; exact hxn) (by rw [hy]; exact hyn)
  obtain ⟨hs3, hm3⟩ := length_mag ({ t.sub p with z := F32.zero } : Vec3)
    (by show (t.sub p).x ≠ F32.nan; rw [hx]; exact hxn)
    (by show (t.sub p).y ≠ F32.nan; rw [hy]; exact hyn)
    (by show F32.zero ≠ F32.nan; simp [F32.zero])
  refine ⟨F32.sval n1 m1 - F32.sval n3 m3, F32.sval n2 m2 - F32.sval n4 m4, ?_, hs, ?_, hs3, ?_⟩
  · unfold dist2XY
    rw [h1, h2, h3, h4]
    have e1 := F32.toRat_sub_sq n1 n3 m1 m3
    have e2 := F32.toRat_sub_sq n2 n4 m2 m4
    push_cast at e1 e2 ⊢
    linear_combination e1 + e2
  · rw [hm, hx, hy, hxm, hym]
  · rw [hm3]
    show F32.lengthUnits (F32.mag (t.sub p).x) (F32.mag (t.sub p).y) (F32.mag F32.zero) = _
    rw [hx, hy, hxm, hym]
    rfl

end Vec3
end Binary32

/-! ## Binary32: the thresholds of the source against exact lengths -/

namespace Binary32
namespace Vec3

/-- The test `glm::length(v) <= 0.1f` against the exact length: it holds when the exact
squared length is at most `(1 - 2^-19) / 100` and fails when it is at least
`(1 + 2^-19) / 100`. -/
theorem length_le_tenth (v : Vec3) (hfin : v.isFinite = true) :
    (100 * v.norm2 ≤ 1 - 1 / 2 ^ 19 → F32.le v.length (F32.lit 1 10) = true) ∧
    (1 + 1 / 2 ^ 19 ≤ 100 * v.norm2 → F32.le v.length (F32.lit 1 10) = false) := by
  obtain ⟨a, b, c, hX, hs, hm⟩ := length_units v hfin
  have hlit : F32.lit 1 10 = F32.finite false (13421773 * 2 ^ 122) := by decide
  rw [hlit, F32.le_mag _ _ hs (by unfold F32.top; norm_num), hm]
  constructor
  · intro h
    have hN := F32.units_of_le _ _ hX 1 100 (by simpa using h)
    have := F32.lengthUnits_lt a b c (13421773 * 2 ^ 122 + 1) (by norm_num)
      (by generalize a * a + b * b + c * c = X at *; norm_num at *; omega)
    exact decide_eq_true (by omega)
  · intro h
    have hN := F32.units_of_ge _ _ hX 1 100 (by simpa using h)
    have := F32.le_lengthUnits a b c (13421773 * 2 ^ 122 + 1) (by norm_num)
      (by generalize a * a + b * b + c * c = X at *; norm_num at *; omega)
    exact decide_eq_false (by omega)

/-- The test `glm::length(v) > 0.01f` against the exact length: it holds when the exact
squared length is at least `(1 + 2^-19) / 10^4` and fails when it is at most
`(1 - 2^-19) / 10^4`. -/
theorem length_gt_hundredth (v : Vec3) (hfin : v.isFinite = true) :
    (1 + 1 / 2 ^ 19 ≤ 10000 * v.norm2 → F32.gt v.length (F32.lit 1 100) = true) ∧
    (10000 * v.norm2 ≤ 1 - 1 / 2 ^ 19 → F32.gt v.length (F32.lit 1 100) = false) := by
  obtain ⟨a, b, c, hX, hs, hm⟩ := length_units v hfin
  have hlit : F32.lit 1 100 = F32.finite false (5368709 * 2 ^ 120) := by decide
  rw [hlit, F32.gt_mag _ _ hs (by unfold F32.top; norm_num), hm]
  constructor
  · intro h
    have hN := F32.units_of_ge _ _ hX 1 10000 (by simpa using h)
    have := F32.le_lengthUnits a b c (5368709 * 2 ^ 120 + 1) (by norm_num)
      (by generalize a * a + b * b + c * c = X at *; norm_num at *; omega)
    exact decide_eq_true (by omega)
  · intro h
    have hN := F32.units_of_le _ _ hX 1 10000 (by simpa using h)
    have := F32.lengthUnits_lt a b c (5368709 * 2 ^ 120 + 1) (by norm_num)
      (by generalize a * a + b * b + c * c = X at *; norm_num at *; omega)
    exact decide_eq_false (by omega)

/-- The test `glm::length(v) < 0.001f` against the exact length: it holds when the exact
squared length is at most `(1 - 2^-19) / 10^6` and fails when it is at least
`(1 + 2^-19) / 10^6`. -/
theorem length_lt_thousandth (v : Vec3) (hfin : v.isFinite = true) :
    (1000000 * v.norm2 ≤ 1 - 1 / 2 ^ 19 → F32.lt v.length (F32.lit 1 1000) = true) ∧
    (1 + 1 / 2 ^ 19 ≤ 1000000 * v.norm2 → F32.lt v.length (F32.lit 1 1000) = false) := by
  obtain ⟨a, b, c, hX, hs, hm⟩ := length_units v hfin
  have hlit : F32.lit 1 1000 = F32.finite false (8589935 * 2 ^ 116) := by decide
  rw [hlit, F32.lt_mag _ _ hs (by unfold F32.top; norm_num), hm]
  constructor
  · intro h
    have hN := F32.units_of_le _ _ hX 1 1000000 (by simpa using h)
    have := F32.lengthUnits_lt a b c (8589935 * 2 ^ 116) (by norm_num)
      (by generalize a * a + b * b + c * c = X at *; norm_num at *; omega)
    exact decide_eq_true (by omega)
  · intro h
    have hN := F32.units_of_ge _ _ hX 1 1000000 (by simpa using h)
    have := F32.le_lengthUnits a b c (8589935 * 2 ^ 116) (by norm_num)
      (by generalize a * a + b * b + c * c = X at *; norm_num at *; omega)
    exact decide_eq_false (by omega)

/-- The test `glm::length(glm::vec2(t - p)) < 0.1f` against the exact horizontal distance of
`t` and `p`: it holds when the exact squared distance is at most `(1 - 2^-19) / 100` and fails
when it is at least `(1 + 2^-19) / 100`. -/
theorem sub_lengthXY_lt_tenth (t p : Vec3) (htx : t.x.isFinite = true)
    (hty : t.y.isFinite = true) (hpx : p.x.isFinite = true) (hpy : p.y.isFinite = true) :
    (100 * dist2XY t p ≤ 1 - 1 / 2 ^ 19 →
      F32.lt (t.sub p).lengthXY (F32.lit 1 10) = true) ∧
    (1 + 1 / 2 ^ 19 ≤ 100 * dist2XY t p →
      F32.lt (t.sub p).lengthXY (F32.lit 1 10) = false) := by
  obtain ⟨dx, dy, hX, hs, hm, -, -⟩ := sub_length_units t p htx hty hpx hpy
  have hlit : F32.lit 1 10 = F32.finite false (13421773 * 2 ^ 122) := by decide
  rw [hlit, F32.lt_mag _ _ hs (by unfold F32.top; norm_num), hm]
  constructor
  · intro h
    have hN := F32.units_of_le _ _ hX 1 100 (by simpa using h)
    have := (F32.distUnits_lt dx dy 0 (13421773 * 2 ^ 122) (by norm_num)
      (by generalize dx.natAbs * dx.natAbs + dy.natAbs * dy.natAbs + 0 * 0 = X at *
          norm_num at *; omega)).2 rfl
    exact decide_eq_true this
  · intro h
    have hN := F32.units_of_ge _ _ hX 1 100 (by simpa using h)
    have := (F32.le_distUnits dx dy 0 (13421773 * 2 ^ 122) (by norm_num)
      (by generalize dx.natAbs * dx.natAbs + dy.natAbs * dy.natAbs + 0 * 0 = X at *
          norm_num at *; omega)).2 rfl
    exact decide_eq_false (by omega)

/-- The test `targetDistance > 15.f` of `EnterVehicle` against the exact horizontal distance
of `t` and `p`: it holds when the exact squared distance is at least `225 * (1 + 2^-19)` and
fails when it is at most `225 * (1 - 2^-19)`. -/
theorem sub_length_gt_fifteen (t p : Vec3) (htx : t.x.isFinite = true)
    (hty : t.y.isFinite = true) (hpx : p.x.isFinite = true) (hpy : p.y.isFinite = true) :
    (225 * (1 + 1 / 2 ^ 19) ≤ dist2XY t p →
      F32.gt ({ t.sub p with z := F32.zero } : Vec3).length (F32.lit 15 1) = true) ∧
    (dist2XY t p ≤ 225 * (1 - 1 / 2 ^ 19) →
      F32.gt ({ t.sub p with z := F32.zero } : Vec3).length (F32.lit 15 1) = false) := by
  obtain ⟨dx, dy, hX, -, -, hs, hm⟩ := sub_length_units t p htx hty hpx hpy
  have hlit : F32.lit 15 1 = F32.finite false (15 * 2 ^ 149) := by decide
  rw [hlit, F32.gt_mag _ _ hs (by unfold F32.top; norm_num), hm]
  constructor
  · intro h
    have hN := F32.units_of_ge _ _ hX 225 1 (by simpa using h)
    have := (F32.le_distUnits dx dy 0 (15 * 2 ^ 149 + 1) (by norm_num)
      (by generalize dx.natAbs * dx.natAbs + dy.natAbs * dy.natAbs + 0 * 0 = X at *
          norm_num at *; omega)).1
    exact decide_eq_true (by omega)
  · intro h
    have hN := F32.units_of_le _ _ hX 225 1 (by simpa using h)
    have := (F32.distUnits_lt dx dy 0 (15 * 2 ^ 149 + 1) (by norm_num)
      (by generalize dx.natAbs * dx.natAbs + dy.natAbs * dy.natAbs + 0 * 0 = X at *
          norm_num at *; omega)).1
    exact decide_eq_false (by omega)

end Vec3
end Binary32

/-! ## Binary32: computed distances against exact distances -/

namespace F32

/-- The computed distance of two points whose exact squared distance is at most `2^119`
agrees with the exact distance: on the squares, a relative error of at most `2^-20`. -/
theorem distUnits_near (dx dy dz : ℤ)
    (h : dx.natAbs * dx.natAbs + dy.natAbs * dy.natAbs + dz.natAbs * dz.natAbs ≤
      2 ^ 119 * (2 ^ 149 * 2 ^ 149)) :
    2 ^ 20 * (lengthUnits (subm dx) (subm dy) (subm dz) *
        lengthUnits (subm dx) (subm dy) (subm dz)) ≤
      (2 ^ 20 + 1) * (dx.natAbs * dx.natAbs + dy.natAbs * dy.natAbs + dz.natAbs * dz.natAbs) +
        2 ^ 172 ∧
    2 ^ 20 * (dx.natAbs * dx.natAbs + dy.natAbs * dy.natAbs + dz.natAbs * dz.natAbs) ≤
      (2 ^ 20 + 1) * (lengthUnits (subm dx) (subm dy) (subm dz) *
        lengthUnits (subm dx) (subm dy) (subm dz)) + 2 ^ 172 := by
  have hb : ∀ d : ℤ, d.natAbs * d.natAbs ≤ 2 ^ 119 * (2 ^ 149 * 2 ^ 149) →
      2 ^ 48 * (subm d * subm d) ≤ (2 ^ 24 + 1) * (2 ^ 24 + 1) * (d.natAbs * d.natAbs) ∧
      (2 ^ 24 - 1) * (2 ^ 24 - 1) * (d.natAbs * d.natAbs) ≤ 2 ^ 48 * (subm d * subm d) := by
    intro d hd
    rcases subm_sq d with ⟨-, h1, h2⟩ | ⟨h1, -⟩
    · exact ⟨h1, h2⟩
    · exfalso
      have := Nat.mul_le_mul (Nat.le_of_lt h1) (Nat.le_of_lt h1)
      generalize d.natAbs * d.natAbs = x at *
      norm_num at *
      omega
  obtain ⟨hx1, hx2⟩ := hb dx (by omega)
  obtain ⟨hy1, hy2⟩ := hb dy (by omega)
  obtain ⟨hz1, hz2⟩ := hb dz (by omega)
  have hnear : subm dx * subm dx + subm dy * subm dy + subm dz * subm dz ≤
      2 ^ 120 * (2 ^ 149 * 2 ^ 149) := by
    generalize subm dx * subm dx = a2 at *
    generalize subm dy * subm dy = b2 at *
    generalize subm dz * subm dz = c2 at *
    generalize dx.natAbs * dx.natAbs = x at *
    generalize dy.natAbs * dy.natAbs = y at *
    generalize dz.natAbs * dz.natAbs = z at *
    norm_num at *
    omega
  obtain ⟨h1, h2⟩ := lengthUnits_near _ _ _ hnear
  generalize lengthUnits (subm dx) (subm dy) (subm dz) *
    lengthUnits (subm dx) (subm dy) (subm dz) = L2 at *
  generalize subm dx * subm dx = a2 at *
  generalize subm dy * subm dy = b2 at *
  generalize subm dz * subm dz = c2 at *
  generalize dx.natAbs * dx.natAbs = x at *
  generalize dy.natAbs * dy.natAbs = y at *
  generalize dz.natAbs * dz.natAbs = z at *
  norm_num at *
  omega

/-- The computed distance of two points whose exact squared distance exceeds `2^119` is at
least `2^58`, or infinite. -/
theorem distUnits_far (dx dy dz : ℤ)
    (h : 2 ^ 119 * (2 ^ 149 * 2 ^ 149) <
      dx.natAbs * dx.natAbs + dy.natAbs * dy.natAbs + dz.natAbs * dz.natAbs) :
    2 ^ 58 * 2 ^ 149 ≤ lengthUnits (subm dx) (subm dy) (subm dz) := by
  refine le_lengthUnits _ _ _ _ (Nat.le_refl _) ?_
  have hb : ∀ d : ℤ,
      (2 ^ 24 - 1) * (2 ^ 24 - 1) * (d.natAbs * d.natAbs) ≤ 2 ^ 48 * (subm d * subm d) ∨
      2 ^ 120 * (2 ^ 149 * 2 ^ 149) ≤ subm d * subm d := by
    intro d
    rcases subm_sq d with ⟨-, -, h2⟩ | ⟨-, h2⟩
    · exact Or.inl h2
    · exact Or.inr h2
  have hx := hb dx
  have hy := hb dy
  have hz := hb dz
  have e : 2 ^ 58 * 2 ^ 149 * (2 ^ 58 * 2 ^ 149) = 2 ^ 116 * (2 ^ 149 * 2 ^ 149) := by ring
  rw [e]
  generalize subm dx * subm dx = a2 at *
  generalize subm dy * subm dy = b2 at *
  generalize subm dz * subm dz = c2 at *
  generalize dx.natAbs * dx.natAbs = x at *
  generalize dy.natAbs * dy.natAbs = y at *
  generalize dz.natAbs * dz.natAbs = z at *
  norm_num at *
  omega

/-- The order of two values that are `+inf` or finite and non-negative is the order of their
magnitudes, when the larger magnitude is below `2^128`. -/
theorem mag_le_of_le (x y : F32) (hx : x = inf false ∨ ∃ m, x = finite false m)
    (hy : y = inf false ∨ ∃ m, y = finite false m) (hlt : mag y < top)
    (h : le x y = true) : mag x ≤ mag y := by
  rcases hy with rfl | ⟨b, rfl⟩
  · simp [mag] at hlt
  · rcases hx with rfl | ⟨a, rfl⟩
    · simp [le] at h
    · simpa [le, mag, sval] using h

end F32

namespace Binary32
namespace Vec3

/-- The computed distance of two points with finite coordinates, against their exact squared
distance in units. -/
theorem distance_units (e p : Vec3) (he : e.isFinite = true) (hp : p.isFinite = true) :
    ∃ dx dy dz : ℤ, dist2 e p * (2 ^ 149 * 2 ^ 149) =
        ((dx.natAbs * dx.natAbs + dy.natAbs * dy.natAbs + dz.natAbs * dz.natAbs : ℕ) : ℚ) ∧
      (distance e p = F32.inf false ∨ ∃ m, distance e p = F32.finite false m) ∧
      F32.mag (distance e p) = F32.lengthUnits (F32.subm dx) (F32.subm dy) (F32.subm dz) := by
  simp only [isFinite, Bool.and_eq_true] at he hp
  obtain ⟨⟨hex, hey⟩, hez⟩ := he
  obtain ⟨⟨hpx, hpy⟩, hpz⟩ := hp
  obtain ⟨n1, m1, h1⟩ := F32.eq_finite_of_isFinite _ hex
  obtain ⟨n2, m2, h2⟩ := F32.eq_finite_of_isFinite _ hey
  obtain ⟨n3, m3, h3⟩ := F32.eq_finite_of_isFinite _ hez
  obtain ⟨k1, l1, g1⟩ := F32.eq_finite_of_isFinite _ hpx
  obtain ⟨k2, l2, g2⟩ := F32.eq_finite_of_isFinite _ hpy
  obtain ⟨k3, l3, g3⟩ := F32.eq_finite_of_isFinite _ hpz
  obtain ⟨hxn, hxm⟩ := F32.sub_mag k1 n1 l1 m1
  obtain ⟨hyn, hym⟩ := F32.sub_mag k2 n2 l2 m2
  obtain ⟨hzn, hzm⟩ := F32.sub_mag k3 n3 l3 m3
  have hx : (p.sub e).x = F32.sub (F32.finite k1 l1) (F32.finite n1 m1) := by
    simp only [sub, h1, g1]
  have hy : (p.sub e).y = F32.sub (F32.finite k2 l2) (F32.finite n2 m2) := by
    simp only [sub, h2, g2]
  have hz : (p.sub e).z = F32.sub (F32.finite k3 l3) (F32.finite n3 m3) := by
    simp only [sub, h3, g3]
  obtain ⟨hs, hm⟩ := length_mag (p.sub e) (by rw [hx]; exact hxn) (by rw [hy]; exact hyn)
    (by rw [hz]; exact hzn)
  refine ⟨F32.sval k1 l1 - F32.sval n1 m1, F32.sval k2 l2 - F32.sval n2 m2,
    F32.sval k3 l3 - F32.sval n3 m3, ?_, hs, ?_⟩
  · unfold dist2
    rw [h1, h2, h3, g1, g2, g3]
    have e1 := F32.toRat_sub_sq k1 n1 l1 m1
    have e2 := F32.toRat_sub_sq k2 n2 l2 m2
    have e3 := F32.toRat_sub_sq k3 n3 l3 m3
    push_cast at e1 e2 e3 ⊢
    linear_combination e1 + e2 + e3
  · unfold distance
    rw [hm, hx, hy, hz, hxm, hym, hzm]

/-- A point at an exact distance of at most `2^57` has a computed distance below
`FLT_MAX`. -/
theorem distance_lt_max (e p : Vec3) (he : e.isFinite = true) (hp : p.isFinite = true)
    (hd : dist2 e p ≤ 2 ^ 114) : F32.lt (distance e p) F32.FLT_MAX = true := by
  obtain ⟨dx, dy, dz, hX, hs, hm⟩ := distance_units e p he hp
  have hN : dx.natAbs * dx.natAbs + dy.natAbs * dy.natAbs + dz.natAbs * dz.natAbs ≤
      2 ^ 114 * (2 ^ 149 * 2 ^ 149) := by
    have h1 := mul_le_mul_of_nonneg_right hd (by positivity : (0 : ℚ) ≤ 2 ^ 149 * 2 ^ 149)
    rw [hX] at h1
    exact_mod_cast h1
  obtain ⟨h1, -⟩ := F32.distUnits_near dx dy dz (by omega)
  have hL : F32.lengthUnits (F32.subm dx) (F32.subm dy) (F32.subm dz) < 2 ^ 58 * 2 ^ 149 := by
    by_contra hc
    push_neg at hc
    have h3 := Nat.mul_le_mul hc hc
    generalize F32.lengthUnits (F32.subm dx) (F32.subm dy) (F32.subm dz) *
      F32.lengthUnits (F32.subm dx) (F32.subm dy) (F32.subm dz) = L2 at *
    generalize dx.natAbs * dx.natAbs + dy.natAbs * dy.natAbs + dz.natAbs * dz.natAbs = X at *
    norm_num at *
    omega
  unfold F32.FLT_MAX
  rw [F32.lt_mag _ _ hs (by unfold F32.top; norm_num), hm]
  exact decide_eq_true (Nat.lt_of_lt_of_le hL (by norm_num))

/-- When the computed distance of `e1` from `p` is at most that of `e2`, and `e2` is at an
exact distance of at most `2^57`, the exact squared distance of `e1` exceeds that of `e2` by
at most `2^-18` of it (and `2^-144`). -/
theorem dist2_le_of_distance_le (e1 e2 p : Vec3) (h1 : e1.isFinite = true)
    (h2 : e2.isFinite = true) (hp : p.isFinite = true) (hd : dist2 e2 p ≤ 2 ^ 114)
    (hle : F32.le (distance e1 p) (distance e2 p) = true) :
    dist2 e1 p ≤ (1 + 1 / 2 ^ 18) * dist2 e2 p + 1 / 2 ^ 144 := by
  obtain ⟨dx, dy, dz, hX, hs, hm⟩ := distance_units e1 p h1 hp
  obtain ⟨ex, ey, ez, hY, ht, hn⟩ := distance_units e2 p h2 hp
  have hN : ex.natAbs * ex.natAbs + ey.natAbs * ey.natAbs + ez.natAbs * ez.natAbs ≤
      2 ^ 114 * (2 ^ 149 * 2 ^ 149) := by
    have h1 := mul_le_mul_of_nonneg_right hd (by positivity : (0 : ℚ) ≤ 2 ^ 149 * 2 ^ 149)
    rw [hY] at h1
    exact_mod_cast h1
  obtain ⟨hj1, -⟩ := F32.distUnits_near ex ey ez (by omega)
  have hLj : F32.lengthUnits (F32.subm ex) (F32.subm ey) (F32.subm ez) < 2 ^ 58 * 2 ^ 149 := by
    by_contra hc
    push_neg at hc
    have h3 := Nat.mul_le_mul hc hc
    generalize F32.lengthUnits (F32.subm ex) (F32.subm ey) (F32.subm ez) *
      F32.lengthUnits (F32.subm ex) (F32.subm ey) (F32.subm ez) = L2 at *
    generalize ex.natAbs * ex.natAbs + ey.natAbs * ey.natAbs + ez.natAbs * ez.natAbs = X at *
    norm_num at *
    omega
  have hmag := F32.mag_le_of_le _ _ hs ht
    (by rw [hn]; exact Nat.lt_of_lt_of_le hLj (by unfold F32.top; norm_num)) hle
  rw [hm, hn] at hmag
  have hnear : dx.natAbs * dx.natAbs + dy.natAbs * dy.natAbs + dz.natAbs * dz.natAbs ≤
      2 ^ 119 * (2 ^ 149 * 2 ^ 149) := by
    by_contra hc
    push_neg at hc
    have := F32.distUnits_far dx dy dz hc
    omega
  obtain ⟨-, hs2⟩ := F32.distUnits_near dx dy dz hnear
  have hsq := Nat.mul_le_mul hmag hmag
  have key : 2 ^ 40 * (dx.natAbs * dx.natAbs + dy.natAbs * dy.natAbs + dz.natAbs * dz.natAbs) ≤
      (2 ^ 20 + 1) * (2 ^ 20 + 1) *
        (ex.natAbs * ex.natAbs + ey.natAbs * ey.natAbs + ez.natAbs * ez.natAbs) + 2 ^ 194 := by
    generalize F32.lengthUnits (F32.subm ex) (F32.subm ey) (F32.subm ez) *
      F32.lengthUnits (F32.subm ex) (F32.subm ey) (F32.subm ez) = Lj at *
    generalize F32.lengthUnits (F32.subm dx) (F32.subm dy) (F32.subm dz) *
      F32.lengthUnits (F32.subm dx) (F32.subm dy) (F32.subm dz) = Ls at *
    generalize dx.natAbs * dx.natAbs + dy.natAbs * dy.natAbs + dz.natAbs * dz.natAbs = X at *
    generalize ex.natAbs * ex.natAbs + ey.natAbs * ey.natAbs + ez.natAbs * ez.natAbs = Y at *
    norm_num at *
    omega
  have keyq : (2 : ℚ) ^ 40 * (dist2 e1 p * (2 ^ 149 * 2 ^ 149)) ≤
      (2 ^ 20 + 1) * (2 ^ 20 + 1) * (dist2 e2 p * (2 ^ 149 * 2 ^ 149)) + 2 ^ 194 := by
    rw [hX, hY]
    exact_mod_cast key
  have hnn : 0 ≤ dist2 e2 p := by unfold dist2; positivity
  have h194 : (2 : ℚ) ^ 40 * (2 ^ 149 * 2 ^ 149) / 2 ^ 144 = 2 ^ 194 := by norm_num
  have hKpos : (0 : ℚ) < 2 ^ 149 * 2 ^ 149 := by positivity
  generalize (2 : ℚ) ^ 149 * 2 ^ 149 = K at keyq h194 hKpos
  generalize dist2 e1 p = A at keyq ⊢
  generalize dist2 e2 p = B at keyq hnn ⊢
  have hmul : 2 ^ 40 * K * A ≤ 2 ^ 40 * K * ((1 + 1 / 2 ^ 18) * B + 1 / 2 ^ 144) := by
    have e5 : 2 ^ 40 * K * ((1 + 1 / 2 ^ 18) * B + 1 / 2 ^ 144) =
        (2 ^ 40 + 2 ^ 22) * (B * K) + 2 ^ 40 * K / 2 ^ 144 := by ring
    rw [e5, h194]
    have e6 : ((2 : ℚ) ^ 20 + 1) * (2 ^ 20 + 1) ≤ 2 ^ 40 + 2 ^ 22 := by norm_num
    have e7 : 0 ≤ B * K := mul_nonneg hnn hKpos.le
    have e8 := mul_le_mul_of_nonneg_right e6 e7
    have e9 : 2 ^ 40 * K * A = 2 ^ 40 * (A * K) := by ring
    rw [e9]
    linarith
  exact le_of_mul_le_mul_left hmul (by positivity)

end Vec3
end Binary32

/-! ## `EnterVehicle` in binary32: seat resolution -/

namespace Binary32
namespace EnterVehicle

/-- The seat loop keeps the first seat of minimum computed distance among those nearer than
the initial `nearest`, and keeps its initial state when there is none. -/
theorem nearestLoop_min (pos : Vec3) :
    ∀ (rest : List Seat) (s : ℕ) (seat : ℤ) (nearest : F32), nearest ≠ F32.nan →
      (∀ info ∈ rest, Vec3.distance info.entry pos ≠ F32.nan) →
      F32.le (nearestLoop pos s rest (seat, nearest)).2 nearest = true ∧
      (∀ (k : ℕ) (info : Seat), rest[k]? = some info →
        F32.le (nearestLoop pos s rest (seat, nearest)).2
          (Vec3.distance info.entry pos) = true) ∧
      ((nearestLoop pos s rest (seat, nearest) = (seat, nearest) ∧
          ∀ (k : ℕ) (info : Seat), rest[k]? = some info →
            F32.lt (Vec3.distance info.entry pos) nearest = false) ∨
        (∃ (k : ℕ) (info : Seat), rest[k]? = some info ∧
          nearestLoop pos s rest (seat, nearest) =
            (((s + k : ℕ) : ℤ), Vec3.distance info.entry pos) ∧
          F32.lt (Vec3.distance info.entry pos) nearest = true ∧
          ∀ (j : ℕ) (info1 : Seat), j < k → rest[j]? = some info1 →
            F32.lt (Vec3.distance info.entry pos) (Vec3.distance info1.entry pos) = true)) := by
  intro rest
  induction rest with
  | nil =>
    intro s seat nearest hn _
    refine ⟨F32.le_refl _ hn, ?_, Or.inl ⟨rfl, ?_⟩⟩ <;> intro k info h <;> simp at h
  | cons first rest ih =>
    intro s seat nearest hn hall
    have hfirst : Vec3.distance first.entry pos ≠ F32.nan := hall first (List.mem_cons_self _ _)
    have hrest : ∀ info ∈ rest, Vec3.distance info.entry pos ≠ F32.nan :=
      fun info h => hall info (List.mem_cons_of_mem _ h)
    rcases hlt : F32.lt (Vec3.distance first.entry pos) nearest with _ | _
    · -- the first seat is not nearer
      have hstep : nearestLoop pos s (first :: rest) (seat, nearest) =
          nearestLoop pos (s + 1) rest (seat, nearest) := by
        simp only [nearestLoop, hlt, Bool.false_eq_true, if_false]
      have hle : F32.le nearest (Vec3.distance first.entry pos) = true :=
        (F32.lt_eq_false_iff _ _ hfirst hn).mp hlt
      rw [hstep]
      obtain ⟨h1, h2, h3⟩ := ih (s + 1) seat nearest hn hrest
      refine ⟨h1, ?_, ?_⟩
      · intro k info hk
        cases k with
        | zero =>
          simp only [List.getElem?_cons_zero, Option.some.injEq] at hk
          subst hk
          exact F32.le_trans _ _ _ h1 hle
        | succ k =>
          simp only [List.getElem?_cons_succ] at hk
          exact h2 k info hk
      · rcases h3 with ⟨heq, hfar⟩ | ⟨k, info, hk, heq, hlt2, hmin⟩
        · refine Or.inl ⟨heq, ?_⟩
          intro k info hk
          cases k with
          | zero =>
            simp only [List.getElem?_cons_zero, Option.some.injEq] at hk
            subst hk
            exact hlt
          | succ k =>
            simp only [List.getElem?_cons_succ] at hk
            exact hfar k info hk
        · refine Or.inr ⟨k + 1, info, by simpa using hk, ?_, hlt2, ?_⟩
          · rw [heq]
            congr 2
            omega
          · intro j info1 hj hinfo1
            cases j with
            | zero =>
              simp only [List.getElem?_cons_zero, Option.some.injEq] at hinfo1
              subst hinfo1
              exact F32.lt_of_lt_of_le _ _ _ hlt2 hle
            | succ j =>
              simp only [List.getElem?_cons_succ] at hinfo1
              exact hmin j info1 (by omega) hinfo1
    · -- the first seat is nearer
      have hstep : nearestLoop pos s (first :: rest) (seat, nearest) =
          nearestLoop pos (s + 1) rest (((s : ℕ) : ℤ), Vec3.distance first.entry pos) := by
        simp only [nearestLoop, hlt, if_true]
      rw [hstep]
      obtain ⟨h1, h2, h3⟩ := ih (s + 1) ((s : ℕ) : ℤ) (Vec3.distance first.entry pos) hfirst hrest
      refine ⟨F32.le_trans _ _ _ h1 (F32.le_of_lt _ _ hlt), ?_, Or.inr ?_⟩
      · intro k info hk
        cases k with
        | zero =>
          simp only [List.getElem?_cons_zero, Option.some.injEq] at hk
          subst hk
          exact h1
        | succ k =>
          simp only [List.getElem?_cons_succ] at hk
          exact h2 k info hk
      · rcases h3 with ⟨heq, -⟩ | ⟨k, info, hk, heq, hlt2, hmin⟩
        · refine ⟨0, first, by simp, by rw [heq]; simp, hlt, ?_⟩
          intro j info1 hj
          omega
        · refine ⟨k + 1, info, by simpa using hk, ?_,
            F32.lt_of_lt_of_le _ _ _ hlt2 (F32.le_of_lt _ _ hlt), ?_⟩
          · rw [heq]
            congr 2
            omega
          · intro j info1 hj hinfo1
            cases j with
            | zero =>
              simp only [List.getElem?_cons_zero, Option.some.injEq] at hinfo1
              subst hinfo1
              exact hlt2
            | succ j =>
              simp only [List.getElem?_cons_succ] at hinfo1
              exact hmin j info1 (by omega) hinfo1

/-- On a vehicle that is not a boat, every returning `update` leaves the activity with the
seat fixed by lines 258-272. -/
theorem update_keeps_resolved_seat (anySeat : ℤ) (self self1 : EnterVehicle) (sc sc1 : Scene)
    (vehicle : VehicleObject) (b : Bool) (hveh : sc.vehicles[self.vehicle]? = some vehicle)
    (htype : vehicle.type ≠ VehicleType.BOAT)
    (h : update anySeat self sc = some (b, self1, sc1)) :
    self1.seat = (resolveSeat anySeat self vehicle sc.character.position).seat := by
  unfold update at h
  simp only [hveh, if_neg htype] at h
  repeat' split at h
  all_goals first
    | (cases h; done)
    | (cases h; rfl)

/-- On a vehicle that is not a boat `update` returns exactly when the seat fixed by lines
258-272 is a seat of the vehicle and has an entry door. -/
theorem update_returns_iff (anySeat : ℤ) (self : EnterVehicle) (sc : Scene)
    (vehicle : VehicleObject) (hveh : sc.vehicles[self.vehicle]? = some vehicle)
    (htype : vehicle.type ≠ VehicleType.BOAT) :
    (update anySeat self sc).isSome = true ↔
      ∃ (info : Seat) (door : VehiclePart),
        vehicle.getSeat (resolveSeat anySeat self vehicle sc.character.position).seat = some info ∧
        info.door = some door := by
  unfold update
  simp only [hveh, if_neg htype, VehicleObject.getSeatEntryDoor,
    VehicleObject.getSeatEntryPosition]
  rcases hs : vehicle.getSeat (resolveSeat anySeat self vehicle sc.character.position).seat
    with _ | info
  · simp
  · rcases hd : info.door with _ | door
    · simp [hd]
    · refine iff_of_true ?_ ⟨info, door, rfl, hd⟩
      simp only [Option.map_some', hd]
      repeat' split
      all_goals rfl

/-- A seat number that is a natural number indexes `info->seats` directly. -/
theorem getSeat_ofNat (vehicle : VehicleObject) (n : ℕ) :
    vehicle.getSeat ((n : ℕ) : ℤ) = vehicle.seats[n]? := by
  simp [VehicleObject.getSeat]

/-- C9 (as stated, refuted): (a) the sample car (seat entries at `x = 1, 5, 2, 8`) and a
character at `(2^65, 0, 0)`: every seat is about `2^65` away, far below `FLT_MAX`, but the
squares computed by `glm::distance` overflow, every computed distance is `+inf`, no seat is
selected and the seat stays `ANY_SEAT` (taken to be `-1` here), which is no index `s ≥ 1`;
(b) a car whose seats 1 and 2 have their entry points at `(3, 2^-13, 0)` and `(3, 0, 0)`, the
character at the origin: both computed distances are `3.0`, and seat 1 is selected although
seat 2 is strictly nearer. (Coordinates in units of `2^-149`.) -/
theorem C9_overflow_or_rounding_defeats_nearest_seat :
    (sampleCar.type ≠ VehicleType.BOAT ∧ 2 ≤ sampleCar.seats.length ∧
      sampleCar.seats[1]? = some ⟨point 5 0 0, some sampleDoor⟩ ∧
      F32.lit 5 1 = F32.finite false (5 * 2 ^ 149) ∧
      (2 ^ 65 * 2 ^ 149 - 5 * 2 ^ 149) * (2 ^ 65 * 2 ^ 149 - 5 * 2 ^ 149) <
        (2 ^ 24 - 1) * 2 ^ 253 * ((2 ^ 24 - 1) * 2 ^ 253) ∧
      Vec3.distance (point 5 0 0) ⟨F32.finite false (2 ^ 65 * 2 ^ 149), F32.zero, F32.zero⟩ =
        F32.inf false ∧
      (resolveSeat (-1) ⟨0, -1, false⟩ sampleCar
        ⟨F32.finite false (2 ^ 65 * 2 ^ 149), F32.zero, F32.zero⟩).seat = -1 ∧
      ¬ (1 ≤ (-1 : ℤ))) ∧
    (tieCar.type ≠ VehicleType.BOAT ∧
      tieCar.seats[1]? = some ⟨⟨F32.lit 3 1, F32.lit 1 8192, F32.zero⟩, some sampleDoor⟩ ∧
      tieCar.seats[2]? = some ⟨point 3 0 0, some sampleDoor⟩ ∧
      F32.lit 3 1 = F32.finite false (3 * 2 ^ 149) ∧
      F32.lit 1 8192 = F32.finite false (2 ^ 136) ∧
      3 * 2 ^ 149 * (3 * 2 ^ 149) < 3 * 2 ^ 149 * (3 * 2 ^ 149) + 2 ^ 136 * 2 ^ 136 ∧
      Vec3.distance ⟨F32.lit 3 1, F32.lit 1 8192, F32.zero⟩ (point 0 0 0) = F32.lit 3 1 ∧
      Vec3.distance (point 3 0 0) (point 0 0 0) = F32.lit 3 1 ∧
      (resolveSeat (-1) ⟨0, -1, false⟩ tieCar (point 0 0 0)).seat = 1) := by
  refine ⟨⟨by decide, by decide, by decide, by decide, by decide, by decide, by decide,
    by decide⟩, by decide, by decide, by decide, by decide, by decide, by decide, by decide,
    by decide, by decide⟩

/-- C9 (amended): in binary32, with `seat = ANY_SEAT`, finite coordinates, and the distances
taken as `glm::distance` computes them: when some seat numbered one or more has a computed
distance below `FLT_MAX`, lines 258-272 set the seat to an index `s ≥ 1` of the vehicle whose
computed distance is the minimum among the seats numbered one or more, the lowest such index
on ties, so seat 0 is never selected; every returning `update` on such a vehicle that is not a
boat leaves the activity with that seat, and `update` does return when that seat has an entry
door. When no seat numbered one or more has a computed distance below `FLT_MAX`, the seat
stays `ANY_SEAT`. The computed distances follow the exact ones: a seat at an exact distance of
at most `2^57` has a computed distance below `FLT_MAX`, and the exact squared distance of the
selected seat exceeds that of any such seat numbered one or more by at most `2^-18` of it
(and `2^-144`). -/
theorem C9_any_seat_resolves_to_nearest_computed (anySeat : ℤ) (self : EnterVehicle)
    (vehicle : VehicleObject) (pos : Vec3) (hany : self.seat = anySeat)
    (hpos : pos.isFinite = true) (hseats : ∀ info ∈ vehicle.seats, info.entry.isFinite = true) :
    ((∃ (j : ℕ) (info : Seat), 1 ≤ j ∧ vehicle.seats[j]? = some info ∧
        F32.lt (Vec3.distance info.entry pos) F32.FLT_MAX = true) →
      ∃ (s : ℕ) (info : Seat),
        (resolveSeat anySeat self vehicle pos).seat = (s : ℤ) ∧ 1 ≤ s ∧
        vehicle.seats[s]? = some info ∧
        (∀ (j : ℕ) (info1 : Seat), 1 ≤ j → vehicle.seats[j]? = some info1 →
          F32.le (Vec3.distance info.entry pos) (Vec3.distance info1.entry pos) = true) ∧
        (∀ (j : ℕ) (info1 : Seat), 1 ≤ j → j < s → vehicle.seats[j]? = some info1 →
          F32.lt (Vec3.distance info.entry pos) (Vec3.distance info1.entry pos) = true) ∧
        (∀ (j : ℕ) (info1 : Seat), 1 ≤ j → vehicle.seats[j]? = some info1 →
          Vec3.dist2 info1.entry pos ≤ 2 ^ 114 →
          Vec3.dist2 info.entry pos ≤
            (1 + 1 / 2 ^ 18) * Vec3.dist2 info1.entry pos + 1 / 2 ^ 144) ∧
        (∀ sc : Scene, sc.vehicles[self.vehicle]? = some vehicle →
          vehicle.type ≠ VehicleType.BOAT → sc.character.position = pos →
          (∀ (b : Bool) (self1 : EnterVehicle) (sc1 : Scene),
            update anySeat self sc = some (b, self1, sc1) → self1.seat = (s : ℤ)) ∧
          ((∃ door, info.door = some door) →
            ∃ (b : Bool) (self1 : EnterVehicle) (sc1 : Scene),
              update anySeat self sc = some (b, self1, sc1) ∧ self1.seat = (s : ℤ)))) ∧
    ((∀ (j : ℕ) (info : Seat), 1 ≤ j → vehicle.seats[j]? = some info →
        F32.lt (Vec3.distance info.entry pos) F32.FLT_MAX = false) →
      (resolveSeat anySeat self vehicle pos).seat = anySeat) ∧
    (∀ (j : ℕ) (info : Seat), 1 ≤ j → vehicle.seats[j]? = some info →
      Vec3.dist2 info.entry pos ≤ 2 ^ 114 →
      F32.lt (Vec3.distance info.entry pos) F32.FLT_MAX = true) := by
  have hdist : ∀ info ∈ vehicle.seats.drop 1, Vec3.distance info.entry pos ≠ F32.nan := by
    intro info hinfo hnan
    have hmem : info ∈ vehicle.seats := List.mem_of_mem_drop hinfo
    have := Vec3.distance_nonneg info.entry pos (hseats info hmem) hpos
    rw [hnan] at this
    simp [F32.le, F32.zero] at this
  have hmax : F32.FLT_MAX ≠ F32.nan := by decide
  obtain ⟨-, hmin, h3⟩ := nearestLoop_min pos (vehicle.seats.drop 1) 1 self.seat
    F32.FLT_MAX hmax hdist
  have hdrop : ∀ k : ℕ, (vehicle.seats.drop 1)[k]? = vehicle.seats[1 + k]? := by
    intro k; rw [List.getElem?_drop]
  refine ⟨?_, ?_, ?_⟩
  · rintro ⟨j0, info0, hj0, hinfo0, hd0⟩
    rcases h3 with ⟨-, hall⟩ | ⟨k, info, hk, heq, -, hfirst⟩
    · have h1 := hall (j0 - 1) info0 (by rw [hdrop]; rw [← hinfo0]; congr 1; omega)
      rw [hd0] at h1
      cases h1
    · rw [hdrop] at hk
      have hres : (resolveSeat anySeat self vehicle pos).seat = ((1 + k : ℕ) : ℤ) := by
        simp only [resolveSeat, if_pos hany, nearestSeat, heq]
      have hle : ∀ (j : ℕ) (info1 : Seat), 1 ≤ j → vehicle.seats[j]? = some info1 →
          F32.le (Vec3.distance info.entry pos) (Vec3.distance info1.entry pos) = true := by
        intro j info1 hj hinfo1
        have := hmin (j - 1) info1 (by rw [hdrop]; rw [← hinfo1]; congr 1; omega)
        rw [heq] at this
        exact this
      refine ⟨1 + k, info, hres, by omega, hk, hle, ?_, ?_, ?_⟩
      · intro j info1 hj hjs hinfo1
        exact hfirst (j - 1) info1 (by omega)
          (by rw [hdrop]; rw [← hinfo1]; congr 1; omega)
      · intro j info1 hj hinfo1 hd
        exact Vec3.dist2_le_of_distance_le info.entry info1.entry pos
          (hseats info (List.getElem?_mem hk)) (hseats info1 (List.getElem?_mem hinfo1))
          hpos hd (hle j info1 hj hinfo1)
      · intro sc hveh htype hpos1
        have hall : ∀ (b : Bool) (self1 : EnterVehicle) (sc1 : Scene),
            update anySeat self sc = some (b, self1, sc1) → self1.seat = ((1 + k : ℕ) : ℤ) := by
          intro b self1 sc1 hupd
          rw [update_keeps_resolved_seat anySeat self self1 sc sc1 vehicle b hveh htype hupd,
            hpos1, hres]
        refine ⟨hall, ?_⟩
        rintro ⟨door, hdoor⟩
        have hsome : (update anySeat self sc).isSome = true :=
          (update_returns_iff anySeat self sc vehicle hveh htype).mpr
            ⟨info, door, by rw [hpos1, hres, getSeat_ofNat]; exact hk, hdoor⟩
        obtain ⟨⟨b, self1, sc1⟩, hupd⟩ := Option.isSome_iff_exists.mp hsome
        exact ⟨b, self1, sc1, hupd, hall b self1 sc1 hupd⟩
  · intro hfar
    rcases h3 with ⟨heq, -⟩ | ⟨k, info, hk, -, hlt, -⟩
    · simp only [resolveSeat, if_pos hany, nearestSeat, heq]
      exact hany
    · rw [hdrop] at hk
      have := hfar (1 + k) info (by omega) hk
      rw [hlt] at this
      cases this
  · intro j info hj hinfo hd
    exact Vec3.distance_lt_max info.entry pos (hseats info (List.getElem?_mem hinfo)) hpos hd

/-- Witness for C9: the sample car with its seats 1, 2, 3 at distances 5, 2 and 8 from the
character at the origin: seat 2 is selected. -/
theorem C9_any_seat_resolves_to_nearest_computed_witness :
    (resolveSeat (-1) ⟨0, -1, false⟩ sampleCar (point 0 0 0)).seat = 2 ∧
      ∃ (s : ℕ) (info : Seat),
        (resolveSeat (-1) ⟨0, -1, false⟩ sampleCar (point 0 0 0)).seat = (s : ℤ) ∧ 1 ≤ s ∧
        sampleCar.seats[s]? = some info ∧
        (∀ (j : ℕ) (info1 : Seat), 1 ≤ j → sampleCar.seats[j]? = some info1 →
          F32.le (Vec3.distance info.entry (point 0 0 0))
            (Vec3.distance info1.entry (point 0 0 0)) = true) := by
  obtain ⟨s, info, h1, h2, h3, h4, -, -⟩ :=
    (C9_any_seat_resolves_to_nearest_computed (-1) ⟨0, -1, false⟩ sampleCar (point 0 0 0) rfl
      (by decide) (by decide)).1 ⟨1, ⟨point 5 0 0, some sampleDoor⟩, le_rfl, by decide, by decide⟩
  exact ⟨by decide, s, info, h1, h2, h3, h4⟩

end EnterVehicle
end Binary32

/-! ## `EnterVehicle` in binary32: giving up -/

namespace Binary32
namespace EnterVehicle

/-- C10 (as stated, refuted): (a) for a boat a hundred units away `update` returns true but
seats the character in the boat; (b) for a car whose seat entry is twenty units straight below
the character (distance 20, horizontal distance 0) `update` returns false and starts the
entering phase, playing the door animation; (c) for a car whose seat entry is at
`(15, 2^-10, 0)`, at a horizontal distance above 15 from the character at the origin,
`glm::length` computes exactly `15.0`, which is not above `15.f`: `update` returns false and
sets the raw movement to `(1, 0, 0)`. -/
theorem C10_boat_overhead_or_rounding_is_not_abandoned :
    (sampleBoat.type = VehicleType.BOAT ∧
      (sceneWith sampleBoat (point 0 0 0)).character.currentVehicle = none ∧
      (update (-1) ⟨0, 0, false⟩ (sceneWith sampleBoat (point 0 0 0))).map
        (fun r => (r.1, r.2.2.character.currentVehicle)) = some (true, some 0)) ∧
    (sampleCar.type ≠ VehicleType.BOAT ∧
      Vec3.distance (point 1 0 0) (point 1 0 20) = F32.lit 20 1 ∧
      (sceneWith sampleCar (point 1 0 20)).character.animator.animation = none ∧
      (update (-1) ⟨0, 0, false⟩ (sceneWith sampleCar (point 1 0 20))).map
        (fun r => (r.1, r.2.1, r.2.2.character.animator.animation)) =
          some (false, ⟨0, 0, true⟩, sampleAnimations.car_open_lhs)) ∧
    (edgeCar.type ≠ VehicleType.BOAT ∧
      F32.lit 15 1 = F32.finite false (15 * 2 ^ 149) ∧
      F32.lit 1 1024 = F32.finite false (2 ^ 139) ∧
      15 * 2 ^ 149 * (15 * 2 ^ 149) < 15 * 2 ^ 149 * (15 * 2 ^ 149) + 2 ^ 139 * 2 ^ 139 ∧
      (Vec3.sub ⟨F32.lit 15 1, F32.lit 1 1024, F32.zero⟩ (point 0 0 0)).length =
        F32.lit 15 1 ∧
      (sceneWith edgeCar (point 0 0 0)).rawMovement = Vec3.zero ∧
      (update (-1) ⟨0, 0, false⟩ (sceneWith edgeCar (point 0 0 0))).map
        (fun r => (r.1, r.2.2.rawMovement)) = some (false, point 1 0 0)) := by
  refine ⟨⟨by decide, by decide, by decide⟩, ⟨by decide, by decide, by decide, by decide⟩,
    by decide, by decide, by decide, by decide, by decide, by decide, by decide⟩

/-- C10 (amended): in binary32, on an update with the entering flag clear (as on the first
update), for a vehicle that is not a boat and whose seat (after the `ANY_SEAT` resolution) has
an entry door, when the length that `glm::length` computes for the horizontal offset from the
character to the seat's entry point exceeds `15.f`, `update` returns true and leaves the whole
scene unchanged (position, rotation, animation, raw movement, vehicle/seat occupancy and door
targets). For finite horizontal coordinates the computed length follows the exact horizontal
distance `d`: it exceeds `15.f` whenever `d^2 ≥ 225 * (1 + 2^-19)` and does not whenever
`d^2 ≤ 225 * (1 - 2^-19)`. For a boat `update` returns true and seats the character at once,
whatever the distance. -/
theorem C10_gives_up_beyond_fifteen_computed (anySeat : ℤ) (self : EnterVehicle) (s : Scene)
    (vehicle : VehicleObject) (hveh : s.vehicles[self.vehicle]? = some vehicle) :
    (vehicle.type ≠ VehicleType.BOAT →
      ∀ (info : Seat) (door : VehiclePart),
        vehicle.getSeat (resolveSeat anySeat self vehicle s.character.position).seat = some info →
        info.door = some door → self.entering = false →
        (F32.gt ({ info.entry.sub s.character.position with z := F32.zero } : Vec3).length
            (F32.lit 15 1) = true →
          update anySeat self s =
            some (true, resolveSeat anySeat self vehicle s.character.position, s)) ∧
        (info.entry.x.isFinite = true → info.entry.y.isFinite = true →
          s.character.position.x.isFinite = true → s.character.position.y.isFinite = true →
          (225 * (1 + 1 / 2 ^ 19) ≤ Vec3.dist2XY info.entry s.character.position →
            F32.gt ({ info.entry.sub s.character.position with z := F32.zero } : Vec3).length
              (F32.lit 15 1) = true) ∧
          (Vec3.dist2XY info.entry s.character.position ≤ 225 * (1 - 1 / 2 ^ 19) →
            F32.gt ({ info.entry.sub s.character.position with z := F32.zero } : Vec3).length
              (F32.lit 15 1) = false))) ∧
    (vehicle.type = VehicleType.BOAT →
      update anySeat self s =
        some (true, self,
          { s with character := s.character.enterVehicle (some self.vehicle) self.seat })) := by
  refine ⟨?_, ?_⟩
  · intro htype info door hseat hdoor hent
    refine ⟨?_, fun htx hty hpx hpy => Vec3.sub_length_gt_fifteen _ _ htx hty hpx hpy⟩
    intro hfar
    have hent2 : (resolveSeat anySeat self vehicle s.character.position).entering = false := by
      unfold resolveSeat; split <;> exact hent
    have h1 : F32.le ({ info.entry.sub s.character.position with z := F32.zero } : Vec3).length
        (F32.lit 2 5) = false := by
      rcases h : F32.le ({ info.entry.sub s.character.position with z := F32.zero } : Vec3).length
        (F32.lit 2 5) with _ | _
      · rfl
      · have h2 := F32.lt_of_lt_of_le _ _ _ hfar h
        exact absurd h2 (by decide)
    unfold update
    simp only [hveh, if_neg htype, VehicleObject.getSeatEntryDoor,
      VehicleObject.getSeatEntryPosition, hseat, Option.map_some', hdoor, hent2, h1, hfar]
    simp
  · intro htype
    unfold update
    simp only [hveh, if_pos htype]

/-- Witness for C10 (amended): the sample character a hundred units east of the sample car
gives up on seat 0, and the sample character is seated in the distant sample boat at once. -/
theorem C10_gives_up_beyond_fifteen_computed_witness :
    update (-1) ⟨0, 0, false⟩ (sceneWith sampleCar (point 100 0 0)) =
        some (true, resolveSeat (-1) ⟨0, 0, false⟩ sampleCar (point 100 0 0),
          sceneWith sampleCar (point 100 0 0)) ∧
      update (-1) ⟨0, 0, false⟩ (sceneWith sampleBoat (point 0 0 0)) =
        some (true, ⟨0, 0, false⟩,
          { sceneWith sampleBoat (point 0 0 0) with
            character := (sceneWith sampleBoat (point 0 0 0)).character.enterVehicle
              (some 0) 0 }) :=
  ⟨((C10_gives_up_beyond_fifteen_computed (-1) ⟨0, 0, false⟩
      (sceneWith sampleCar (point 100 0 0)) sampleCar rfl).1
      (by decide) ⟨point 1 0 0, some sampleDoor⟩ sampleDoor (by decide) rfl rfl).1 (by decide),
    (C10_gives_up_beyond_fifteen_computed (-1) ⟨0, 0, false⟩
      (sceneWith sampleBoat (point 0 0 0)) sampleBoat rfl).2 rfl⟩

end EnterVehicle

/-! ## `GoTo` in binary32 -/

/-- C8 (as stated, refuted): for the target `(0x1.999992p-4, 0x1.2dfd6ap-14, 0)` and the
character at the origin the horizontal distance is below `0.1` (its square is below `1/100`),
but `glm::length` computes exactly `0.1f`, which is not below `0.1f`: `update` returns
false. (Coordinates in units of `2^-149`.) -/
theorem C8_goto_not_completed_below_a_tenth :
    100 * (13421769 * 2 ^ 122 * (13421769 * 2 ^ 122) +
        9895605 * 2 ^ 112 * (9895605 * 2 ^ 112)) < 2 ^ 149 * 2 ^ 149 ∧
    (Vec3.sub ⟨F32.finite false (13421769 * 2 ^ 122), F32.finite false (9895605 * 2 ^ 112),
        F32.zero⟩ (point 0 0 0)).lengthXY = F32.lit 1 10 ∧
    (GoTo.update
      ⟨⟨F32.finite false (13421769 * 2 ^ 122), F32.finite false (9895605 * 2 ^ 112), F32.zero⟩⟩
      sampleScene).map Prod.fst = some false := by
  refine ⟨by decide, by decide, by decide⟩

/-- C8 (amended): `GoTo::update` always returns; it returns true exactly when the horizontal
length of `target - position`, computed in binary32 as `glm::length` computes it, is below
`0.1f`, whatever the two Z coordinates are; when it returns true the scene is unchanged except
that the character's position is `(target.x, target.y, previous z)`; when it returns false the
position is unchanged, the rotation faces the target and the raw movement is `(1, 0, 0)`. For
finite horizontal coordinates the computed length follows the exact horizontal distance `d`:
`update` returns true whenever `d^2 ≤ (1 - 2^-19) / 100` and false whenever
`d^2 ≥ (1 + 2^-19) / 100`. -/
theorem C8_goto_completes_within_computed_tenth (self : GoTo) (s : Scene) :
    ∃ b s1, GoTo.update self s = some (b, self, s1) ∧
      (b = true ↔
        F32.lt (self.target.sub s.character.position).lengthXY (F32.lit 1 10) = true) ∧
      (b = true →
        s1.character.position = ⟨self.target.x, self.target.y, s.character.position.z⟩ ∧
        s1 = { s with character := { s.character with
                 position := ⟨self.target.x, self.target.y, s.character.position.z⟩ } }) ∧
      (b = false →
        s1.character.position = s.character.position ∧
        s1.rawMovement = ⟨F32.lit 1 1, F32.zero, F32.zero⟩ ∧
        s1 = { s with
                character := { s.character with
                  rotation := Quat.facing (F32.sub self.target.y s.character.position.y)
                    (F32.sub self.target.x s.character.position.x) },
                rawMovement := ⟨F32.lit 1 1, F32.zero, F32.zero⟩ }) ∧
      (∀ z z1 : F32,
        (GoTo.update ⟨{ self.target with z := z }⟩
          { s with character := { s.character with
              position := { s.character.position with z := z1 } } }).map Prod.fst = some b) ∧
      (self.target.x.isFinite = true → self.target.y.isFinite = true →
        s.character.position.x.isFinite = true → s.character.position.y.isFinite = true →
        (100 * Vec3.dist2XY self.target s.character.position ≤ 1 - 1 / 2 ^ 19 → b = true) ∧
        (1 + 1 / 2 ^ 19 ≤ 100 * Vec3.dist2XY self.target s.character.position →
          b = false)) := by
  rcases h : F32.lt (self.target.sub s.character.position).lengthXY (F32.lit 1 10) with _ | _
  · refine ⟨false,
      ({ s with character := { s.character with
                  rotation := Quat.facing (self.target.sub s.character.position).y
                    (self.target.sub s.character.position).x } } : Scene).setRawMovement
        ⟨F32.lit 1 1, F32.zero, F32.zero⟩,
      by simp only [GoTo.update, h, Bool.false_eq_true, if_false], ?_, ?_, ?_, ?_, ?_⟩
    · exact ⟨fun hb => hb, fun hb => hb⟩
    · intro hb; exact absurd hb (by decide)
    · intro _; exact ⟨rfl, rfl, rfl⟩
    · intro z z1
      have h2 : F32.lt (Vec3.sub { self.target with z := z }
          { s.character.position with z := z1 }).lengthXY (F32.lit 1 10) = false := h
      simp only [GoTo.update, h2, Bool.false_eq_true, if_false, Option.map_some']
    · intro htx hty hpx hpy
      obtain ⟨hnear, -⟩ := Vec3.sub_lengthXY_lt_tenth _ _ htx hty hpx hpy
      refine ⟨fun hd => ?_, fun _ => rfl⟩
      have h3 := hnear hd
      rw [h] at h3
      exact h3
  · refine ⟨true,
      { s with character := s.character.setPosition
                 ⟨self.target.x, self.target.y, s.character.position.z⟩ },
      by simp only [GoTo.update, h, if_true], ?_, ?_, ?_, ?_, ?_⟩
    · exact ⟨fun _ => rfl, fun _ => rfl⟩
    · intro _; exact ⟨rfl, rfl⟩
    · intro hb; exact absurd hb (by decide)
    · intro z z1
      have h2 : F32.lt (Vec3.sub { self.target with z := z }
          { s.character.position with z := z1 }).lengthXY (F32.lit 1 10) = true := h
      simp only [GoTo.update, h2, if_true, Option.map_some']
    · intro htx hty hpx hpy
      obtain ⟨-, hfar⟩ := Vec3.sub_lengthXY_lt_tenth _ _ htx hty hpx hpy
      refine ⟨fun _ => rfl, fun hd => ?_⟩
      have h3 := hfar hd
      rw [h] at h3
      exact h3

end Binary32

/-! ## `CharacterController` in binary32: lemmas -/

namespace Binary32

namespace VehicleObject

/-- Commanding a seat's entry door records the target on that door. -/
theorem getSeat_of_setPartTarget (v : VehicleObject) (seat : ℤ) (info : Seat)
    (door : VehiclePart) (enable : Bool) (angle : F32) (hseat : v.getSeat seat = some info)
    (hdoor : info.door = some door) :
    (v.setPartTarget seat enable angle).getSeat seat =
      some { info with door := some { door with target := some (enable, angle) } } := by
  have h0 : 0 ≤ seat := by
    by_contra hneg
    simp [getSeat, hneg] at hseat
  have hidx : v.seats[seat.toNat]? = some info := by
    simpa [getSeat, h0] using hseat
  have hlt : seat.toNat < v.seats.length := by
    rcases Nat.lt_or_ge seat.toNat v.seats.length with h | h
    · exact h
    · rw [List.getElem?_eq_none h] at hidx; cases hidx
  simp only [setPartTarget, hseat, hdoor]
  simp only [getSeat, if_pos h0]
  rw [List.getElem?_set_self hlt]

end VehicleObject

namespace CharacterController

variable {α : Type}

theorem updateLocomotion_keeps_slots (c c1 : CharacterController α) (dt : F32)
    (h : updateLocomotion c dt = some c1) :
    c1._currentActivity = c._currentActivity ∧ c1._nextActivity = c._nextActivity ∧
      c1.updated = c.updated := by
  unfold updateLocomotion at h
  simp only [] at h
  repeat' split at h
  all_goals first
    | (cases h; done)
    | (cases h; exact ⟨rfl, rfl, rfl⟩)

theorem update_without_activity (upd : α → Scene → Option (Bool × α × Scene))
    (c c1 : CharacterController α) (dt : F32) (hloc : updateLocomotion c dt = some c1)
    (hcur : c._currentActivity = none) :
    update upd c dt = some { c1 with scene := c1.scene.setRawMovement Vec3.zero } := by
  have hs := updateLocomotion_keeps_slots c c1 dt hloc
  have h1 : c1._currentActivity = none := by rw [hs.1, hcur]
  simp [update, hloc, updateActivity, h1]

theorem update_activity_failed (upd : α → Scene → Option (Bool × α × Scene))
    (c c1 : CharacterController α) (dt : F32) (a : α)
    (hloc : updateLocomotion c dt = some c1) (hcur : c._currentActivity = some a)
    (hupd : upd a (c1.scene.setRawMovement Vec3.zero) = none) : update upd c dt = none := by
  have hs := updateLocomotion_keeps_slots c c1 dt hloc
  have h1 : c1._currentActivity = some a := by rw [hs.1, hcur]
  simp [update, hloc, updateActivity, h1, hupd]

theorem update_activity_running (upd : α → Scene → Option (Bool × α × Scene))
    (c c1 : CharacterController α) (dt : F32) (a a1 : α) (sc : Scene)
    (hloc : updateLocomotion c dt = some c1) (hcur : c._currentActivity = some a)
    (hupd : upd a (c1.scene.setRawMovement Vec3.zero) = some (false, a1, sc)) :
    update upd c dt =
      some { c1 with scene := sc, _currentActivity := some a1,
                     updated := c.updated ++ [(a, false)] } := by
  have hs := updateLocomotion_keeps_slots c c1 dt hloc
  have h1 : c1._currentActivity = some a := by rw [hs.1, hcur]
  simp [update, hloc, updateActivity, h1, hupd, hs.2.2]

theorem update_activity_completed (upd : α → Scene → Option (Bool × α × Scene))
    (c c1 : CharacterController α) (dt : F32) (a a1 : α) (sc : Scene)
    (hloc : updateLocomotion c dt = some c1) (hcur : c._currentActivity = some a)
    (hupd : upd a (c1.scene.setRawMovement Vec3.zero) = some (true, a1, sc)) :
    update upd c dt =
      some { c1 with scene := sc, _currentActivity := c._nextActivity, _nextActivity := none,
                     updated := c.updated ++ [(a, true)] } := by
  have hs := updateLocomotion_keeps_slots c c1 dt hloc
  have h1 : c1._currentActivity = some a := by rw [hs.1, hcur]
  rcases hn : c._nextActivity with _ | n
  · have h2 : c1._nextActivity = none := by rw [hs.2.1, hn]
    simp [update, hloc, updateActivity, h1, hupd, hs.2.2, h2]
  · have h2 : c1._nextActivity = some n := by rw [hs.2.1, hn]
    simp [update, hloc, updateActivity, h1, hupd, hs.2.2, h2, setActivity]

/-- What `update` does after lines 55-156: with no current activity it only resets the raw
movement; with a current activity it returns exactly when that activity's `update`, called on
the scene with the raw movement reset, returns, and the scene is then the one the activity
left; the idle timer is not touched. -/
theorem update_after_locomotion (upd : α → Scene → Option (Bool × α × Scene))
    (c c1 : CharacterController α) (dt : F32) (hloc : updateLocomotion c dt = some c1) :
    (c._currentActivity = none →
      update upd c dt = some { c1 with scene := c1.scene.setRawMovement Vec3.zero }) ∧
    (∀ a, c._currentActivity = some a →
      (upd a (c1.scene.setRawMovement Vec3.zero) = none → update upd c dt = none) ∧
      (∀ r a1 sc, upd a (c1.scene.setRawMovement Vec3.zero) = some (r, a1, sc) →
        ∃ c2, update upd c dt = some c2 ∧ c2.scene = sc ∧
          c2.vehicleIdle = c1.vehicleIdle ∧ c2.updated = c.updated ++ [(a, r)])) := by
  refine ⟨fun hcur => update_without_activity upd c c1 dt hloc hcur, ?_⟩
  intro a hcur
  refine ⟨fun h => update_activity_failed upd c c1 dt a hloc hcur h, ?_⟩
  intro r a1 sc hupd
  cases r
  · exact ⟨_, update_activity_running upd c c1 dt a a1 sc hloc hcur hupd, rfl, rfl, rfl⟩
  · exact ⟨_, update_activity_completed upd c c1 dt a a1 sc hloc hcur hupd, rfl, rfl, rfl⟩

/-- The vehicle handed on by lines 60-69: the driver's seat applies the steering input. -/
theorem steering_keeps_seats (vehicle : VehicleObject) (seat : ℤ) (d : Vec3) :
    (if seat = 0 then
        ((if F32.gt (F32.abs d.x) (F32.lit 1 100) = true then
            (vehicle.setSteeringAngle d.y).setHandbraking false
          else vehicle.setSteeringAngle d.y).setThrottle d.x)
      else vehicle).seats = vehicle.seats := by
  split
  · split <;> rfl
  · rfl

end CharacterController
end Binary32

/-! ## `CharacterController` in binary32: animation selection on foot -/

namespace Binary32
namespace CharacterController

variable {α : Type}

/-- C14 (as stated, refuted): (a) on foot, with no activity and the intent
`(0x1.d9d336p-11, 0x1.c0dae8p-12, 0)`, whose magnitude is below `0.001` (its square is below
`10^-6`), `glm::length` computes exactly `0.001f`, which is not below `0.001f`: `update` does
not play the idle animation and leaves the animator with no clip; (b) on foot with no intent
and a `Jump` activity current, which is none of the cases listed, `update` starts the
jump-start animation, through the activity it updates. (Components in units of `2^-149`.) -/
theorem C14_idle_missed_and_activity_animates :
    ((intentScene ⟨F32.finite false (15526299 * 2 ^ 115), F32.finite false (3677021 * 2 ^ 116),
        F32.zero⟩).character.currentVehicle = none ∧
      1000000 * (15526299 * 2 ^ 115 * (15526299 * 2 ^ 115) +
        3677021 * 2 ^ 116 * (3677021 * 2 ^ 116)) < 2 ^ 149 * 2 ^ 149 ∧
      Vec3.length ⟨F32.finite false (15526299 * 2 ^ 115), F32.finite false (3677021 * 2 ^ 116),
        F32.zero⟩ = F32.lit 1 1000 ∧
      sampleAnimations.idle ≠ none ∧
      (update Jump.update
        (controllerWith
          (intentScene ⟨F32.finite false (15526299 * 2 ^ 115),
            F32.finite false (3677021 * 2 ^ 116), F32.zero⟩) none F32.zero)
        (F32.lit 1 60)).map (fun c2 => c2.scene.character.animator.animation) = some none) ∧
    ((intentScene Vec3.zero).character.currentVehicle = none ∧
      Vec3.length Vec3.zero = F32.zero ∧
      (intentScene Vec3.zero).character.animator.animation = none ∧
      sampleAnimations.jump_start ≠ none ∧
      (update Jump.update (controllerWith (intentScene Vec3.zero) (some ⟨false⟩) F32.zero)
        (F32.lit 1 60)).map (fun c2 => c2.scene.character.animator.animation) =
          some sampleAnimations.jump_start) := by
  refine ⟨⟨by decide, by decide, by decide, by decide, by decide⟩,
    by decide, by decide, by decide, by decide, by decide⟩

/-- C14 (amended): in binary32, with `m` the magnitude of the intent as `glm::length` computes
it, for a character on foot `update` first selects the animation, changing nothing but the
character by at most one `playAnimation`: `m > 0.01f` and running plays run unless run is
current; `m > 0.01f` and not running plays walk once a current walk-start has completed, and
plays walk-start unless walk-start or walk is current; `m < 0.001f` (strictly) with no current
activity plays idle; in every other case the character is left as it was. With no current
activity `update` returns with that character. With a current activity, that activity's
`update` is then called on that character, and `update` returns the scene the activity left:
any further animation is started by the activity. For an intent with finite components the
computed magnitude follows the exact one, `|d|`: `m > 0.01f` holds whenever
`|d|^2 ≥ (1 + 2^-19) / 10^4` and fails whenever `|d|^2 ≤ (1 - 2^-19) / 10^4`, and `m < 0.001f`
holds whenever `|d|^2 ≤ (1 - 2^-19) / 10^6` and fails whenever `|d|^2 ≥ (1 + 2^-19) / 10^6`. -/
theorem C14_update_selects_locomotion_animation
    (upd : α → Scene → Option (Bool × α × Scene)) (c : CharacterController α) (dt : F32)
    (hfoot : c.scene.character.currentVehicle = none) :
    ∃ c1, updateLocomotion c dt = some c1 ∧
      c1 = { c with scene := { c.scene with character := c1.scene.character } } ∧
      (F32.gt c.scene.rawMovement.length (F32.lit 1 100) = true →
        (c.running = true →
          (c.scene.character.animator.animation ≠ c.scene.character.animations.run →
            c1.scene.character =
              c.scene.character.playAnimation c.scene.character.animations.run true) ∧
          (c.scene.character.animator.animation = c.scene.character.animations.run →
            c1.scene.character = c.scene.character)) ∧
        (c.running = false →
          (c.scene.character.animator.animation = c.scene.character.animations.walk_start →
            c.scene.character.animator.completed = true →
            c1.scene.character =
              c.scene.character.playAnimation c.scene.character.animations.walk true) ∧
          (c.scene.character.animator.animation = c.scene.character.animations.walk_start →
            c.scene.character.animator.completed = false →
            c1.scene.character = c.scene.character) ∧
          (c.scene.character.animator.animation ≠ c.scene.character.animations.walk_start →
            c.scene.character.animator.animation ≠ c.scene.character.animations.walk →
            c1.scene.character =
              c.scene.character.playAnimation c.scene.character.animations.walk_start false) ∧
          (c.scene.character.animator.animation ≠ c.scene.character.animations.walk_start →
            c.scene.character.animator.animation = c.scene.character.animations.walk →
            c1.scene.character = c.scene.character))) ∧
      (F32.lt c.scene.rawMovement.length (F32.lit 1 1000) = true →
        c._currentActivity = none →
        c1.scene.character =
          c.scene.character.playAnimation c.scene.character.animations.idle true) ∧
      (F32.gt c.scene.rawMovement.length (F32.lit 1 100) = false →
        (c._currentActivity ≠ none ∨
          F32.lt c.scene.rawMovement.length (F32.lit 1 1000) = false) →
        c1.scene.character = c.scene.character) ∧
      (c._currentActivity = none →
        ∃ c2, update upd c dt = some c2 ∧ c2.scene.character = c1.scene.character) ∧
      (∀ a, c._currentActivity = some a →
        (upd a (c1.scene.setRawMovement Vec3.zero) = none → update upd c dt = none) ∧
        (∀ r a1 sc, upd a (c1.scene.setRawMovement Vec3.zero) = some (r, a1, sc) →
          ∃ c2, update upd c dt = some c2 ∧ c2.scene = sc)) ∧
      (c.scene.rawMovement.isFinite = true →
        (1 + 1 / 2 ^ 19 ≤ 10000 * c.scene.rawMovement.norm2 →
          F32.gt c.scene.rawMovement.length (F32.lit 1 100) = true) ∧
        (10000 * c.scene.rawMovement.norm2 ≤ 1 - 1 / 2 ^ 19 →
          F32.gt c.scene.rawMovement.length (F32.lit 1 100) = false) ∧
        (1000000 * c.scene.rawMovement.norm2 ≤ 1 - 1 / 2 ^ 19 →
          F32.lt c.scene.rawMovement.length (F32.lit 1 1000) = true) ∧
        (1 + 1 / 2 ^ 19 ≤ 1000000 * c.scene.rawMovement.norm2 →
          F32.lt c.scene.rawMovement.length (F32.lit 1 1000) = false)) := by
  have hexcl : F32.gt c.scene.rawMovement.length (F32.lit 1 100) = true →
      F32.lt c.scene.rawMovement.length (F32.lit 1 1000) = false := by
    intro h
    rcases hl : F32.lt c.scene.rawMovement.length (F32.lit 1 1000) with _ | _
    · rfl
    · have h2 := F32.lt_of_lt_of_le _ _ _ h (F32.le_of_lt _ _ hl)
      exact absurd h2 (by decide)
  have hexcl2 : F32.lt c.scene.rawMovement.length (F32.lit 1 1000) = true →
      F32.gt c.scene.rawMovement.length (F32.lit 1 100) = false := by
    intro h
    rcases hg : F32.gt c.scene.rawMovement.length (F32.lit 1 100) with _ | _
    · rfl
    · rw [hexcl hg] at h; cases h
  have hloc : ∃ c1, updateLocomotion c dt = some c1 := by
    unfold updateLocomotion
    simp only [hfoot]
    exact ⟨_, rfl⟩
  obtain ⟨c1, hc1⟩ := hloc
  have hafter := update_after_locomotion upd c c1 dt hc1
  refine ⟨c1, hc1, ?_, ?_, ?_, ?_, ?_, ?_, ?_⟩
  · unfold updateLocomotion at hc1
    simp only [hfoot, Option.some.injEq] at hc1
    rw [← hc1]
  · intro hG
    have hL : F32.lt c.scene.rawMovement.length (F32.lit 1 1000) = false := hexcl hG
    unfold updateLocomotion at hc1
    simp only [hfoot, Option.some.injEq] at hc1
    rw [← hc1]
    refine ⟨?_, ?_⟩
    · intro hrun
      refine ⟨?_, ?_⟩
      · intro hne
        rcases hc : c._currentActivity with _ | a <;>
          simp only [hG, hL, hrun, if_true, if_pos hne, Bool.false_eq_true, if_false]
      · intro heq
        rcases hc : c._currentActivity with _ | a <;>
          simp only [hG, hL, hrun, if_true, if_neg (not_not.mpr heq), Bool.false_eq_true,
            if_false]
    · intro hrun
      refine ⟨?_, ?_, ?_, ?_⟩
      · intro h1 h2
        rcases hc : c._currentActivity with _ | a <;>
          simp only [hG, hL, hrun, if_true, if_pos h1, if_pos h2, Bool.false_eq_true, if_false]
      · intro h1 h2
        have h3 : ¬ c.scene.character.animator.completed = true := by rw [h2]; decide
        rcases hc : c._currentActivity with _ | a <;>
          simp only [hG, hL, hrun, if_true, if_pos h1, if_neg h3, Bool.false_eq_true, if_false]
      · intro h1 h2
        rcases hc : c._currentActivity with _ | a <;>
          simp only [hG, hL, hrun, if_true, if_neg h1, if_pos h2, Bool.false_eq_true, if_false]
      · intro h1 h2
        rcases hc : c._currentActivity with _ | a <;>
          simp only [hG, hL, hrun, if_true, if_neg h1, if_neg (not_not.mpr h2),
            Bool.false_eq_true, if_false]
  · intro hL hcur
    unfold updateLocomotion at hc1
    simp only [hfoot, Option.some.injEq] at hc1
    rw [← hc1]
    simp only [hexcl2 hL, hL, hcur, Bool.false_eq_true, if_false, if_true]
  · intro hG hor
    unfold updateLocomotion at hc1
    simp only [hfoot, Option.some.injEq] at hc1
    rw [← hc1]
    rcases hor with hact | hL
    · rcases hcur : c._currentActivity with _ | a
      · exact absurd hcur hact
      · simp only [hG, Bool.false_eq_true, if_false]
    · rcases hc : c._currentActivity with _ | a <;>
        simp only [hG, hL, Bool.false_eq_true, if_false]
  · intro hcur
    exact ⟨_, hafter.1 hcur, rfl⟩
  · intro a hcur
    refine ⟨(hafter.2 a hcur).1, ?_⟩
    intro r a1 sc hupd
    obtain ⟨c2, h1, h2, -, -⟩ := (hafter.2 a hcur).2 r a1 sc hupd
    exact ⟨c2, h1, h2⟩
  · intro hfin
    obtain ⟨h1, h2⟩ := Vec3.length_gt_hundredth _ hfin
    obtain ⟨h3, h4⟩ := Vec3.length_lt_thousandth _ hfin
    exact ⟨h1, h2, h3, h4⟩

/-- Witness for C14 (amended): the sample character on foot with no activity and no intent:
`update` plays the idle animation. -/
theorem C14_update_selects_locomotion_animation_witness :
    ∃ c1 c2, updateLocomotion (controllerWith (intentScene Vec3.zero) (none : Option Jump)
          F32.zero) (F32.lit 1 60) = some c1 ∧
      update Jump.update (controllerWith (intentScene Vec3.zero) none F32.zero)
        (F32.lit 1 60) = some c2 ∧
      c2.scene.character.animator.animation = sampleAnimations.idle := by
  obtain ⟨c1, hloc, -, -, hidle, -, hupd, -, -⟩ :=
    C14_update_selects_locomotion_animation Jump.update
      (controllerWith (intentScene Vec3.zero) none F32.zero) (F32.lit 1 60) rfl
  obtain ⟨c2, h2, h3⟩ := hupd rfl
  refine ⟨c1, c2, hloc, h2, ?_⟩
  rw [h3, hidle (by decide) rfl]
  rfl

end CharacterController
end Binary32

/-! ## `CharacterController` in binary32: the idle timer in a vehicle -/

namespace Binary32
namespace CharacterController

variable {α : Type}

/-- Lines 55-97 for a character seated in a vehicle. -/
theorem seated_locomotion (c : CharacterController α) (dt : F32) (v : ℕ)
    (vehicle : VehicleObject) (info : Seat)
    (hv : c.scene.character.currentVehicle = some v)
    (hveh : c.scene.vehicles[v]? = some vehicle)
    (hseat : vehicle.getSeat c.scene.character.currentSeat = some info) :
    ∃ c1 vehicle1, updateLocomotion c dt = some c1 ∧ c1.scene.vehicles[v]? = some vehicle1 ∧
      (c._currentActivity = none →
        (F32.le c.scene.rawMovement.length (F32.lit 1 10) = true →
          c1.vehicleIdle = F32.add c.vehicleIdle dt) ∧
        (F32.le c.scene.rawMovement.length (F32.lit 1 10) = false →
          c1.vehicleIdle = F32.zero) ∧
        (∀ door : VehiclePart, F32.ge c1.vehicleIdle (F32.lit 1 1) = true →
          info.door = some door → door.constraint ≠ none →
          vehicle1.getSeat c.scene.character.currentSeat =
            some { info with
              door := some { door with target := some (true, door.closedAngle) } }) ∧
        ((F32.ge c1.vehicleIdle (F32.lit 1 1) = false ∨ info.door = none ∨
            ∃ door, info.door = some door ∧ door.constraint = none) →
          vehicle1.seats = vehicle.seats)) ∧
      (c._currentActivity ≠ none →
        c1.vehicleIdle = c.vehicleIdle ∧ vehicle1.seats = vehicle.seats) := by
  have hvlt : v < c.scene.vehicles.length := by
    rcases Nat.lt_or_ge v c.scene.vehicles.length with h | h
    · exact h
    · rw [List.getElem?_eq_none h] at hveh; cases hveh
  have hdoorq : vehicle.getSeatEntryDoor c.scene.character.currentSeat = some info.door := by
    simp [VehicleObject.getSeatEntryDoor, hseat]
  have hsteer := steering_keeps_seats vehicle c.scene.character.currentSeat c.scene.rawMovement
  have hset : ∀ (sc : Scene) (w : VehicleObject), sc.vehicles = c.scene.vehicles →
      (sc.setVehicle v w).vehicles[v]? = some w := by
    intro sc w hsc
    simp only [Scene.setVehicle]
    rw [List.getElem?_set_self (by rw [hsc]; exact hvlt)]
  have hplay : (c.scene.character.playAnimation c.scene.character.animations.car_sit
      true).currentSeat = c.scene.character.currentSeat := by
    unfold CharacterObject.playAnimation; split <;> rfl
  rcases hcur : c._currentActivity with _ | a
  · -- no current activity
    unfold updateLocomotion
    simp only [hv, hveh, hcur, hplay]
    have hsteerDoor : ∀ w : VehicleObject, w.seats = vehicle.seats →
        w.getSeatEntryDoor c.scene.character.currentSeat = some info.door := by
      intro w hw
      rw [← hdoorq]
      simp only [VehicleObject.getSeatEntryDoor, VehicleObject.getSeat, hw]
    have hsteerSeat : ∀ w : VehicleObject, w.seats = vehicle.seats →
        w.getSeat c.scene.character.currentSeat = some info := by
      intro w hw
      rw [← hseat]
      simp only [VehicleObject.getSeat, hw]
    have hidle1 : F32.le c.scene.rawMovement.length (F32.lit 1 10) = true →
        (if F32.le c.scene.rawMovement.length (F32.lit 1 10) = true then
          F32.add c.vehicleIdle dt else F32.zero) = F32.add c.vehicleIdle dt := by
      intro h
      rw [if_pos h]
    have hidle2 : F32.le c.scene.rawMovement.length (F32.lit 1 10) = false →
        (if F32.le c.scene.rawMovement.length (F32.lit 1 10) = true then
          F32.add c.vehicleIdle dt else F32.zero) = F32.zero := by
      intro h
      rw [h]
      rfl
    by_cases hge : F32.ge (if F32.le c.scene.rawMovement.length (F32.lit 1 10) = true then
        F32.add c.vehicleIdle dt else F32.zero) (F32.lit 1 1) = true
    · simp only [if_pos hge, hsteerDoor _ hsteer]
      rcases hd : info.door with _ | door
      · refine ⟨_, _, rfl, hset _ _ rfl, fun _ => ⟨hidle1, hidle2, ?_, ?_⟩,
          fun h => absurd rfl h⟩
        · intro door _ hdoor; cases hdoor
        · intro _; exact hsteer
      · by_cases hcon : door.constraint.isSome = true
        · simp only [if_pos hcon]
          refine ⟨_, _, rfl, hset _ _ rfl, fun _ => ⟨hidle1, hidle2, ?_, ?_⟩,
            fun h => absurd rfl h⟩
          · intro door1 _ hdoor1 _
            cases hdoor1
            exact VehicleObject.getSeat_of_setPartTarget _ _ info door true door.closedAngle
              (hsteerSeat _ hsteer) hd
          · rintro (hlt | hnone | ⟨door1, hdoor1, hcon1⟩)
            · rw [hge] at hlt
              cases hlt
            · cases hnone
            · cases hdoor1
              rw [hcon1] at hcon
              cases hcon
        · simp only [if_neg hcon]
          refine ⟨_, _, rfl, hset _ _ rfl, fun _ => ⟨hidle1, hidle2, ?_, ?_⟩,
            fun h => absurd rfl h⟩
          · intro door1 _ hdoor1 hne
            cases hdoor1
            exact absurd (Option.isSome_iff_ne_none.mpr hne) hcon
          · intro _; exact hsteer
    · simp only [if_neg hge]
      refine ⟨_, _, rfl, hset _ _ rfl, fun _ => ⟨hidle1, hidle2, ?_, ?_⟩,
        fun h => absurd rfl h⟩
      · intro door h1 _ _
        exact absurd h1 hge
      · intro _; exact hsteer
  · -- an activity is current
    unfold updateLocomotion
    simp only [hv, hveh, hcur]
    refine ⟨_, _, rfl, hset _ _ rfl, ?_, ?_⟩
    · intro h; cases h
    · intro _; exact ⟨rfl, hsteer⟩

/-- C16 (as stated, refuted): for the sample character seated in seat 1 of the sample car,
(a) with an `ExitVehicle` activity current, `update` commands the door of that seat, to
its open angle, through the activity it updates, although an activity is active; (b) with no
activity and the intent `(0.1f, 2^-20, 0)`, whose magnitude is above `0.1` (its square is above
`1/100`), `glm::length` computes exactly `0.1f`, which is `<= 0.1f`: the timer is not reset but
grows from `0` to `dt`; (c) with no activity, no intent, the timer at `1 - 2^-24` and
`dt = 3 * 2^-26`, whose sum is below `1`, the binary32 sum is exactly `1.0f`: the door of the
seat is commanded to its closed angle. (Values in units of `2^-149`.) -/
theorem C16_activity_opens_door_and_rounding_moves_timer :
    ((seatedScene Vec3.zero).vehicles.map (fun w => (w.getSeat 1).map (fun i =>
        i.door.map (fun part => part.target))) = [some (some none)] ∧
      (update ExitVehicle.update
        (controllerWith (seatedScene Vec3.zero) (some ⟨⟩) F32.zero) (F32.lit 1 60)).map
          (fun c2 => c2.scene.vehicles.map (fun w => (w.getSeat 1).map (fun i =>
            i.door.map (fun part => part.target)))) =
        some [some (some (some (true, sampleDoor.openAngle)))]) ∧
    (F32.lit 1 10 = F32.finite false (13421773 * 2 ^ 122) ∧
      F32.lit 1 1048576 = F32.finite false (2 ^ 129) ∧
      2 ^ 149 * 2 ^ 149 < 100 * (13421773 * 2 ^ 122 * (13421773 * 2 ^ 122) +
        2 ^ 129 * 2 ^ 129) ∧
      Vec3.length ⟨F32.lit 1 10, F32.lit 1 1048576, F32.zero⟩ = F32.lit 1 10 ∧
      (update ExitVehicle.update
        (controllerWith (seatedScene ⟨F32.lit 1 10, F32.lit 1 1048576, F32.zero⟩) none
          F32.zero) (F32.lit 1 60)).map (fun c2 => c2.vehicleIdle) = some (F32.lit 1 60) ∧
      F32.lit 1 60 ≠ F32.zero) ∧
    ((2 ^ 24 - 1) * 2 ^ 125 + 3 * 2 ^ 123 < 2 ^ 149 ∧
      F32.lit 1 1 = F32.finite false (2 ^ 149) ∧
      F32.add (F32.finite false ((2 ^ 24 - 1) * 2 ^ 125)) (F32.finite false (3 * 2 ^ 123)) =
        F32.lit 1 1 ∧
      (update ExitVehicle.update
        (controllerWith (seatedScene Vec3.zero) none
          (F32.finite false ((2 ^ 24 - 1) * 2 ^ 125))) (F32.finite false (3 * 2 ^ 123))).map
          (fun c2 => c2.vehicleIdle) = some (F32.lit 1 1) ∧
      (update ExitVehicle.update
        (controllerWith (seatedScene Vec3.zero) none
          (F32.finite false ((2 ^ 24 - 1) * 2 ^ 125))) (F32.finite false (3 * 2 ^ 123))).map
          (fun c2 => c2.scene.vehicles.map (fun w => (w.getSeat 1).map
            (fun i => i.door.map (fun part => part.target)))) =
        some [some (some (some (true, sampleDoor.closedAngle)))]) := by
  refine ⟨⟨by decide, by decide⟩, ⟨by decide, by decide, by decide, by decide, by decide,
    by decide⟩, by decide, by decide, by decide, by decide, by decide⟩

/-- C16 (amended): in binary32, for a character seated in a vehicle with no current activity,
`update` returns with the idle timer set to the binary32 sum `vehicleIdle + dt` when the
magnitude of the intent, as `glm::length` computes it, is `<= 0.1f`, and to `0` otherwise; when
the resulting timer is `>= 1.0f` and the seat's entry door exists and has a constraint, that
door is commanded to its closed angle; otherwise no seat or door of the vehicle changes. With a
current activity, the code of `update` before the activity is called leaves the timer and all
seats and doors unchanged, and `update` returns the timer unchanged and the scene the activity
left: a door is commanded only by the activity. On foot with no current activity `update`
leaves the timer and every vehicle unchanged; on foot with a current activity it leaves the
timer unchanged and returns the scene the activity left. For an intent with finite components
the computed magnitude follows the exact one, `|d|`: it is `<= 0.1f` whenever
`|d|^2 ≤ (1 - 2^-19) / 100` and is not whenever `|d|^2 ≥ (1 + 2^-19) / 100`. -/
theorem C16_update_idle_timer_and_door (upd : α → Scene → Option (Bool × α × Scene))
    (c : CharacterController α) (dt : F32) :
    (∀ (v : ℕ) (vehicle : VehicleObject) (info : Seat),
      c.scene.character.currentVehicle = some v → c.scene.vehicles[v]? = some vehicle →
      vehicle.getSeat c.scene.character.currentSeat = some info →
      (c._currentActivity = none →
        ∃ c2 vehicle2, update upd c dt = some c2 ∧ c2.scene.vehicles[v]? = some vehicle2 ∧
          (F32.le c.scene.rawMovement.length (F32.lit 1 10) = true →
            c2.vehicleIdle = F32.add c.vehicleIdle dt) ∧
          (F32.le c.scene.rawMovement.length (F32.lit 1 10) = false →
            c2.vehicleIdle = F32.zero) ∧
          (∀ door : VehiclePart, F32.ge c2.vehicleIdle (F32.lit 1 1) = true →
            info.door = some door → door.constraint ≠ none →
            vehicle2.getSeat c.scene.character.currentSeat =
              some { info with
                door := some { door with target := some (true, door.closedAngle) } }) ∧
          ((F32.ge c2.vehicleIdle (F32.lit 1 1) = false ∨ info.door = none ∨
              ∃ door, info.door = some door ∧ door.constraint = none) →
            vehicle2.seats = vehicle.seats)) ∧
      (∀ a, c._currentActivity = some a →
        ∃ c1 vehicle1, updateLocomotion c dt = some c1 ∧ c1.vehicleIdle = c.vehicleIdle ∧
          c1.scene.vehicles[v]? = some vehicle1 ∧ vehicle1.seats = vehicle.seats ∧
          (upd a (c1.scene.setRawMovement Vec3.zero) = none → update upd c dt = none) ∧
          (∀ r a1 sc, upd a (c1.scene.setRawMovement Vec3.zero) = some (r, a1, sc) →
            ∃ c2, update upd c dt = some c2 ∧ c2.scene = sc ∧
              c2.vehicleIdle = c.vehicleIdle))) ∧
    (c.scene.character.currentVehicle = none →
      ∃ c1, updateLocomotion c dt = some c1 ∧ c1.vehicleIdle = c.vehicleIdle ∧
        c1.scene.vehicles = c.scene.vehicles ∧
        (c._currentActivity = none →
          ∃ c2, update upd c dt = some c2 ∧ c2.vehicleIdle = c.vehicleIdle ∧
            c2.scene.vehicles = c.scene.vehicles) ∧
        (∀ a, c._currentActivity = some a →
          (upd a (c1.scene.setRawMovement Vec3.zero) = none → update upd c dt = none) ∧
          (∀ r a1 sc, upd a (c1.scene.setRawMovement Vec3.zero) = some (r, a1, sc) →
            ∃ c2, update upd c dt = some c2 ∧ c2.scene = sc ∧
              c2.vehicleIdle = c.vehicleIdle))) ∧
    (c.scene.rawMovement.isFinite = true →
      (100 * c.scene.rawMovement.norm2 ≤ 1 - 1 / 2 ^ 19 →
        F32.le c.scene.rawMovement.length (F32.lit 1 10) = true) ∧
      (1 + 1 / 2 ^ 19 ≤ 100 * c.scene.rawMovement.norm2 →
        F32.le c.scene.rawMovement.length (F32.lit 1 10) = false)) := by
  refine ⟨?_, ?_, fun hfin => Vec3.length_le_tenth _ hfin⟩
  · intro v vehicle info hv hveh hseat
    obtain ⟨c1, vehicle1, hloc, hveh1, hnone, hact⟩ :=
      seated_locomotion c dt v vehicle info hv hveh hseat
    have hafter := update_after_locomotion upd c c1 dt hloc
    refine ⟨?_, ?_⟩
    · intro hcur
      obtain ⟨h1, h2, h3, h4⟩ := hnone hcur
      exact ⟨_, vehicle1, hafter.1 hcur, hveh1, h1, h2, h3, h4⟩
    · intro a hcur
      have hne : c._currentActivity ≠ none := by rw [hcur]; exact Option.some_ne_none a
      obtain ⟨h1, h2⟩ := hact hne
      refine ⟨c1, vehicle1, hloc, h1, hveh1, h2, (hafter.2 a hcur).1, ?_⟩
      intro r a1 sc hupd
      obtain ⟨c2, h3, h4, h5, -⟩ := (hafter.2 a hcur).2 r a1 sc hupd
      exact ⟨c2, h3, h4, h5.trans h1⟩
  · intro hfoot
    have hloc : ∃ c1, updateLocomotion c dt = some c1 ∧ c1.vehicleIdle = c.vehicleIdle ∧
        c1.scene.vehicles = c.scene.vehicles := by
      unfold updateLocomotion
      simp only [hfoot]
      exact ⟨_, rfl, rfl, rfl⟩
    obtain ⟨c1, hc1, hidle, hvehs⟩ := hloc
    have hafter := update_after_locomotion upd c c1 dt hc1
    refine ⟨c1, hc1, hidle, hvehs, ?_, ?_⟩
    · intro hcur
      exact ⟨_, hafter.1 hcur, hidle, hvehs⟩
    · intro a hcur
      refine ⟨(hafter.2 a hcur).1, ?_⟩
      intro r a1 sc hupd
      obtain ⟨c2, h3, h4, h5, -⟩ := (hafter.2 a hcur).2 r a1 sc hupd
      exact ⟨c2, h3, h4, h5.trans hidle⟩

/-- Witness for C16 (amended): the sample character seated in seat 1 of the sample car with no
activity and no intent, the timer at `0.75`, updated with `dt = 0.25`: the timer reaches
`1.0f` and the door of seat 1 is commanded to its closed angle. -/
theorem C16_update_idle_timer_and_door_witness :
    ∃ c2 vehicle2, update ExitVehicle.update
        (controllerWith (seatedScene Vec3.zero) none (F32.lit 3 4)) (F32.lit 1 4) = some c2 ∧
      c2.scene.vehicles[(0 : ℕ)]? = some vehicle2 ∧ c2.vehicleIdle = F32.lit 1 1 ∧
      vehicle2.getSeat 1 =
        some { entry := point 5 0 0,
               door := some { sampleDoor with target := some (true, sampleDoor.closedAngle) } } := by
  obtain ⟨c2, vehicle2, hupd, hveh, h1, -, h3, -⟩ :=
    ((C16_update_idle_timer_and_door ExitVehicle.update
      (controllerWith (seatedScene Vec3.zero) none (F32.lit 3 4)) (F32.lit 1 4)).1 0 sampleCar
      ⟨point 5 0 0, some sampleDoor⟩ rfl rfl rfl).1 rfl
  have hone : c2.vehicleIdle = F32.lit 1 1 := by
    rw [h1 (by decide)]
    decide
  exact ⟨c2, vehicle2, hupd, hveh, hone,
    h3 sampleDoor (by rw [hone]; decide) rfl (by decide)⟩

end CharacterController
end Binary32

end OpenRW
